import Mathlib

/-!
# Verification of the sand-sim cellular automaton engine

Shallow embedding of `src/sandbox.c` / `src/sandbox.h` (the `struct Sandbox`
version: tiles are single bytes, the low 4 bits hold the type id, bit 7 holds
the updated flag synced to the parity of the sandbox lifetime).

Tiles are modelled as `Nat` values; well-formed grids hold bytes `< 256`.
Bitwise operations of the C code are translated to arithmetic on `Nat`
(`tile & 0x0f` is `tile % 16`, `tile & 127` is `tile % 128`, `tile | 128` on a
byte with bit 7 possibly set is `tile % 128 + 128`, `tile >> 7` is
`tile / 128`); bridge lemmas below re-derive the bitwise forms on bytes.

The C code draws randomness from the global unseeded `rand()`.  The embedding
threads an abstract oracle (`Rng`) of outcome streams together with a draw
counter: each primitive that consumes a `rand()` call in C consumes one index
of the corresponding stream.  The floating-point threshold comparisons of the
survival and burn rolls are abstracted into the oracle's boolean outcome,
preserving the code's short-circuits (a PERMANENT tile never draws, a
zero-flammability tile never draws).
-/

/-! ## Tile type ids (enum tile_type in sandbox.h) -/

def AIR : Nat := 0

def SAND : Nat := 1

def WATER : Nat := 2

def WOOD : Nat := 3

def STEAM : Nat := 4

def FIRE : Nat := 5

/-- Lifespan classes indexing `survival_chances[] = {0.50, 0.87, 0.95, 1.0}`.
The enum declaration lives in the repository's header; the order is fixed by
the chance table (FIRE has chance 0.87, STEAM 0.95, everything else 1.0). -/
inductive Lifespan where
  | SHORT
  | AVERAGE
  | LONG
  | PERMANENT
deriving DecidableEq

/-! ## Tile codec (sandbox.c: get_tile_type, get_time_parity, get_updated_flag,
is_tile_updated, set_tile_updated, create_tile) -/

/-- C: `tile_mask = 0x0f; type_id = tile_mask & tile` — the low 4 bits. -/
def getTileType (tile : Nat) : Nat := tile % 16

/-- C: `current_time & 1`. -/
def getTimeParity (currentTime : Nat) : Nat := currentTime % 2

/-- C: `tile >> 7` — bit 7 of a byte. -/
def getUpdatedFlag (tile : Nat) : Nat := tile / 128

/-- C: `updated_flag == time_parity`. -/
def isTileUpdated (tile currentTime : Nat) : Bool :=
  getUpdatedFlag tile == getTimeParity currentTime

/-- C: clear bit 7 with `tile &= 127` when the parity is 0, set it with
`tile |= 128` when the parity is 1. -/
def setTileUpdated (tile currentTime : Nat) : Nat :=
  if getTimeParity currentTime = 0 then tile % 128 else tile % 128 + 128

/-! ## Classification tables (sandbox.c switch statements) -/

/-- C `_tile_flammability`: WOOD burns with chance 0.75, everything else 0. -/
def tileFlammability (tile : Nat) : ℚ :=
  match getTileType tile with
  | 3 => 3 / 4
  | _ => 0

/-- C `_tile_has_gravity`: SAND and WATER fall. -/
def tileHasGravity (tile : Nat) : Bool :=
  match getTileType tile with
  | 1 => true
  | 2 => true
  | _ => false

/-- C `_tile_is_solid`: SAND and WOOD act as floors. -/
def tileIsSolid (tile : Nat) : Bool :=
  match getTileType tile with
  | 1 => true
  | 3 => true
  | _ => false

/-- C `_tile_is_liquid`: only WATER flows. -/
def tileIsLiquid (tile : Nat) : Bool :=
  match getTileType tile with
  | 2 => true
  | _ => false

/-- C `_tile_is_gas`: STEAM and FIRE lift. -/
def tileIsGas (tile : Nat) : Bool :=
  match getTileType tile with
  | 4 => true
  | 5 => true
  | _ => false

/-- C `_tile_dissolves`: no current type dissolves. -/
def tileDissolves (tile : Nat) : Bool :=
  match getTileType tile with
  | _ => false

/-- C `_tile_is_incendiary`: only FIRE ignites neighbours. -/
def tileIsIncendiary (tile : Nat) : Bool :=
  match getTileType tile with
  | 5 => true
  | _ => false

/-- C `get_tile_lifespan`: STEAM is LONG, FIRE is AVERAGE, all else PERMANENT. -/
def getTileLifespan (tile : Nat) : Lifespan :=
  match getTileType tile with
  | 4 => Lifespan.LONG
  | 5 => Lifespan.AVERAGE
  | _ => Lifespan.PERMANENT

/-- C `_tile_is_empty`. -/
def tileIsEmpty (tile : Nat) : Bool := getTileType tile == AIR

/-- C `_are_tiles_same_type`. -/
def areTilesSameType (tile otherTile : Nat) : Bool :=
  getTileType tile == getTileType otherTile

/-! ## Sandbox state (struct Sandbox) -/

/-- C `struct Sandbox`: a grid of bytes, dimensions, and the frame counter. -/
structure Sandbox where
  grid : List (List Nat)
  width : Nat
  height : Nat
  lifetime : Nat
deriving DecidableEq

/-- Read `grid[row][col]` (callers guarantee bounds; out of range reads
default to 0). -/
def gget (g : List (List Nat)) (row col : Nat) : Nat :=
  (g.getD row []).getD col 0

/-- Write `grid[row][col] = v` (out of range writes are dropped). -/
def gset (g : List (List Nat)) (row col : Nat) (v : Nat) : List (List Nat) :=
  g.set row ((g.getD row []).set col v)

/-- Signed-index read: the C code manipulates `int` coordinates. -/
def ggetI (g : List (List Nat)) (row col : Int) : Nat :=
  gget g row.toNat col.toNat

/-- Signed-index write. -/
def gsetI (g : List (List Nat)) (row col : Int) (v : Nat) : List (List Nat) :=
  gset g row.toNat col.toNat v

/-- C `_swap_tiles`: exchange the bytes at two coordinates. -/
def swapTiles (rowOne colOne rowTwo colTwo : Int) (g : List (List Nat)) :
    List (List Nat) :=
  let temp := ggetI g rowOne colOne
  let g1 := gsetI g rowOne colOne (ggetI g rowTwo colTwo)
  gsetI g1 rowTwo colTwo temp

/-- C `create_tile`: a fresh tile of the given type, its updated flag synced
to the sandbox lifetime's parity. -/
def createTile (s : Sandbox) (newType : Nat) : Nat :=
  setTileUpdated newType s.lifetime

/-- The grid is a `height × width` rectangle of bytes. -/
def WfSandbox (s : Sandbox) : Prop :=
  s.grid.length = s.height ∧
  (∀ row ∈ s.grid, row.length = s.width) ∧
  (∀ row ∈ s.grid, ∀ t ∈ row, t < 256)

instance : DecidablePred WfSandbox := fun s => by
  unfold WfSandbox; infer_instance

/-! ## Randomness oracle -/

/-- Streams of abstract outcomes for the four `rand()`-consuming primitives,
indexed by the position of the draw in the program's draw sequence. -/
structure Rng where
  survive : Nat → Bool
  burn : Nat → Bool
  coin : Nat → Bool
  pick : Nat → Nat

/-- C `_flip_coin` (one `rand()` draw; true = heads). -/
def flipCoin (rng : Rng) (k : Nat) : Bool × Nat := (rng.coin k, k + 1)

/-- C `randint(min, max)`: `min + rand() % (max + 1 - min)`. -/
def randint (rng : Rng) (mn mx k : Nat) : Nat × Nat :=
  (mn + rng.pick k % (mx + 1 - mn), k + 1)

/-- C `_roll_should_tile_survive`: PERMANENT tiles survive without drawing;
otherwise one draw decides against `survival_chances[lifespan]`. -/
def rollShouldTileSurvive (rng : Rng) (k : Nat) (tile : Nat) : Bool × Nat :=
  if getTileLifespan tile = Lifespan.PERMANENT then (true, k)
  else (rng.survive k, k + 1)

/-- C `_roll_should_tile_burn`: nonflammable tiles never draw; otherwise the
four cardinal neighbours are searched (out-of-bounds candidates skipped) for
an incendiary tile, and only if one is adjacent does a draw decide. -/
def rollShouldTileBurn (rng : Rng) (k : Nat) (s : Sandbox) (row col : Int) :
    Bool × Nat :=
  let burnChance := tileFlammability (ggetI s.grid row col)
  if burnChance = 0 then (false, k)
  else
    let searchArea : List (Int × Int) :=
      [(row - 1, col), (row, col + 1), (row + 1, col), (row, col - 1)]
    let isNextToIncendiary := searchArea.any fun rc =>
      if rc.1 < 0 || rc.1 == (s.height : Int) || rc.2 < 0 ||
          rc.2 == (s.width : Int) then false
      else tileIsIncendiary (ggetI s.grid rc.1 rc.2)
    if !isNextToIncendiary then (false, k)
    else (rng.burn k, k + 1)

/-! ## Movement and reaction algorithms -/

/-- C `_slide_left_or_right`: move one cell left or right into an empty
in-bounds cell; coin flip when both are possible. -/
def slideLeftOrRight (rng : Rng) (k : Nat) (s : Sandbox) (row col : Int) :
    Sandbox × Nat :=
  let leftCol := col - 1
  let rightCol := col + 1
  let canSlideLeft := leftCol != -1 && tileIsEmpty (ggetI s.grid row leftCol)
  let canSlideRight :=
    rightCol != (s.width : Int) && tileIsEmpty (ggetI s.grid row rightCol)
  if canSlideLeft && canSlideRight then
    let (heads, k1) := flipCoin rng k
    if heads then ({ s with grid := swapTiles row col row leftCol s.grid }, k1)
    else ({ s with grid := swapTiles row col row rightCol s.grid }, k1)
  else if canSlideLeft then
    ({ s with grid := swapTiles row col row leftCol s.grid }, k)
  else if canSlideRight then
    ({ s with grid := swapTiles row col row rightCol s.grid }, k)
  else (s, k)

/-- C `_can_lift`: a gas may move up through empty, liquid or different-gas
tiles, but through liquid only vertically; lifting out of bounds is rejected. -/
def canLift (s : Sandbox) (row col targetRow targetCol : Int) : Bool :=
  if targetRow == -1 || targetCol == -1 || targetCol == (s.width : Int) then
    false
  else
    let sourceTile := ggetI s.grid row col
    let targetTile := ggetI s.grid targetRow targetCol
    let isLeftOrRight := targetCol == col - 1 || targetCol == col + 1
    let isParallelHorizontal := targetRow == row && isLeftOrRight
    if tileIsLiquid targetTile && isParallelHorizontal then false
    else
      tileIsEmpty targetTile || tileIsLiquid targetTile ||
        (tileIsGas targetTile && !areTilesSameType sourceTile targetTile)

/-- C `_can_sink`: only through a liquid of a different type, never out of
bounds, and never for a dissolving source. -/
def canSink (s : Sandbox) (row col targetRow targetCol : Int) : Bool :=
  if targetRow == (s.height : Int) || targetCol == -1 ||
      targetCol == (s.width : Int) then false
  else
    let sourceTile := ggetI s.grid row col
    let targetTile := ggetI s.grid targetRow targetCol
    tileIsLiquid targetTile && !areTilesSameType sourceTile targetTile &&
      !tileDissolves sourceTile

/-- C `do_gravity`: fall or sink straight down, otherwise slide or sink
diagonally (walls of solid tiles or the border block a side), coin flip when
both diagonals are possible the same way. -/
def doGravity (rng : Rng) (k : Nat) (s : Sandbox) (row col : Int) :
    Sandbox × Nat :=
  let nextRow := row + 1
  if nextRow == (s.height : Int) then (s, k)
  else
    let canSinkBelow := canSink s row col nextRow col
    let tileBelow := ggetI s.grid nextRow col
    if tileIsEmpty tileBelow || canSinkBelow then
      ({ s with grid := swapTiles row col nextRow col s.grid }, k)
    else
      let leftCol := col - 1
      let rightCol := col + 1
      let isWallOnLeft :=
        leftCol == -1 || tileIsSolid (ggetI s.grid row leftCol)
      let isWallOnRight :=
        rightCol == (s.width : Int) || tileIsSolid (ggetI s.grid row rightCol)
      if isWallOnLeft && isWallOnRight then (s, k)
      else
        let canSinkBottomleft := canSink s row col nextRow leftCol
        let canSinkBottomright := canSink s row col nextRow rightCol
        let canSlideBottomleft :=
          !isWallOnLeft && tileIsEmpty (ggetI s.grid nextRow leftCol)
        let canSlideBottomright :=
          !isWallOnRight && tileIsEmpty (ggetI s.grid nextRow rightCol)
        if (canSlideBottomleft && canSlideBottomright) ||
            (canSinkBottomleft && canSinkBottomright) then
          let (heads, k1) := flipCoin rng k
          if heads then
            ({ s with grid := swapTiles row col nextRow leftCol s.grid }, k1)
          else
            ({ s with grid := swapTiles row col nextRow rightCol s.grid }, k1)
        else if canSlideBottomleft || canSinkBottomleft then
          ({ s with grid := swapTiles row col nextRow leftCol s.grid }, k)
        else if canSlideBottomright || canSinkBottomright then
          ({ s with grid := swapTiles row col nextRow rightCol s.grid }, k)
        else (s, k)

/-- C `do_liquid_flow`: flow laterally only when resting on the bottom edge,
a solid tile, or another liquid. -/
def doLiquidFlow (rng : Rng) (k : Nat) (s : Sandbox) (row col : Int) :
    Sandbox × Nat :=
  let nextRow := row + 1
  let onSolidGround :=
    nextRow == (s.height : Int) || tileIsSolid (ggetI s.grid nextRow col)
  if !onSolidGround && !tileIsLiquid (ggetI s.grid nextRow col) then (s, k)
  else slideLeftOrRight rng k s row col

/-- C `do_lift`: gather the liftable candidates among up, up-left, up-right,
left, right (in this order) and swap with one chosen by `randint`. -/
def doLift (rng : Rng) (k : Nat) (s : Sandbox) (row col : Int) :
    Sandbox × Nat :=
  let nextRow := row - 1
  let leftCol := col - 1
  let rightCol := col + 1
  let movementOptions : List (Int × Int) :=
    [(nextRow, col), (nextRow, leftCol), (nextRow, rightCol),
     (row, leftCol), (row, rightCol)]
  let targetIndices :=
    movementOptions.filter fun rc => canLift s row col rc.1 rc.2
  if targetIndices.length = 0 then (s, k)
  else
    let (randomIndex, k1) := randint rng 0 (targetIndices.length - 1) k
    let target := targetIndices.getD randomIndex (0, 0)
    ({ s with grid := swapTiles row col target.1 target.2 s.grid }, k1)

/-- C `do_extinguish`: a tile with WATER in a cardinal direction (out of
bounds candidates skipped) is replaced by a freshly created STEAM tile. -/
def doExtinguish (s : Sandbox) (row col : Int) : Sandbox :=
  let searchArea : List (Int × Int) :=
    [(row - 1, col), (row, col + 1), (row + 1, col), (row, col - 1)]
  let isNextToWater := searchArea.any fun rc =>
    if rc.1 < 0 || rc.1 == (s.height : Int) || rc.2 < 0 ||
        rc.2 == (s.width : Int) then false
    else getTileType (ggetI s.grid rc.1 rc.2) == WATER
  if !isNextToWater then s
  else { s with grid := gsetI s.grid row col (createTile s STEAM) }

/-! ## The per-frame scheduler (process_sandbox) -/

/-- The body of the double loop of `process_sandbox` for one cell. -/
def stepCell (rng : Rng) (sk : Sandbox × Nat) (rc : Nat × Nat) :
    Sandbox × Nat :=
  let s := sk.1
  let k := sk.2
  let row := rc.1
  let col := rc.2
  let currentTile := gget s.grid row col
  let isUpdated := isTileUpdated currentTile s.lifetime
  if tileIsEmpty currentTile then (s, k)
  else if isUpdated then (s, k)
  else
    let roll1 := rollShouldTileSurvive rng k currentTile
    if !roll1.1 then ({ s with grid := gset s.grid row col AIR }, roll1.2)
    else
      let roll2 := rollShouldTileBurn rng roll1.2 s row col
      if roll2.1 then
        ({ s with grid := gset s.grid row col (createTile s FIRE) }, roll2.2)
      else
        let g1 := gset s.grid row col
          (setTileUpdated (gget s.grid row col) s.lifetime)
        let s1 := { s with grid := g1 }
        let s2 :=
          if getTileType currentTile == FIRE then doExtinguish s1 row col
          else s1
        let sk3 :=
          if tileHasGravity currentTile then doGravity rng roll2.2 s2 row col
          else (s2, roll2.2)
        let sk4 :=
          if tileIsLiquid currentTile then
            doLiquidFlow rng sk3.2 sk3.1 row col
          else sk3
        let sk5 :=
          if tileIsGas currentTile then doLift rng sk4.2 sk4.1 row col
          else sk4
        let gEnd := gset sk5.1.grid row col
          (setTileUpdated (gget sk5.1.grid row col) sk5.1.lifetime)
        ({ sk5.1 with grid := gEnd }, sk5.2)

/-- Row-major cell order of the double loop. -/
def cellOrder (height width : Nat) : List (Nat × Nat) :=
  (List.range height).flatMap fun r => (List.range width).map fun c => (r, c)

/-- C `process_sandbox`: scan every cell once, then age the sandbox. -/
def processSandbox (rng : Rng) (s : Sandbox) (k : Nat) : Sandbox × Nat :=
  let out := (cellOrder s.height s.width).foldl (stepCell rng) (s, k)
  ({ out.1 with lifetime := out.1.lifetime + 1 }, out.2)

/-! ## Checked (Option-indexed) variants of the movement and reaction
algorithms, used to state that every grid access they perform is in bounds.
Each mirrors its total counterpart above line by line, but reads the grid
through `tileAt?`, which refuses out-of-bounds coordinates, and writes through
`setAt?` / `swapAt?`, which refuse them likewise; the short-circuit structure
of the C conditions is kept so that a guarded access is only attempted when
its guard has passed. -/

/-- Bounds-checked read of `grid[row][col]`. -/
def tileAt? (s : Sandbox) (row col : Int) : Option Nat :=
  if 0 ≤ row ∧ row < (s.height : Int) ∧ 0 ≤ col ∧ col < (s.width : Int) then
    some (ggetI s.grid row col)
  else none

/-- Bounds-checked write of `grid[row][col] = v`. -/
def setAt? (s : Sandbox) (row col : Int) (v : Nat) : Option Sandbox :=
  if 0 ≤ row ∧ row < (s.height : Int) ∧ 0 ≤ col ∧ col < (s.width : Int) then
    some { s with grid := gsetI s.grid row col v }
  else none

/-- Bounds-checked `_swap_tiles`. -/
def swapAt? (s : Sandbox) (rowOne colOne rowTwo colTwo : Int) :
    Option Sandbox := do
  let temp ← tileAt? s rowOne colOne
  let other ← tileAt? s rowTwo colTwo
  let s1 ← setAt? s rowOne colOne other
  setAt? s1 rowTwo colTwo temp

/-- Checked `_roll_should_tile_burn`. -/
def rollShouldTileBurnChk (rng : Rng) (k : Nat) (s : Sandbox) (row col : Int) :
    Option (Bool × Nat) := do
  let source ← tileAt? s row col
  let burnChance := tileFlammability source
  if burnChance = 0 then pure (false, k)
  else do
    let searchArea : List (Int × Int) :=
      [(row - 1, col), (row, col + 1), (row + 1, col), (row, col - 1)]
    let mut1 ← searchArea.foldlM (fun (found : Bool) rc => do
      if found then pure true
      else if rc.1 < 0 || rc.1 == (s.height : Int) || rc.2 < 0 ||
          rc.2 == (s.width : Int) then pure false
      else do
        let t ← tileAt? s rc.1 rc.2
        pure (tileIsIncendiary t)) false
    if !mut1 then pure (false, k)
    else pure (rng.burn k, k + 1)

/-- Checked `_slide_left_or_right`. -/
def slideLeftOrRightChk (rng : Rng) (k : Nat) (s : Sandbox) (row col : Int) :
    Option (Sandbox × Nat) := do
  let leftCol := col - 1
  let rightCol := col + 1
  let canSlideLeft ←
    if leftCol == -1 then pure false
    else do
      let t ← tileAt? s row leftCol
      pure (tileIsEmpty t)
  let canSlideRight ←
    if rightCol == (s.width : Int) then pure false
    else do
      let t ← tileAt? s row rightCol
      pure (tileIsEmpty t)
  if canSlideLeft && canSlideRight then
    let (heads, k1) := flipCoin rng k
    if heads then do
      let s1 ← swapAt? s row col row leftCol
      pure (s1, k1)
    else do
      let s1 ← swapAt? s row col row rightCol
      pure (s1, k1)
  else if canSlideLeft then do
    let s1 ← swapAt? s row col row leftCol
    pure (s1, k)
  else if canSlideRight then do
    let s1 ← swapAt? s row col row rightCol
    pure (s1, k)
  else pure (s, k)

/-- Checked `_can_lift`. -/
def canLiftChk (s : Sandbox) (row col targetRow targetCol : Int) :
    Option Bool := do
  if targetRow == -1 || targetCol == -1 || targetCol == (s.width : Int) then
    pure false
  else do
    let sourceTile ← tileAt? s row col
    let targetTile ← tileAt? s targetRow targetCol
    let isLeftOrRight := targetCol == col - 1 || targetCol == col + 1
    let isParallelHorizontal := targetRow == row && isLeftOrRight
    if tileIsLiquid targetTile && isParallelHorizontal then pure false
    else
      pure (tileIsEmpty targetTile || tileIsLiquid targetTile ||
        (tileIsGas targetTile && !areTilesSameType sourceTile targetTile))

/-- Checked `_can_sink`. -/
def canSinkChk (s : Sandbox) (row col targetRow targetCol : Int) :
    Option Bool := do
  if targetRow == (s.height : Int) || targetCol == -1 ||
      targetCol == (s.width : Int) then pure false
  else do
    let sourceTile ← tileAt? s row col
    let targetTile ← tileAt? s targetRow targetCol
    pure (tileIsLiquid targetTile && !areTilesSameType sourceTile targetTile &&
      !tileDissolves sourceTile)

/-- Checked `do_gravity`. -/
def doGravityChk (rng : Rng) (k : Nat) (s : Sandbox) (row col : Int) :
    Option (Sandbox × Nat) := do
  let nextRow := row + 1
  if nextRow == (s.height : Int) then pure (s, k)
  else do
    let canSinkBelow ← canSinkChk s row col nextRow col
    let tileBelow ← tileAt? s nextRow col
    if tileIsEmpty tileBelow || canSinkBelow then do
      let s1 ← swapAt? s row col nextRow col
      pure (s1, k)
    else do
      let leftCol := col - 1
      let rightCol := col + 1
      let isWallOnLeft ←
        if leftCol == -1 then pure true
        else do
          let t ← tileAt? s row leftCol
          pure (tileIsSolid t)
      let isWallOnRight ←
        if rightCol == (s.width : Int) then pure true
        else do
          let t ← tileAt? s row rightCol
          pure (tileIsSolid t)
      if isWallOnLeft && isWallOnRight then pure (s, k)
      else do
        let canSinkBottomleft ← canSinkChk s row col nextRow leftCol
        let canSinkBottomright ← canSinkChk s row col nextRow rightCol
        let canSlideBottomleft ←
          if isWallOnLeft then pure false
          else do
            let t ← tileAt? s nextRow leftCol
            pure (tileIsEmpty t)
        let canSlideBottomright ←
          if isWallOnRight then pure false
          else do
            let t ← tileAt? s nextRow rightCol
            pure (tileIsEmpty t)
        if (canSlideBottomleft && canSlideBottomright) ||
            (canSinkBottomleft && canSinkBottomright) then
          let (heads, k1) := flipCoin rng k
          if heads then do
            let s1 ← swapAt? s row col nextRow leftCol
            pure (s1, k1)
          else do
            let s1 ← swapAt? s row col nextRow rightCol
            pure (s1, k1)
        else if canSlideBottomleft || canSinkBottomleft then do
          let s1 ← swapAt? s row col nextRow leftCol
          pure (s1, k)
        else if canSlideBottomright || canSinkBottomright then do
          let s1 ← swapAt? s row col nextRow rightCol
          pure (s1, k)
        else pure (s, k)

/-- Checked `do_liquid_flow`. -/
def doLiquidFlowChk (rng : Rng) (k : Nat) (s : Sandbox) (row col : Int) :
    Option (Sandbox × Nat) := do
  let nextRow := row + 1
  let onSolidGround ←
    if nextRow == (s.height : Int) then pure true
    else do
      let t ← tileAt? s nextRow col
      pure (tileIsSolid t)
  if !onSolidGround then do
    let t ← tileAt? s nextRow col
    if !tileIsLiquid t then pure (s, k)
    else slideLeftOrRightChk rng k s row col
  else slideLeftOrRightChk rng k s row col

/-- Checked `do_lift`. -/
def doLiftChk (rng : Rng) (k : Nat) (s : Sandbox) (row col : Int) :
    Option (Sandbox × Nat) := do
  let nextRow := row - 1
  let leftCol := col - 1
  let rightCol := col + 1
  let movementOptions : List (Int × Int) :=
    [(nextRow, col), (nextRow, leftCol), (nextRow, rightCol),
     (row, leftCol), (row, rightCol)]
  let targetIndices ← movementOptions.foldlM
    (fun (acc : List (Int × Int)) rc => do
      let ok ← canLiftChk s row col rc.1 rc.2
      if ok then pure (acc ++ [rc]) else pure acc) []
  if targetIndices.length = 0 then pure (s, k)
  else do
    let (randomIndex, k1) := randint rng 0 (targetIndices.length - 1) k
    let target := targetIndices.getD randomIndex (0, 0)
    let s1 ← swapAt? s row col target.1 target.2
    pure (s1, k1)

/-- Checked `do_extinguish`. -/
def doExtinguishChk (s : Sandbox) (row col : Int) : Option Sandbox := do
  let searchArea : List (Int × Int) :=
    [(row - 1, col), (row, col + 1), (row + 1, col), (row, col - 1)]
  let isNextToWater ← searchArea.foldlM (fun (found : Bool) rc => do
    if found then pure true
    else if rc.1 < 0 || rc.1 == (s.height : Int) || rc.2 < 0 ||
        rc.2 == (s.width : Int) then pure false
    else do
      let t ← tileAt? s rc.1 rc.2
      pure (getTileType t == WATER)) false
  if !isNextToWater then pure s
  else setAt? s row col (createTile s STEAM)

/-! ## Spec-modelled classification table with FUEL

The repository's HEAD header and classification code declare a seventh tile
type, FUEL: it is referenced by the input layer (`gui.c` binds a key to
selecting FUEL) but the header/source revision defining it is not part of the
sources available here, which stop at the six-type enum.  The definitions in
this section are therefore modelled from the specification's classification
table instead of from source. -/

/-- Modelled from the spec: the full type id set of §3, "Type id ∈ {AIR=0,
SAND, WATER, WOOD, STEAM, FIRE, FUEL}", with ids assigned in enum order. -/
def specTileTypeIds : List Nat := [0, 1, 2, 3, 4, 5, 6]

/-- Modelled from the spec: the FUEL type id, the seventh enumerator. -/
def FUEL : Nat := 6

/-- Modelled from the spec: §4.2 classification table, gravity column. -/
def specHasGravity (typeId : Nat) : Bool :=
  match typeId with
  | 1 => true
  | 2 => true
  | 6 => true
  | _ => false

/-- Modelled from the spec: §4.2 classification table, solid column. -/
def specIsSolid (typeId : Nat) : Bool :=
  match typeId with
  | 1 => true
  | 3 => true
  | _ => false

/-- Modelled from the spec: §4.2 classification table, liquid column. -/
def specIsLiquid (typeId : Nat) : Bool :=
  match typeId with
  | 2 => true
  | 6 => true
  | _ => false

/-- Modelled from the spec: §4.2 classification table, gas column. -/
def specIsGas (typeId : Nat) : Bool :=
  match typeId with
  | 4 => true
  | 5 => true
  | _ => false

/-- Modelled from the spec: §4.2 classification table, incendiary column. -/
def specIsIncendiary (typeId : Nat) : Bool :=
  match typeId with
  | 5 => true
  | _ => false

/-- Modelled from the spec: §4.2 classification table, flammability column
(WOOD listed as 0.5–0.75; this source revision uses 0.75). -/
def specFlammability (typeId : Nat) : ℚ :=
  match typeId with
  | 3 => 3 / 4
  | 6 => 3 / 4
  | _ => 0

/-- Modelled from the spec: §4.2 classification table, survival chance column
(STEAM ~0.95 and FIRE ~0.87 are the non-permanent rows). -/
def specSurvivalChance (typeId : Nat) : ℚ :=
  match typeId with
  | 4 => 95 / 100
  | 5 => 87 / 100
  | _ => 1

/-- An oracle whose survival draws succeed, ignition draws decline, coins
land heads, and picks take index 0. -/
def rngT : Rng := ⟨fun _ => true, fun _ => false, fun _ => true, fun _ => 0⟩

/-- An oracle whose survival draws fail and whose coins land tails. -/
def rngF : Rng := ⟨fun _ => false, fun _ => false, fun _ => false, fun _ => 0⟩

/-- 1 × 3 row WATER, FIRE, AIR at lifetime 1. -/
def sbWFA : Sandbox := ⟨[[2, 5, 0]], 3, 1, 1⟩

/-- 2 × 1 column with a SAND grain above AIR, at lifetime 0 (the grain byte
already carries the parity of the lifetime). -/
def sbS0 : Sandbox := ⟨[[1], [0]], 1, 2, 0⟩

/-- 2 × 1 column with a SAND grain above AIR, at lifetime 1 (the grain is
not yet updated). -/
def sbS1 : Sandbox := ⟨[[1], [0]], 1, 2, 1⟩

/-- 2 × 2 grid: a byte of the FUEL type id beside WATER, over WOOD. -/
def sbFW : Sandbox := ⟨[[6, 2], [3, 3]], 2, 2, 0⟩

/-- 2 × 3 grid: SAND over WOOD with AIR down-left and WATER down-right. -/
def sbMix : Sandbox := ⟨[[0, 1, 0], [0, 3, 2]], 3, 2, 1⟩

/-- 1 × 1 grid holding a single SAND grain. -/
def sbOne : Sandbox := ⟨[[1]], 1, 1, 0⟩

/-- 1 × 2 row WATER then AIR on the bottom edge at lifetime 0. -/
def sbWA : Sandbox := ⟨[[2, 0]], 2, 1, 0⟩

/-- 1 × 2 row WATER then FIRE at lifetime 1. -/
def sbWF : Sandbox := ⟨[[2, 5]], 2, 1, 1⟩

/-! ## Auxiliary predicates and accounting definitions used by the
theorems below -/

/-- Rectangular shape of a grid (the byte bound is tracked separately). -/
def Rect (g : List (List Nat)) (h w : Nat) : Prop :=
  g.length = h ∧ ∀ row ∈ g, row.length = w

/-- All bytes of a grid are bytes. -/
def BytesLt (g : List (List Nat)) : Prop :=
  ∀ row ∈ g, ∀ t ∈ row, t < 256

/-- The multiset of all tile bytes of a grid. -/
def gridBytes (g : List (List Nat)) : Multiset Nat :=
  (g.map Multiset.ofList).sum

/-- The multiset of all tile types of a grid. -/
def typeMS (g : List (List Nat)) : Multiset Nat :=
  (gridBytes g).map getTileType

/-- The cell byte re-marked as updated (the two `set_tile_updated` mutations
of the scheduler's main path). -/
def markCell (s : Sandbox) (r c : Nat) : Sandbox :=
  { s with grid := gset s.grid r c (setTileUpdated (gget s.grid r c) s.lifetime) }

/-- Intermediate grids reachable by the main path's reaction and movement
steps, described relative to the original sandbox: unchanged (beyond the mark),
one swap out of the cell, the liquid double step (a gravity move followed by
a lateral slide of the vacated, now empty cell), the fire-to-steam
conversion, or that conversion followed by one lift swap of the new steam. -/
def PipelineMid (s : Sandbox) (r c : Nat) (t : Sandbox) : Prop :=
  t.grid = (markCell s r c).grid ∨
  (∃ p : Nat × Nat, p.1 < s.height ∧ p.2 < s.width ∧ p ≠ (r, c) ∧
    t.grid = swapTiles (r : Int) (c : Int) (p.1 : Int) (p.2 : Int)
      (markCell s r c).grid) ∨
  (∃ tc1 tc2 : Nat, getTileType (gget s.grid r c) = WATER ∧
    r + 1 < s.height ∧ tc1 < s.width ∧ tc2 < s.width ∧ tc2 ≠ c ∧
    tileIsEmpty (gget s.grid (r + 1) tc1) = true ∧
    tileIsEmpty (gget s.grid r tc2) = true ∧
    t.grid = swapTiles (r : Int) (c : Int) (r : Int) (tc2 : Int)
      (swapTiles (r : Int) (c : Int) ((r + 1 : Nat) : Int) (tc1 : Int)
        (markCell s r c).grid)) ∨
  (getTileType (gget s.grid r c) = FIRE ∧
    t.grid = gset (markCell s r c).grid r c (createTile s STEAM)) ∨
  (getTileType (gget s.grid r c) = FIRE ∧ ∃ p : Nat × Nat,
    p.1 < s.height ∧ p.2 < s.width ∧ p ≠ (r, c) ∧
    t.grid = swapTiles (r : Int) (c : Int) (p.1 : Int) (p.2 : Int)
      (gset (markCell s r c).grid r c (createTile s STEAM)))

/-- The updated-flag/parity invariant for a single byte: the cell is air or
carries the parity of the (pre-increment) lifetime. -/
def FlagOk (L t : Nat) : Prop :=
  getTileType t = AIR ∨ getUpdatedFlag t = getTimeParity L

/-- The explicit type conversions of the engine, as (from, to) type pairs:
probabilistic decay to AIR of a non-permanent type, ignition of a flammable
type to FIRE, and extinguishing of FIRE to STEAM. -/
def ConvOk (a b : Nat) : Prop :=
  (getTileLifespan a ≠ Lifespan.PERMANENT ∧ b = AIR) ∨
  (tileFlammability a ≠ 0 ∧ b = FIRE) ∨
  (a = FIRE ∧ b = STEAM)


/-! ## Bridge lemmas: the arithmetic codec agrees with the C bitmasks -/

set_option maxRecDepth 4096

/-- On bytes, the low-4-bit mask is reduction mod 16. -/
theorem getTileType_eq_land : ∀ tile < 256, getTileType tile = Nat.land 15 tile := by
  decide

/-- The parity mask `current_time & 1` is reduction mod 2. -/
theorem getTimeParity_eq_land (t : Nat) : getTimeParity t = Nat.land t 1 := by
  unfold getTimeParity
  exact (Nat.and_one_is_mod t).symm

/-- The flag shift `tile >> 7` is division by 128. -/
theorem getUpdatedFlag_eq_shiftRight (tile : Nat) :
    getUpdatedFlag tile = Nat.shiftRight tile 7 := by
  simp [getUpdatedFlag, Nat.shiftRight_eq_div_pow]

/-- On bytes, `tile &= 127` and `tile |= 128` match the arithmetic form. -/
theorem setTileUpdated_eq_bitwise : ∀ tile < 256, ∀ currentTime,
    setTileUpdated tile currentTime =
      if getTimeParity currentTime = 0 then Nat.land tile 127
      else Nat.lor tile 128 := by
  have h0 : ∀ t < 256, t % 128 = Nat.land t 127 := by decide
  have h1 : ∀ t < 256, t % 128 + 128 = Nat.lor t 128 := by decide
  intro tile ht currentTime
  unfold setTileUpdated
  by_cases hp : getTimeParity currentTime = 0
  · rw [if_pos hp, if_pos hp, h0 tile ht]
  · rw [if_neg hp, if_neg hp, h1 tile ht]

/-! ## Codec facts -/

theorem setTileUpdated_lt_256 (tile currentTime : Nat) :
    setTileUpdated tile currentTime < 256 := by
  unfold setTileUpdated
  split <;> omega

theorem getTileType_setTileUpdated (tile currentTime : Nat) :
    getTileType (setTileUpdated tile currentTime) = getTileType tile := by
  unfold setTileUpdated getTileType
  split <;> omega

theorem getUpdatedFlag_setTileUpdated (tile currentTime : Nat) :
    getUpdatedFlag (setTileUpdated tile currentTime) =
      getTimeParity currentTime := by
  unfold setTileUpdated getUpdatedFlag getTimeParity
  rcases Nat.mod_two_eq_zero_or_one currentTime with h | h <;>
    simp [getTimeParity, h]

theorem isTileUpdated_setTileUpdated (tile currentTime : Nat) :
    isTileUpdated (setTileUpdated tile currentTime) currentTime = true := by
  simp [isTileUpdated, getUpdatedFlag_setTileUpdated]

/-! ## Classification facts -/

theorem typeLt16 (tile : Nat) : getTileType tile < 16 :=
  Nat.mod_lt _ (by norm_num)

theorem liquid_isWater {tile : Nat} (h : tileIsLiquid tile = true) :
    getTileType tile = WATER := by
  unfold tileIsLiquid at h
  have := typeLt16 tile
  interval_cases hh : getTileType tile <;> simp_all [WATER]

theorem liquid_hasGravity {tile : Nat} (h : tileIsLiquid tile = true) :
    tileHasGravity tile = true := by
  unfold tileHasGravity
  rw [liquid_isWater h]
  rfl

theorem gas_not_gravity {tile : Nat} (h : tileIsGas tile = true) :
    tileHasGravity tile = false ∧ tileIsLiquid tile = false := by
  unfold tileIsGas at h
  unfold tileHasGravity tileIsLiquid
  have := typeLt16 tile
  interval_cases hh : getTileType tile <;> simp_all

theorem fire_isGas {tile : Nat} (h : getTileType tile = FIRE) :
    tileIsGas tile = true := by
  unfold tileIsGas
  rw [h]
  rfl

theorem gravity_not_gas {tile : Nat} (h : tileHasGravity tile = true) :
    tileIsGas tile = false ∧ getTileType tile ≠ FIRE := by
  unfold tileHasGravity at h
  unfold tileIsGas
  have := typeLt16 tile
  interval_cases hh : getTileType tile <;> simp_all [FIRE]

theorem empty_type {tile : Nat} (h : tileIsEmpty tile = true) :
    getTileType tile = AIR := by
  unfold tileIsEmpty at h
  simpa using h

theorem not_empty_type {tile : Nat} (h : tileIsEmpty tile = false) :
    getTileType tile ≠ AIR := by
  unfold tileIsEmpty at h
  simpa using h

/-- A survival roll can only fail on a non-PERMANENT lifespan: the C code
returns true before drawing when the lifespan is PERMANENT. -/
theorem rollSurvive_false_lifespan {rng : Rng} {k : Nat} {tile : Nat}
    (h : (rollShouldTileSurvive rng k tile).1 = false) :
    getTileLifespan tile ≠ Lifespan.PERMANENT := by
  unfold rollShouldTileSurvive at h
  intro hp
  rw [hp] at h
  simp at h

/-- A burn roll can only succeed on a flammable tile: the C code returns
false before drawing when the flammability is zero. -/
theorem rollBurn_true_flammable {rng : Rng} {k : Nat} {s : Sandbox}
    {row col : Int} (h : (rollShouldTileBurn rng k s row col).1 = true) :
    tileFlammability (ggetI s.grid row col) ≠ 0 := by
  unfold rollShouldTileBurn at h
  intro hp
  rw [hp] at h
  simp at h

/-! ## Grid access lemmas -/

theorem wf_rect {s : Sandbox} (h : WfSandbox s) :
    Rect s.grid s.height s.width := ⟨h.1, h.2.1⟩

theorem gget_eq_getElem? (g : List (List Nat)) (r c : Nat) :
    gget g r c = ((g[r]?.getD []))[c]?.getD 0 := by
  simp [gget, List.getD_eq_getElem?_getD]

theorem gset_eq_set (g : List (List Nat)) (r c v : Nat) :
    gset g r c v = g.set r ((g[r]?.getD []).set c v) := by
  simp [gset, List.getD_eq_getElem?_getD]

theorem rect_gset {g : List (List Nat)} {h w : Nat} (hr : Rect g h w)
    (r c v : Nat) : Rect (gset g r c v) h w := by
  rw [gset_eq_set]
  by_cases hrl : r < g.length
  · refine ⟨by simpa using hr.1, ?_⟩
    intro row hrow
    rcases List.mem_or_eq_of_mem_set hrow with hmem | heq
    · exact hr.2 row hmem
    · subst heq
      rw [List.getElem?_eq_getElem hrl]
      simpa using hr.2 _ (List.getElem_mem hrl)
  · rw [List.set_eq_of_length_le (by omega)]
    exact hr

theorem gget_gset_self {g : List (List Nat)} {h w : Nat} (hr : Rect g h w)
    {r c : Nat} (hrh : r < h) (hcw : c < w) (v : Nat) :
    gget (gset g r c v) r c = v := by
  have hgl := hr.1
  have hrl : r < g.length := by omega
  have hcl : c < (g[r]?.getD []).length := by
    rw [List.getElem?_eq_getElem hrl]
    simpa using hcw.trans_eq (hr.2 _ (List.getElem_mem hrl)).symm
  rw [gget_eq_getElem?, gset_eq_set,
    List.getElem?_set_self (by simpa using hrl)]
  simp only [Option.getD_some]
  rw [List.getElem?_set_self (by simpa using hcl)]
  rfl

theorem gget_gset_ne {g : List (List Nat)} {r c r' c' : Nat}
    (hne : r ≠ r' ∨ c ≠ c') (v : Nat) :
    gget (gset g r c v) r' c' = gget g r' c' := by
  rw [gget_eq_getElem?, gget_eq_getElem?, gset_eq_set]
  rcases hne with hne | hne
  · rw [List.getElem?_set_ne hne]
  · by_cases hrr : r = r'
    · subst hrr
      by_cases hrl : r < g.length
      · rw [List.getElem?_set_self (by simpa using hrl)]
        simp only [Option.getD_some]
        rw [List.getElem?_set_ne hne]
      · rw [List.set_eq_of_length_le (by omega)]
    · rw [List.getElem?_set_ne hrr]

theorem gget_lt_256 {s : Sandbox} (hwf : WfSandbox s) (r c : Nat) :
    gget s.grid r c < 256 := by
  rw [gget_eq_getElem?]
  by_cases hrl : r < s.grid.length
  · rw [List.getElem?_eq_getElem hrl]
    simp only [Option.getD_some]
    by_cases hcl : c < (s.grid[r]).length
    · rw [List.getElem?_eq_getElem hcl]
      exact hwf.2.2 _ (List.getElem_mem hrl) _ (List.getElem_mem hcl)
    · have hnone : (s.grid[r])[c]? = none := List.getElem?_eq_none (by omega)
      rw [hnone]
      norm_num
  · have hnone : s.grid[r]? = none := List.getElem?_eq_none (by omega)
    rw [hnone]
    simp

theorem ggetI_natCast (g : List (List Nat)) (r c : Nat) :
    ggetI g (r : Int) (c : Int) = gget g r c := by
  simp [ggetI]

theorem gsetI_natCast (g : List (List Nat)) (r c v : Nat) :
    gsetI g (r : Int) (c : Int) v = gset g r c v := by
  simp [gsetI]

theorem wf_bytesLt {s : Sandbox} (h : WfSandbox s) : BytesLt s.grid := h.2.2

theorem bytesLt_gset {g : List (List Nat)} (hb : BytesLt g) {v : Nat}
    (hv : v < 256) (r c : Nat) : BytesLt (gset g r c v) := by
  rw [gset_eq_set]
  intro row hrow
  rcases List.mem_or_eq_of_mem_set hrow with hmem | heq
  · exact hb row hmem
  · subst heq
    intro t ht
    rcases List.mem_or_eq_of_mem_set ht with hmem2 | heq2
    · by_cases hrl : r < g.length
      · rw [List.getElem?_eq_getElem hrl] at hmem2
        exact hb _ (List.getElem_mem hrl) _ (by simpa using hmem2)
      · have hnone : g[r]? = none := List.getElem?_eq_none (by omega)
        rw [hnone] at hmem2
        simp at hmem2
    · omega

theorem wfSandbox_mk {h w : Nat} {g : List (List Nat)}
    (hr : Rect g h w) (hb : BytesLt g) (L : Nat) :
    WfSandbox (Sandbox.mk g w h L) := ⟨hr.1, hr.2, hb⟩

/-! ## Swap lemmas (at natural-number coordinates) -/

theorem swapTiles_natCast (g : List (List Nat)) (r1 c1 r2 c2 : Nat) :
    swapTiles (r1 : Int) (c1 : Int) (r2 : Int) (c2 : Int) g =
      gset (gset g r1 c1 (gget g r2 c2)) r2 c2 (gget g r1 c1) := by
  simp [swapTiles, ggetI_natCast, gsetI_natCast]

theorem rect_swap {g : List (List Nat)} {h w : Nat} (hr : Rect g h w)
    (r1 c1 r2 c2 : Nat) :
    Rect (swapTiles (r1 : Int) (c1 : Int) (r2 : Int) (c2 : Int) g) h w := by
  rw [swapTiles_natCast]
  exact rect_gset (rect_gset hr _ _ _) _ _ _

theorem bytesLt_swap {g : List (List Nat)} {h w : Nat} (hr : Rect g h w)
    (hb : BytesLt g) (r1 c1 r2 c2 : Nat) :
    BytesLt (swapTiles (r1 : Int) (c1 : Int) (r2 : Int) (c2 : Int) g) := by
  rw [swapTiles_natCast]
  have hwf : WfSandbox (Sandbox.mk g w h 0) := ⟨hr.1, hr.2, hb⟩
  have h1 : gget g r2 c2 < 256 := gget_lt_256 hwf r2 c2
  have h2 : gget g r1 c1 < 256 := gget_lt_256 hwf r1 c1
  exact bytesLt_gset (bytesLt_gset hb h1 _ _) h2 _ _

theorem swap_gget_snd {g : List (List Nat)} {h w : Nat} (hr : Rect g h w)
    {r1 c1 r2 c2 : Nat} (h2 : r2 < h) (hc2 : c2 < w) :
    gget (swapTiles (r1 : Int) (c1 : Int) (r2 : Int) (c2 : Int) g) r2 c2 =
      gget g r1 c1 := by
  rw [swapTiles_natCast]
  exact gget_gset_self (rect_gset hr _ _ _) h2 hc2 _

theorem swap_gget_fst {g : List (List Nat)} {h w : Nat} (hr : Rect g h w)
    {r1 c1 r2 c2 : Nat} (h1 : r1 < h) (hc1 : c1 < w) (h2 : r2 < h)
    (hc2 : c2 < w) :
    gget (swapTiles (r1 : Int) (c1 : Int) (r2 : Int) (c2 : Int) g) r1 c1 =
      if r1 = r2 ∧ c1 = c2 then gget g r1 c1 else gget g r2 c2 := by
  rw [swapTiles_natCast]
  by_cases he : r1 = r2 ∧ c1 = c2
  · obtain ⟨he1, he2⟩ := he
    subst he1; subst he2
    rw [if_pos ⟨rfl, rfl⟩]
    exact gget_gset_self (rect_gset hr _ _ _) h1 hc1 _
  · rw [if_neg he]
    have hne : r2 ≠ r1 ∨ c2 ≠ c1 := by tauto
    rw [gget_gset_ne hne, gget_gset_self hr h1 hc1]

theorem swap_gget_other {g : List (List Nat)} {r1 c1 r2 c2 i j : Nat}
    (hne1 : (i, j) ≠ (r1, c1)) (hne2 : (i, j) ≠ (r2, c2)) :
    gget (swapTiles (r1 : Int) (c1 : Int) (r2 : Int) (c2 : Int) g) i j =
      gget g i j := by
  rw [swapTiles_natCast]
  have hp1 : r1 ≠ i ∨ c1 ≠ j := by
    by_contra hc
    push_neg at hc
    exact hne1 (by simp [hc.1.symm, hc.2.symm])
  have hp2 : r2 ≠ i ∨ c2 ≠ j := by
    by_contra hc
    push_neg at hc
    exact hne2 (by simp [hc.1.symm, hc.2.symm])
  rw [gget_gset_ne hp2, gget_gset_ne hp1]

/-! ## Multiset view of the grid (for the conservation claim) -/

theorem row_set_add (row : List Nat) :
    ∀ (c : Nat), c < row.length → ∀ (v : Nat),
      Multiset.ofList (row.set c v) + {row.getD c 0} =
        Multiset.ofList row + {v} := by
  induction row with
  | nil => intro c hc; simp at hc
  | cons hd tl ih =>
    intro c hc v
    cases c with
    | zero =>
      simp only [List.set_cons_zero, List.getD_cons_zero]
      rw [← Multiset.cons_coe, ← Multiset.cons_coe,
        Multiset.cons_add, Multiset.cons_add,
        add_comm (Multiset.ofList tl) ({hd} : Multiset Nat),
        Multiset.singleton_add,
        add_comm (Multiset.ofList tl) ({v} : Multiset Nat),
        Multiset.singleton_add, Multiset.cons_swap]
    | succ n =>
      simp only [List.set_cons_succ, List.getD_cons_succ]
      rw [← Multiset.cons_coe, ← Multiset.cons_coe,
        Multiset.cons_add, Multiset.cons_add, ih n (by simpa using hc) v]

theorem sum_list_set_add (l : List (Multiset Nat)) :
    ∀ (i : Nat), i < l.length → ∀ (b : Multiset Nat),
      (l.set i b).sum + l.getD i 0 = l.sum + b := by
  induction l with
  | nil => intro i hi; simp at hi
  | cons hd tl ih =>
    intro i hi b
    cases i with
    | zero =>
      simp only [List.set_cons_zero, List.getD_cons_zero, List.sum_cons]
      abel
    | succ n =>
      simp only [List.set_cons_succ, List.getD_cons_succ, List.sum_cons]
      rw [add_assoc, ih n (by simpa using hi) b, ← add_assoc]

theorem gridBytes_gset {g : List (List Nat)} {h w : Nat} (hr : Rect g h w)
    {r c : Nat} (hrh : r < h) (hcw : c < w) (v : Nat) :
    gridBytes (gset g r c v) + {gget g r c} = gridBytes g + {v} := by
  have hrl : r < g.length := by have := hr.1; omega
  have hrowlen : (g[r]?.getD []).length = w := by
    rw [List.getElem?_eq_getElem hrl]
    simpa using hr.2 _ (List.getElem_mem hrl)
  have hcl : c < (g[r]?.getD []).length := by omega
  unfold gridBytes
  rw [gset_eq_set, List.map_set]
  have hmaplen : r < (g.map Multiset.ofList).length := by simpa using hrl
  have hgetD : (g.map Multiset.ofList).getD r 0 =
      Multiset.ofList (g[r]?.getD []) := by
    rw [List.getD_eq_getElem?_getD, List.getElem?_map,
      List.getElem?_eq_getElem hrl]
    simp
  have hs := sum_list_set_add (g.map Multiset.ofList) r hmaplen
    (Multiset.ofList ((g[r]?.getD []).set c v))
  rw [hgetD] at hs
  have key := row_set_add (g[r]?.getD []) c hcl v
  have hgget : gget g r c = (g[r]?.getD []).getD c 0 := by
    rw [gget_eq_getElem?, List.getD_eq_getElem?_getD]
  rw [hgget]
  apply add_right_cancel (b := Multiset.ofList (g[r]?.getD []))
  rw [add_right_comm, hs, add_assoc, key]
  abel

theorem typeMS_gset {g : List (List Nat)} {h w : Nat} (hr : Rect g h w)
    {r c : Nat} (hrh : r < h) (hcw : c < w) (v : Nat) :
    typeMS (gset g r c v) + {getTileType (gget g r c)} =
      typeMS g + {getTileType v} := by
  unfold typeMS
  have := congrArg (Multiset.map getTileType) (gridBytes_gset hr hrh hcw v)
  simpa using this

/-- In-bounds swaps preserve the byte multiset (hence the type multiset). -/
theorem gridBytes_swap {g : List (List Nat)} {h w : Nat} (hr : Rect g h w)
    {r1 c1 r2 c2 : Nat} (h1 : r1 < h) (hc1 : c1 < w) (h2 : r2 < h)
    (hc2 : c2 < w) :
    gridBytes (swapTiles (r1 : Int) (c1 : Int) (r2 : Int) (c2 : Int) g) =
      gridBytes g := by
  rw [swapTiles_natCast]
  have e1 := gridBytes_gset hr h1 hc1 (gget g r2 c2)
  have e2 := gridBytes_gset (rect_gset hr r1 c1 (gget g r2 c2)) h2 hc2
    (gget g r1 c1)
  by_cases he : r1 = r2 ∧ c1 = c2
  · obtain ⟨e3, e4⟩ := he
    subst e3; subst e4
    have hx : gget (gset g r1 c1 (gget g r1 c1)) r1 c1 = gget g r1 c1 :=
      gget_gset_self hr h1 hc1 _
    rw [hx] at e2
    exact add_right_cancel (e2.trans e1)
  · have hne : r1 ≠ r2 ∨ c1 ≠ c2 := by tauto
    have hx : gget (gset g r1 c1 (gget g r2 c2)) r2 c2 = gget g r2 c2 := by
      rw [gget_gset_ne (by tauto)]
    rw [hx] at e2
    apply add_right_cancel (b := ({gget g r2 c2} : Multiset Nat))
    rw [e2, e1]

theorem typeMS_swap {g : List (List Nat)} {h w : Nat} (hr : Rect g h w)
    {r1 c1 r2 c2 : Nat} (h1 : r1 < h) (hc1 : c1 < w) (h2 : r2 < h)
    (hc2 : c2 < w) :
    typeMS (swapTiles (r1 : Int) (c1 : Int) (r2 : Int) (c2 : Int) g) =
      typeMS g := by
  unfold typeMS
  rw [gridBytes_swap hr h1 hc1 h2 hc2]


theorem intCast_add_one (r : Nat) : ((r : Int) + 1) = ((r + 1 : Nat) : Int) := by
  push_cast
  ring

theorem intCast_sub_one {c : Nat} (hc : c ≠ 0) :
    ((c : Int) - 1) = ((c - 1 : Nat) : Int) := by
  omega

/-- Case analysis of `_slide_left_or_right` at in-bounds coordinates: the
result is either unchanged or a swap with an empty in-bounds lateral cell;
the coin is consumed exactly when both sides are available. -/
theorem slideLeftOrRight_cases (rng : Rng) (k : Nat) (s : Sandbox) {r c : Nat}
    (hcw : c < s.width) :
    slideLeftOrRight rng k s (r : Int) (c : Int) = (s, k) ∨
    ∃ tc k', (tc + 1 = c ∨ tc = c + 1) ∧ tc < s.width ∧
      tileIsEmpty (gget s.grid r tc) = true ∧
      slideLeftOrRight rng k s (r : Int) (c : Int) =
        ({ s with grid := swapTiles (r : Int) (c : Int) (r : Int) (tc : Int) s.grid }, k') := by
  have hL : ∀ hc0 : c ≠ 0, ((c : Int) - 1) = ((c - 1 : Nat) : Int) :=
    fun hc0 => intCast_sub_one hc0
  simp only [slideLeftOrRight]
  by_cases hcl : ((c : Int) - 1 != -1 &&
      tileIsEmpty (ggetI s.grid (r : Int) ((c : Int) - 1))) = true
  · have hc0 : c ≠ 0 := by
      rcases (Bool.and_eq_true _ _).mp hcl with ⟨h1, _⟩
      simp only [bne_iff_ne, ne_eq] at h1
      omega
    have hemptyL : tileIsEmpty (gget s.grid r (c - 1)) = true := by
      rcases (Bool.and_eq_true _ _).mp hcl with ⟨_, h2⟩
      rwa [hL hc0, ggetI_natCast] at h2
    by_cases hcr : ((c : Int) + 1 != (s.width : Int) &&
        tileIsEmpty (ggetI s.grid (r : Int) ((c : Int) + 1))) = true
    · -- both available: coin flip
      have hcw1 : c + 1 < s.width := by
        rcases (Bool.and_eq_true _ _).mp hcr with ⟨h1, _⟩
        simp only [bne_iff_ne, ne_eq] at h1
        omega
      have hemptyR : tileIsEmpty (gget s.grid r (c + 1)) = true := by
        rcases (Bool.and_eq_true _ _).mp hcr with ⟨_, h2⟩
        rwa [intCast_add_one, ggetI_natCast] at h2
      rw [hcl, hcr]
      simp only [Bool.and_self, if_true, flipCoin]
      by_cases hco : rng.coin k = true
      · right
        refine ⟨c - 1, k + 1, Or.inl (by omega), by omega, hemptyL, ?_⟩
        rw [hco]
        simp only [if_true]
        rw [hL hc0]
      · right
        refine ⟨c + 1, k + 1, Or.inr rfl, hcw1, hemptyR, ?_⟩
        rw [Bool.not_eq_true] at hco
        rw [hco]
        simp only [Bool.false_eq_true, if_false]
        rw [intCast_add_one]
    · right
      rw [hcl]
      simp only [Bool.true_and]
      rw [Bool.not_eq_true] at hcr
      rw [hcr]
      refine ⟨c - 1, k, Or.inl (by omega), by omega, hemptyL, ?_⟩
      simp only [Bool.false_eq_true, if_false, if_true]
      rw [hL hc0]
  · rw [Bool.not_eq_true] at hcl
    rw [hcl]
    simp only [Bool.false_and, Bool.false_eq_true, if_false]
    by_cases hcr : ((c : Int) + 1 != (s.width : Int) &&
        tileIsEmpty (ggetI s.grid (r : Int) ((c : Int) + 1))) = true
    · right
      have hcw1 : c + 1 < s.width := by
        rcases (Bool.and_eq_true _ _).mp hcr with ⟨h1, _⟩
        simp only [bne_iff_ne, ne_eq] at h1
        omega
      have hemptyR : tileIsEmpty (gget s.grid r (c + 1)) = true := by
        rcases (Bool.and_eq_true _ _).mp hcr with ⟨_, h2⟩
        rwa [intCast_add_one, ggetI_natCast] at h2
      rw [hcr]
      refine ⟨c + 1, k, Or.inr rfl, hcw1, hemptyR, ?_⟩
      simp only [if_true]
      rw [intCast_add_one]
    · left
      rw [Bool.not_eq_true] at hcr
      rw [hcr]
      simp

/-- Case analysis of `do_liquid_flow`: either nothing happens, or the call
reduces to `_slide_left_or_right` (whose cases apply). -/
theorem doLiquidFlow_cases (rng : Rng) (k : Nat) (s : Sandbox) {r c : Nat}
    (hcw : c < s.width) :
    doLiquidFlow rng k s (r : Int) (c : Int) = (s, k) ∨
    ∃ tc k', (tc + 1 = c ∨ tc = c + 1) ∧ tc < s.width ∧
      tileIsEmpty (gget s.grid r tc) = true ∧
      doLiquidFlow rng k s (r : Int) (c : Int) =
        ({ s with grid := swapTiles (r : Int) (c : Int) (r : Int) (tc : Int) s.grid }, k') := by
  simp only [doLiquidFlow]
  by_cases hg : (!((r : Int) + 1 == (s.height : Int) ||
        tileIsSolid (ggetI s.grid ((r : Int) + 1) (c : Int))) &&
      !tileIsLiquid (ggetI s.grid ((r : Int) + 1) (c : Int))) = true
  · rw [hg]
    left
    simp
  · rw [Bool.not_eq_true] at hg
    rw [hg]
    simp only [Bool.false_eq_true, if_false]
    exact slideLeftOrRight_cases rng k s hcw

/-- Case analysis of `do_extinguish`: either nothing happens, or the cell is
overwritten with a freshly created STEAM tile (when water is adjacent). -/
theorem doExtinguish_cases (s : Sandbox) (r c : Nat) :
    doExtinguish s (r : Int) (c : Int) = s ∨
    doExtinguish s (r : Int) (c : Int) =
      { s with grid := gset s.grid r c (createTile s STEAM) } := by
  simp only [doExtinguish]
  split
  · left; rfl
  · right
    rw [gsetI_natCast]

/-- A successful sink check implies its target passed the bounds guard. -/
theorem canSink_true_guard {s : Sandbox} {row col tr tc : Int}
    (h : canSink s row col tr tc = true) :
    tr ≠ (s.height : Int) ∧ tc ≠ -1 ∧ tc ≠ (s.width : Int) := by
  unfold canSink at h
  by_cases hg : (tr == (s.height : Int) || tc == -1 ||
      tc == (s.width : Int)) = true
  · rw [if_pos hg] at h
    simp at h
  · simp only [Bool.or_eq_true, beq_iff_eq] at hg
    push_neg at hg
    exact ⟨hg.1.1, hg.1.2, hg.2⟩

/-- Case analysis of `do_gravity` at in-bounds coordinates: the result is
either unchanged or a swap of the source with one of the three cells below
it, a cell that was empty or satisfied the sink predicate. -/
theorem doGravity_cases (rng : Rng) (k : Nat) (s : Sandbox) {r c : Nat}
    (hrh : r < s.height) (hcw : c < s.width) :
    doGravity rng k s (r : Int) (c : Int) = (s, k) ∨
    ∃ tc k', (tc = c ∨ tc + 1 = c ∨ tc = c + 1) ∧ r + 1 < s.height ∧
      tc < s.width ∧
      (tileIsEmpty (gget s.grid (r + 1) tc) = true ∨
        canSink s (r : Int) (c : Int) ((r + 1 : Nat) : Int) ((tc : Nat) : Int) = true) ∧
      doGravity rng k s (r : Int) (c : Int) =
        ({ s with grid :=
          swapTiles (r : Int) (c : Int) ((r + 1 : Nat) : Int) ((tc : Nat) : Int) s.grid }, k') := by
  simp only [doGravity]
  by_cases hh : ((r : Int) + 1 == (s.height : Int)) = true
  · rw [hh]
    left
    simp
  · rw [Bool.not_eq_true] at hh
    rw [hh]
    simp only [Bool.false_eq_true, if_false]
    have hr1 : r + 1 < s.height := by
      simp only [beq_eq_false_iff_ne, ne_eq] at hh
      omega
    by_cases hfall : (tileIsEmpty (ggetI s.grid ((r : Int) + 1) (c : Int)) ||
        canSink s (r : Int) (c : Int) ((r : Int) + 1) (c : Int)) = true
    · right
      refine ⟨c, k, Or.inl rfl, hr1, hcw, ?_, ?_⟩
      · rw [Bool.or_eq_true] at hfall
        rcases hfall with he | hs2
        · left
          rwa [intCast_add_one, ggetI_natCast] at he
        · right
          rwa [intCast_add_one] at hs2
      · rw [hfall]
        simp only [if_true]
        rw [intCast_add_one]
    · rw [Bool.not_eq_true] at hfall
      rw [hfall]
      simp only [Bool.false_eq_true, if_false]
      by_cases hwalls : ((((c : Int) - 1 == -1) ||
            tileIsSolid (ggetI s.grid (r : Int) ((c : Int) - 1))) &&
          (((c : Int) + 1 == (s.width : Int)) ||
            tileIsSolid (ggetI s.grid (r : Int) ((c : Int) + 1)))) = true
      · rw [hwalls]
        left
        simp
      · rw [Bool.not_eq_true] at hwalls
        rw [hwalls]
        simp only [Bool.false_eq_true, if_false]
        -- abbreviations for the four possibilities
        set snkL := canSink s (r : Int) (c : Int) ((r : Int) + 1) ((c : Int) - 1) with hsnkL
        set snkR := canSink s (r : Int) (c : Int) ((r : Int) + 1) ((c : Int) + 1) with hsnkR
        set slL := (!((c : Int) - 1 == -1 ||
            tileIsSolid (ggetI s.grid (r : Int) ((c : Int) - 1))) &&
          tileIsEmpty (ggetI s.grid ((r : Int) + 1) ((c : Int) - 1))) with hslL
        set slR := (!((c : Int) + 1 == (s.width : Int) ||
            tileIsSolid (ggetI s.grid (r : Int) ((c : Int) + 1))) &&
          tileIsEmpty (ggetI s.grid ((r : Int) + 1) ((c : Int) + 1))) with hslR
        have hLfacts : (slL || snkL) = true → c ≠ 0 ∧
            (tileIsEmpty (gget s.grid (r + 1) (c - 1)) = true ∨
             canSink s (r : Int) (c : Int) ((r + 1 : Nat) : Int) ((c - 1 : Nat) : Int) = true) := by
          intro hor
          rw [Bool.or_eq_true] at hor
          rcases hor with hsl | hsn
          · rcases (Bool.and_eq_true _ _).mp hsl with ⟨h1, h2⟩
            simp only [Bool.not_eq_true', Bool.or_eq_false_iff, beq_eq_false_iff_ne,
              ne_eq] at h1
            have hc0 : c ≠ 0 := by
              intro hc
              exact h1.1 (by simp [hc])
            refine ⟨hc0, Or.inl ?_⟩
            rw [intCast_sub_one hc0, intCast_add_one, ggetI_natCast] at h2
            exact h2
          · have hg := canSink_true_guard hsn
            have hc0 : c ≠ 0 := by
              intro hc
              exact hg.2.1 (by simp [hc])
            refine ⟨hc0, Or.inr ?_⟩
            rw [hsnkL] at hsn
            rwa [intCast_sub_one hc0, intCast_add_one] at hsn
        have hRfacts : (slR || snkR) = true → c + 1 < s.width ∧
            (tileIsEmpty (gget s.grid (r + 1) (c + 1)) = true ∨
             canSink s (r : Int) (c : Int) ((r + 1 : Nat) : Int) ((c + 1 : Nat) : Int) = true) := by
          intro hor
          rw [Bool.or_eq_true] at hor
          rcases hor with hsl | hsn
          · rcases (Bool.and_eq_true _ _).mp hsl with ⟨h1, h2⟩
            simp only [Bool.not_eq_true', Bool.or_eq_false_iff, beq_eq_false_iff_ne,
              ne_eq] at h1
            have hcw1 : c + 1 < s.width := by
              have := h1.1
              omega
            refine ⟨hcw1, Or.inl ?_⟩
            rw [intCast_add_one, intCast_add_one, ggetI_natCast] at h2
            exact h2
          · have hg := canSink_true_guard hsn
            have hcw1 : c + 1 < s.width := by
              have := hg.2.2
              omega
            refine ⟨hcw1, Or.inr ?_⟩
            rw [hsnkR] at hsn
            rwa [intCast_add_one, intCast_add_one] at hsn
        by_cases hrand : ((slL && slR) || (snkL && snkR)) = true
        · rw [hrand]
          simp only [if_true, flipCoin]
          have hLor : (slL || snkL) = true := by
            rw [Bool.or_eq_true] at hrand
            rcases hrand with hb | hb <;>
              rcases (Bool.and_eq_true _ _).mp hb with ⟨h1, _⟩ <;>
              simp [h1]
          have hRor : (slR || snkR) = true := by
            rw [Bool.or_eq_true] at hrand
            rcases hrand with hb | hb <;>
              rcases (Bool.and_eq_true _ _).mp hb with ⟨_, h2⟩ <;>
              simp [h2]
          obtain ⟨hc0, hcondL⟩ := hLfacts hLor
          obtain ⟨hcw1, hcondR⟩ := hRfacts hRor
          by_cases hco : rng.coin k = true
          · rw [hco]
            right
            refine ⟨c - 1, k + 1, Or.inr (Or.inl (by omega)), hr1, by omega,
              hcondL, ?_⟩
            simp only [if_true]
            rw [intCast_sub_one hc0, intCast_add_one]
          · rw [Bool.not_eq_true] at hco
            rw [hco]
            right
            refine ⟨c + 1, k + 1, Or.inr (Or.inr rfl), hr1, hcw1, hcondR, ?_⟩
            simp only [Bool.false_eq_true, if_false]
            rw [intCast_add_one, intCast_add_one]
        · rw [Bool.not_eq_true] at hrand
          rw [hrand]
          simp only [Bool.false_eq_true, if_false]
          by_cases hleft : (slL || snkL) = true
          · rw [hleft]
            obtain ⟨hc0, hcondL⟩ := hLfacts hleft
            right
            refine ⟨c - 1, k, Or.inr (Or.inl (by omega)), hr1, by omega,
              hcondL, ?_⟩
            simp only [if_true]
            rw [intCast_sub_one hc0, intCast_add_one]
          · rw [Bool.not_eq_true] at hleft
            rw [hleft]
            simp only [Bool.false_eq_true, if_false]
            by_cases hright : (slR || snkR) = true
            · rw [hright]
              obtain ⟨hcw1, hcondR⟩ := hRfacts hright
              right
              refine ⟨c + 1, k, Or.inr (Or.inr rfl), hr1, hcw1, hcondR, ?_⟩
              simp only [if_true]
              rw [intCast_add_one, intCast_add_one]
            · rw [Bool.not_eq_true] at hright
              rw [hright]
              left
              simp

theorem getD_mem {α : Type} (l : List α) (i : Nat) (d : α)
    (h : i < l.length) : l.getD i d ∈ l := by
  rw [List.getD_eq_getElem l d h]
  exact List.getElem_mem h

/-- A successful lift check implies its target passed the bounds guard. -/
theorem canLift_true_guard {s : Sandbox} {row col tr tc : Int}
    (h : canLift s row col tr tc = true) :
    tr ≠ -1 ∧ tc ≠ -1 ∧ tc ≠ (s.width : Int) := by
  unfold canLift at h
  by_cases hg : (tr == -1 || tc == -1 || tc == (s.width : Int)) = true
  · rw [if_pos hg] at h
    simp at h
  · simp only [Bool.or_eq_true, beq_iff_eq] at hg
    push_neg at hg
    exact ⟨hg.1.1, hg.1.2, hg.2⟩

/-- Case analysis of `do_lift` at in-bounds coordinates: the result is either
unchanged, or a swap of the source with one of the five candidate cells, one
that passed the `_can_lift` check. -/
theorem doLift_cases (rng : Rng) (k : Nat) (s : Sandbox) {r c : Nat}
    (hrh : r < s.height) (hcw : c < s.width) :
    doLift rng k s (r : Int) (c : Int) = (s, k) ∨
    ∃ tr tc, ((tr + 1 = r ∧ (tc = c ∨ tc + 1 = c ∨ tc = c + 1)) ∨
        (tr = r ∧ (tc + 1 = c ∨ tc = c + 1))) ∧ tr < s.height ∧
      tc < s.width ∧
      canLift s (r : Int) (c : Int) (tr : Int) (tc : Int) = true ∧
      doLift rng k s (r : Int) (c : Int) =
        ({ s with grid :=
          swapTiles (r : Int) (c : Int) (tr : Int) (tc : Int) s.grid }, k + 1) := by
  set tgts := [((r : Int) - 1, (c : Int)), ((r : Int) - 1, (c : Int) - 1),
      ((r : Int) - 1, (c : Int) + 1), ((r : Int), (c : Int) - 1),
      ((r : Int), (c : Int) + 1)].filter
    (fun rc => canLift s (r : Int) (c : Int) rc.1 rc.2) with htgts
  set tgt := tgts.getD (0 + rng.pick k % tgts.length) (0, 0) with htgt
  have hout : doLift rng k s (r : Int) (c : Int) =
      if tgts.length = 0 then (s, k)
      else ({ s with grid := swapTiles (r : Int) (c : Int) tgt.1 tgt.2 s.grid }, k + 1) := by
    by_cases hlen : tgts.length = 0
    · rw [if_pos hlen]
      simp only [doLift, ← htgts]
      rw [if_pos hlen]
    · rw [if_neg hlen]
      simp only [doLift, ← htgts, randint]
      rw [if_neg hlen]
      have hlen1 : tgts.length - 1 + 1 - 0 = tgts.length := by omega
      rw [hlen1, ← htgt]
  by_cases hlen : tgts.length = 0
  · rw [if_pos hlen] at hout
    left
    exact hout
  · rw [if_neg hlen] at hout
    right
    have hidx : 0 + rng.pick k % tgts.length < tgts.length := by
      have := Nat.mod_lt (rng.pick k) (Nat.pos_of_ne_zero hlen)
      omega
    have hmem := getD_mem tgts (0 + rng.pick k % tgts.length) (0, 0) hidx
    rw [← htgt] at hmem
    rw [htgts, List.mem_filter] at hmem
    obtain ⟨hmem5, hcan⟩ := hmem
    have hr0 : (tgt.1 = (r : Int) - 1 → r ≠ 0) := by
      intro h1 hr
      have := (canLift_true_guard hcan).1
      rw [h1, hr] at this
      simp at this
    have hc0 : (tgt.2 = (c : Int) - 1 → c ≠ 0) := by
      intro h1 hc
      have := (canLift_true_guard hcan).2.1
      rw [h1, hc] at this
      simp at this
    have hcw1 : (tgt.2 = (c : Int) + 1 → c + 1 < s.width) := by
      intro h1
      have := (canLift_true_guard hcan).2.2
      rw [h1] at this
      have hne : c + 1 ≠ s.width := by
        intro hx
        apply this
        rw [← hx]
        push_cast
        ring
      omega
    simp only [List.mem_cons, List.mem_singleton] at hmem5
    rcases hmem5 with he | he | he | he | he | he
    · -- target (r-1, c)
      have hr0x := hr0 (by rw [he])
      have hcan2 : canLift s (r : Int) (c : Int) ((r : Int) - 1) (c : Int) = true := by
        rw [he] at hcan
        exact hcan
      refine ⟨r - 1, c, Or.inl ⟨by omega, Or.inl rfl⟩, by omega, hcw, ?_, ?_⟩
      · rw [intCast_sub_one hr0x] at hcan2
        exact hcan2
      · rw [hout, he]
        rw [intCast_sub_one hr0x]
    · -- target (r-1, c-1)
      have hr0x := hr0 (by rw [he])
      have hc0x := hc0 (by rw [he])
      have hcan2 : canLift s (r : Int) (c : Int) ((r : Int) - 1) ((c : Int) - 1) = true := by
        rw [he] at hcan
        exact hcan
      refine ⟨r - 1, c - 1, Or.inl ⟨by omega, Or.inr (Or.inl (by omega))⟩,
        by omega, by omega, ?_, ?_⟩
      · rw [intCast_sub_one hr0x, intCast_sub_one hc0x] at hcan2
        exact hcan2
      · rw [hout, he]
        rw [intCast_sub_one hr0x, intCast_sub_one hc0x]
    · -- target (r-1, c+1)
      have hr0x := hr0 (by rw [he])
      have hcw1x := hcw1 (by rw [he])
      have hcan2 : canLift s (r : Int) (c : Int) ((r : Int) - 1) ((c : Int) + 1) = true := by
        rw [he] at hcan
        exact hcan
      refine ⟨r - 1, c + 1, Or.inl ⟨by omega, Or.inr (Or.inr rfl)⟩,
        by omega, hcw1x, ?_, ?_⟩
      · rw [intCast_sub_one hr0x, intCast_add_one] at hcan2
        exact hcan2
      · rw [hout, he]
        rw [intCast_sub_one hr0x, intCast_add_one]
    · -- target (r, c-1)
      have hc0x := hc0 (by rw [he])
      have hcan2 : canLift s (r : Int) (c : Int) (r : Int) ((c : Int) - 1) = true := by
        rw [he] at hcan
        exact hcan
      refine ⟨r, c - 1, Or.inr ⟨rfl, Or.inl (by omega)⟩, hrh, by omega, ?_, ?_⟩
      · rw [intCast_sub_one hc0x] at hcan2
        exact hcan2
      · rw [hout, he]
        rw [intCast_sub_one hc0x]
    · -- target (r, c+1)
      have hcw1x := hcw1 (by rw [he])
      have hcan2 : canLift s (r : Int) (c : Int) (r : Int) ((c : Int) + 1) = true := by
        rw [he] at hcan
        exact hcan
      refine ⟨r, c + 1, Or.inr ⟨rfl, Or.inr rfl⟩, hrh, hcw1x, ?_, ?_⟩
      · rw [intCast_add_one] at hcan2
        exact hcan2
      · rw [hout, he]
        rw [intCast_add_one]
    · simp at he

/-- Cells holding air are skipped without any mutation. -/
theorem stepCell_skip_empty (rng : Rng) (s : Sandbox) (k r c : Nat)
    (h : tileIsEmpty (gget s.grid r c) = true) :
    stepCell rng (s, k) (r, c) = (s, k) := by
  simp only [stepCell, h, if_true]

/-- Cells already updated for the current lifetime are skipped unchanged. -/
theorem stepCell_skip_updated (rng : Rng) (s : Sandbox) (k r c : Nat)
    (h : isTileUpdated (gget s.grid r c) s.lifetime = true) :
    stepCell rng (s, k) (r, c) = (s, k) := by
  by_cases hemp : tileIsEmpty (gget s.grid r c) = true
  · simp only [stepCell, hemp, if_true]
  · rw [Bool.not_eq_true] at hemp
    simp only [stepCell, hemp, h, Bool.false_eq_true, if_false, if_true]

/-- Scheduler at one cell, failing survival roll: the tile is deleted. -/
theorem stepCell_delete (rng : Rng) (s : Sandbox) (k r c : Nat)
    (hemp : tileIsEmpty (gget s.grid r c) = false)
    (hupd : isTileUpdated (gget s.grid r c) s.lifetime = false)
    (hsurv : (rollShouldTileSurvive rng k (gget s.grid r c)).1 = false) :
    stepCell rng (s, k) (r, c) = ({ s with grid := gset s.grid r c AIR },
      (rollShouldTileSurvive rng k (gget s.grid r c)).2) := by
  simp only [stepCell, hemp, hupd, hsurv, Bool.false_eq_true, if_false,
    Bool.not_false, if_true]

/-- Scheduler at one cell, succeeding burn roll: the tile ignites. -/
theorem stepCell_burn (rng : Rng) (s : Sandbox) (k r c : Nat)
    (hemp : tileIsEmpty (gget s.grid r c) = false)
    (hupd : isTileUpdated (gget s.grid r c) s.lifetime = false)
    (hsurv : (rollShouldTileSurvive rng k (gget s.grid r c)).1 = true)
    (hburn : (rollShouldTileBurn rng
      (rollShouldTileSurvive rng k (gget s.grid r c)).2 s (r : Int) (c : Int)).1 = true) :
    stepCell rng (s, k) (r, c) =
      ({ s with grid := gset s.grid r c (createTile s FIRE) },
        (rollShouldTileBurn rng
          (rollShouldTileSurvive rng k (gget s.grid r c)).2 s (r : Int) (c : Int)).2) := by
  simp only [stepCell, hemp, hupd, hsurv, hburn, Bool.false_eq_true, if_false,
    Bool.not_true, if_true]

/-- Scheduler at one cell, main path (survives, does not burn): mark, then
extinguish check, then the three movement checks, then re-mark. -/
theorem stepCell_main_eq (rng : Rng) (s : Sandbox) (k r c : Nat)
    (hemp : tileIsEmpty (gget s.grid r c) = false)
    (hupd : isTileUpdated (gget s.grid r c) s.lifetime = false)
    (hsurv : (rollShouldTileSurvive rng k (gget s.grid r c)).1 = true)
    (hburn : (rollShouldTileBurn rng
      (rollShouldTileSurvive rng k (gget s.grid r c)).2 s (r : Int) (c : Int)).1 = false) :
    stepCell rng (s, k) (r, c) =
      (let k2 := (rollShouldTileBurn rng
        (rollShouldTileSurvive rng k (gget s.grid r c)).2 s (r : Int) (c : Int)).2
      let s2 := if getTileType (gget s.grid r c) == FIRE then
        doExtinguish (markCell s r c) (r : Int) (c : Int) else markCell s r c
      let sk3 := if tileHasGravity (gget s.grid r c) then
        doGravity rng k2 s2 (r : Int) (c : Int) else (s2, k2)
      let sk4 := if tileIsLiquid (gget s.grid r c) then
        doLiquidFlow rng sk3.2 sk3.1 (r : Int) (c : Int) else sk3
      let sk5 := if tileIsGas (gget s.grid r c) then
        doLift rng sk4.2 sk4.1 (r : Int) (c : Int) else sk4
      (markCell sk5.1 r c, sk5.2)) := by
  simp only [stepCell, markCell, hemp, hupd, hsurv, hburn, Bool.false_eq_true,
    if_false, Bool.not_true, if_true]

/-- A WATER source can never sink: the only liquid is WATER itself, and a
sink requires a liquid target of a different type. -/
theorem canSink_false_water {s : Sandbox} {row col : Int}
    (h : getTileType (ggetI s.grid row col) = WATER) (tr tc : Int) :
    canSink s row col tr tc = false := by
  unfold canSink
  split
  · rfl
  · by_cases hl : tileIsLiquid (ggetI s.grid tr tc) = true
    · have hw := liquid_isWater hl
      have hsame : areTilesSameType (ggetI s.grid row col)
          (ggetI s.grid tr tc) = true := by
        unfold areTilesSameType
        rw [h, hw]
        rfl
      simp [hsame, hl]
    · rw [Bool.not_eq_true] at hl
      simp [hl]

theorem doExtinguish_width (s : Sandbox) (row col : Int) :
    (doExtinguish s row col).width = s.width := by
  simp only [doExtinguish]
  split <;> rfl

theorem doExtinguish_height (s : Sandbox) (row col : Int) :
    (doExtinguish s row col).height = s.height := by
  simp only [doExtinguish]
  split <;> rfl

theorem doExtinguish_lifetime (s : Sandbox) (row col : Int) :
    (doExtinguish s row col).lifetime = s.lifetime := by
  simp only [doExtinguish]
  split <;> rfl

theorem createTile_markCell (s : Sandbox) (r c : Nat) (ty : Nat) :
    createTile (markCell s r c) ty = createTile s ty := rfl

/-- Structural case analysis of the scheduler's work at one in-bounds cell:
a skip, a deletion, a burn conversion, or the marked pipeline whose grid
effect is one of the `PipelineMid` shapes. -/
theorem stepCell_cases (rng : Rng) (s : Sandbox) (k r c : Nat)
    (hwf : WfSandbox s) (hrh : r < s.height) (hcw : c < s.width) :
    (stepCell rng (s, k) (r, c) = (s, k) ∧
      (tileIsEmpty (gget s.grid r c) = true ∨
       isTileUpdated (gget s.grid r c) s.lifetime = true)) ∨
    ((∃ k', stepCell rng (s, k) (r, c) =
        ({ s with grid := gset s.grid r c AIR }, k')) ∧
      getTileLifespan (gget s.grid r c) ≠ Lifespan.PERMANENT ∧
      tileIsEmpty (gget s.grid r c) = false) ∨
    ((∃ k', stepCell rng (s, k) (r, c) =
        ({ s with grid := gset s.grid r c (createTile s FIRE) }, k')) ∧
      tileFlammability (gget s.grid r c) ≠ 0 ∧
      tileIsEmpty (gget s.grid r c) = false) ∨
    (∃ t k', stepCell rng (s, k) (r, c) = (markCell t r c, k') ∧
      t.width = s.width ∧ t.height = s.height ∧ t.lifetime = s.lifetime ∧
      tileIsEmpty (gget s.grid r c) = false ∧ PipelineMid s r c t) := by
  by_cases hemp : tileIsEmpty (gget s.grid r c) = true
  · exact Or.inl ⟨stepCell_skip_empty rng s k r c hemp, Or.inl hemp⟩
  rw [Bool.not_eq_true] at hemp
  by_cases hupd : isTileUpdated (gget s.grid r c) s.lifetime = true
  · exact Or.inl ⟨stepCell_skip_updated rng s k r c hupd, Or.inr hupd⟩
  rw [Bool.not_eq_true] at hupd
  by_cases hsurv : (rollShouldTileSurvive rng k (gget s.grid r c)).1 = true
  case neg =>
    rw [Bool.not_eq_true] at hsurv
    refine Or.inr (Or.inl ⟨⟨_, stepCell_delete rng s k r c hemp hupd hsurv⟩,
      rollSurvive_false_lifespan hsurv, hemp⟩)
  by_cases hburn : (rollShouldTileBurn rng
      (rollShouldTileSurvive rng k (gget s.grid r c)).2 s (r : Int) (c : Int)).1 = true
  case pos =>
    refine Or.inr (Or.inr (Or.inl ⟨⟨_,
      stepCell_burn rng s k r c hemp hupd hsurv hburn⟩, ?_, hemp⟩))
    have := rollBurn_true_flammable hburn
    rwa [ggetI_natCast] at this
  rw [Bool.not_eq_true] at hburn
  refine Or.inr (Or.inr (Or.inr ?_))
  have heq := stepCell_main_eq rng s k r c hemp hupd hsurv hburn
  set b := gget s.grid r c with hb
  set K := (rollShouldTileBurn rng
    (rollShouldTileSurvive rng k b).2 s (r : Int) (c : Int)).2 with hK
  by_cases hfire : getTileType b = FIRE
  · -- FIRE: extinguish check, then lift
    have hgas : tileIsGas b = true := fire_isGas hfire
    have hnog := gas_not_gravity hgas
    have hbeq : (getTileType b == FIRE) = true := by
      rw [hfire]
      rfl
    simp only [hbeq, hnog.1, hnog.2, hgas, Bool.false_eq_true, if_false,
      if_true] at heq
    rcases doExtinguish_cases (markCell s r c) r c with hE | hE
    · rw [hE] at heq
      rcases doLift_cases rng K (markCell s r c) hrh hcw with hL | hL
      · rw [hL] at heq
        exact ⟨markCell s r c, K, heq, rfl, rfl, rfl, hemp, Or.inl rfl⟩
      · obtain ⟨tr, tc, hpos, htr, htc, hcan, hLeq⟩ := hL
        rw [hLeq] at heq
        refine ⟨_, K + 1, heq, rfl, rfl, rfl, hemp,
          Or.inr (Or.inl ⟨(tr, tc), htr, htc, ?_, rfl⟩)⟩
        rcases hpos with ⟨h1, _⟩ | ⟨h1, h2⟩
        · intro hx
          rw [Prod.mk.injEq] at hx
          omega
        · intro hx
          rw [Prod.mk.injEq] at hx
          omega
    · rw [hE, createTile_markCell] at heq
      set sE : Sandbox := { markCell s r c with
        grid := gset (markCell s r c).grid r c (createTile s STEAM) } with hsE
      rcases doLift_cases rng K sE hrh hcw with hL | hL
      · rw [hL] at heq
        exact ⟨sE, K, heq, rfl, rfl, rfl, hemp,
          Or.inr (Or.inr (Or.inr (Or.inl ⟨hfire, rfl⟩)))⟩
      · obtain ⟨tr, tc, hpos, htr, htc, hcan, hLeq⟩ := hL
        rw [hLeq] at heq
        refine ⟨_, K + 1, heq, rfl, rfl, rfl, hemp,
          Or.inr (Or.inr (Or.inr (Or.inr ⟨hfire, (tr, tc), htr, htc, ?_, rfl⟩)))⟩
        rcases hpos with ⟨h1, _⟩ | ⟨h1, h2⟩
        · intro hx
          rw [Prod.mk.injEq] at hx
          omega
        · intro hx
          rw [Prod.mk.injEq] at hx
          omega
  · have hbeqF : (getTileType b == FIRE) = false := by
      simp only [beq_eq_false_iff_ne, ne_eq]
      exact hfire
    by_cases hgas : tileIsGas b = true
    · -- non-fire gas (STEAM): lift only
      have hnog := gas_not_gravity hgas
      simp only [hbeqF, hnog.1, hnog.2, hgas, Bool.false_eq_true, if_false,
        if_true] at heq
      rcases doLift_cases rng K (markCell s r c) hrh hcw with hL | hL
      · rw [hL] at heq
        exact ⟨markCell s r c, K, heq, rfl, rfl, rfl, hemp, Or.inl rfl⟩
      · obtain ⟨tr, tc, hpos, htr, htc, hcan, hLeq⟩ := hL
        rw [hLeq] at heq
        refine ⟨_, K + 1, heq, rfl, rfl, rfl, hemp,
          Or.inr (Or.inl ⟨(tr, tc), htr, htc, ?_, rfl⟩)⟩
        rcases hpos with ⟨h1, _⟩ | ⟨h1, h2⟩
        · intro hx
          rw [Prod.mk.injEq] at hx
          omega
        · intro hx
          rw [Prod.mk.injEq] at hx
          omega
    · rw [Bool.not_eq_true] at hgas
      by_cases hliq : tileIsLiquid b = true
      · -- WATER: gravity then liquid flow
        have hwat : getTileType b = WATER := liquid_isWater hliq
        have hgrav : tileHasGravity b = true := liquid_hasGravity hliq
        simp only [hbeqF, hgrav, hliq, hgas, Bool.false_eq_true, if_false,
          if_true] at heq
        have hsrcw : getTileType (ggetI (markCell s r c).grid
            (r : Int) (c : Int)) = WATER := by
          rw [ggetI_natCast]
          show getTileType (gget (gset s.grid r c
            (setTileUpdated b s.lifetime)) r c) = WATER
          rw [gget_gset_self (wf_rect hwf) hrh hcw,
            getTileType_setTileUpdated]
          exact hwat
        rcases doGravity_cases rng K (markCell s r c) hrh hcw with hG | hG
        · rw [hG] at heq
          rcases doLiquidFlow_cases rng K (markCell s r c) hcw with hF | hF
          · rw [hF] at heq
            exact ⟨markCell s r c, K, heq, rfl, rfl, rfl, hemp, Or.inl rfl⟩
          · obtain ⟨tc2, k3, hpos2, htc2, hemp2, hFeq⟩ := hF
            rw [hFeq] at heq
            refine ⟨_, k3, heq, rfl, rfl, rfl, hemp,
              Or.inr (Or.inl ⟨(r, tc2), hrh, htc2, ?_, rfl⟩)⟩
            intro hx
            rw [Prod.mk.injEq] at hx
            omega
        · obtain ⟨tc1, k3, hpos1, hr1, htc1, hcond, hGeq⟩ := hG
          have hcond2 : tileIsEmpty (gget s.grid (r + 1) tc1) = true := by
            rcases hcond with hcond | hcond
            · show tileIsEmpty (gget s.grid (r + 1) tc1) = true
              have : gget (markCell s r c).grid (r + 1) tc1 =
                  gget s.grid (r + 1) tc1 := by
                show gget (gset s.grid r c (setTileUpdated b s.lifetime))
                  (r + 1) tc1 = gget s.grid (r + 1) tc1
                rw [gget_gset_ne (Or.inl (by omega))]
              rwa [this] at hcond
            · rw [canSink_false_water hsrcw] at hcond
              simp at hcond
          rw [hGeq] at heq
          set s3 : Sandbox := { markCell s r c with
            grid := swapTiles (r : Int) (c : Int) ((r + 1 : Nat) : Int)
              (tc1 : Int) (markCell s r c).grid } with hs3
          rcases doLiquidFlow_cases rng k3 s3 hcw with hF | hF
          · rw [hF] at heq
            refine ⟨s3, k3, heq, rfl, rfl, rfl, hemp,
              Or.inr (Or.inl ⟨(r + 1, tc1), hr1, htc1, ?_, rfl⟩)⟩
            intro hx
            rw [Prod.mk.injEq] at hx
            omega
          · obtain ⟨tc2, k4, hpos2, htc2, hemp2, hFeq⟩ := hF
            rw [hFeq] at heq
            have hemp2s : tileIsEmpty (gget s.grid r tc2) = true := by
              have e1 : gget s3.grid r tc2 = gget (markCell s r c).grid r tc2 := by
                show gget (swapTiles (r : Int) (c : Int) ((r + 1 : Nat) : Int)
                  (tc1 : Int) (markCell s r c).grid) r tc2 =
                  gget (markCell s r c).grid r tc2
                apply swap_gget_other
                · intro hx
                  rw [Prod.mk.injEq] at hx
                  omega
                · intro hx
                  rw [Prod.mk.injEq] at hx
                  omega
              have e2 : gget (markCell s r c).grid r tc2 =
                  gget s.grid r tc2 := by
                show gget (gset s.grid r c (setTileUpdated b s.lifetime))
                  r tc2 = gget s.grid r tc2
                rw [gget_gset_ne (Or.inr (by omega))]
              rw [e1, e2] at hemp2
              exact hemp2
            refine ⟨_, k4, heq, rfl, rfl, rfl, hemp,
              Or.inr (Or.inr (Or.inl ⟨tc1, tc2, hwat, hr1, htc1, htc2,
                by omega, hcond2, hemp2s, rfl⟩))⟩
      · -- gravity only (SAND), or nothing at all
        rw [Bool.not_eq_true] at hliq
        by_cases hgrav : tileHasGravity b = true
        · simp only [hbeqF, hgrav, hliq, hgas, Bool.false_eq_true, if_false,
            if_true] at heq
          rcases doGravity_cases rng K (markCell s r c) hrh hcw with hG | hG
          · rw [hG] at heq
            exact ⟨markCell s r c, K, heq, rfl, rfl, rfl, hemp, Or.inl rfl⟩
          · obtain ⟨tc1, k3, hpos1, hr1, htc1, hcond, hGeq⟩ := hG
            rw [hGeq] at heq
            refine ⟨_, k3, heq, rfl, rfl, rfl, hemp,
              Or.inr (Or.inl ⟨(r + 1, tc1), hr1, htc1, ?_, rfl⟩)⟩
            intro hx
            rw [Prod.mk.injEq] at hx
            omega
        · rw [Bool.not_eq_true] at hgrav
          simp only [hbeqF, hgrav, hliq, hgas, Bool.false_eq_true, if_false,
            if_true] at heq
          exact ⟨markCell s r c, K, heq, rfl, rfl, rfl, hemp, Or.inl rfl⟩

theorem pipelineMid_shape {s : Sandbox} {r c : Nat} {t : Sandbox}
    (hwf : WfSandbox s) (hm : PipelineMid s r c t) :
    Rect t.grid s.height s.width ∧ BytesLt t.grid := by
  have hr0 := wf_rect hwf
  have hb0 := wf_bytesLt hwf
  have hrm : Rect (markCell s r c).grid s.height s.width :=
    rect_gset hr0 _ _ _
  have hbm : BytesLt (markCell s r c).grid :=
    bytesLt_gset hb0 (setTileUpdated_lt_256 _ _) _ _
  rcases hm with hm | ⟨p, hp1, hp2, hpne, hm⟩ | ⟨tc1, tc2, _, hr1, htc1, htc2, _, _, _, hm⟩ |
    ⟨_, hm⟩ | ⟨_, p, hp1, hp2, hpne, hm⟩
  · rw [hm]
    exact ⟨hrm, hbm⟩
  · rw [hm]
    exact ⟨rect_swap hrm _ _ _ _, bytesLt_swap hrm hbm _ _ _ _⟩
  · rw [hm]
    refine ⟨rect_swap (rect_swap hrm _ _ _ _) _ _ _ _, ?_⟩
    exact bytesLt_swap (rect_swap hrm _ _ _ _)
      (bytesLt_swap hrm hbm _ _ _ _) _ _ _ _
  · rw [hm]
    exact ⟨rect_gset hrm _ _ _,
      bytesLt_gset hbm (setTileUpdated_lt_256 _ _) _ _⟩
  · rw [hm]
    have hrg : Rect (gset (markCell s r c).grid r c (createTile s STEAM))
        s.height s.width := rect_gset hrm _ _ _
    have hbg : BytesLt (gset (markCell s r c).grid r c (createTile s STEAM)) :=
      bytesLt_gset hbm (setTileUpdated_lt_256 _ _) _ _
    exact ⟨rect_swap hrg _ _ _ _, bytesLt_swap hrg hbg _ _ _ _⟩

theorem ne_pair_or {i j r c : Nat} (h : (i, j) ≠ (r, c)) :
    r ≠ i ∨ c ≠ j := by
  by_contra hx
  push_neg at hx
  obtain ⟨h1, h2⟩ := hx
  subst h1
  subst h2
  exact h rfl

/-- Every cell the scheduler step writes outside the processed cell either
keeps its previous byte or receives an air-typed or freshly-marked byte; the
processed cell itself ends air-typed or marked; dimensions, lifetime and
well-formedness are preserved. -/
theorem stepCell_flagOk (rng : Rng) (s : Sandbox) (k r c : Nat)
    (hwf : WfSandbox s) (hrh : r < s.height) (hcw : c < s.width) :
    WfSandbox (stepCell rng (s, k) (r, c)).1 ∧
    (stepCell rng (s, k) (r, c)).1.width = s.width ∧
    (stepCell rng (s, k) (r, c)).1.height = s.height ∧
    (stepCell rng (s, k) (r, c)).1.lifetime = s.lifetime ∧
    FlagOk s.lifetime (gget (stepCell rng (s, k) (r, c)).1.grid r c) ∧
    (∀ i j, (i, j) ≠ (r, c) →
      gget (stepCell rng (s, k) (r, c)).1.grid i j = gget s.grid i j ∨
        FlagOk s.lifetime (gget (stepCell rng (s, k) (r, c)).1.grid i j)) := by
  have hr0 := wf_rect hwf
  have hb0 := wf_bytesLt hwf
  rcases stepCell_cases rng s k r c hwf hrh hcw with
    ⟨heq, hskip⟩ | ⟨⟨k2, heq⟩, hlife, _⟩ | ⟨⟨k2, heq⟩, hflam, _⟩ |
    ⟨t, k2, heq, htw, hth, htl, _, hmid⟩
  · rw [heq]
    refine ⟨hwf, rfl, rfl, rfl, ?_, fun i j _ => Or.inl rfl⟩
    rcases hskip with hskip | hskip
    · exact Or.inl (empty_type hskip)
    · right
      unfold isTileUpdated at hskip
      simpa using hskip
  · rw [heq]
    refine ⟨⟨by simpa [gset] using hwf.1, (rect_gset hr0 r c AIR).2,
      bytesLt_gset hb0 (by norm_num [AIR]) r c⟩, rfl, rfl, rfl, ?_, ?_⟩
    · left
      rw [gget_gset_self hr0 hrh hcw]
      rfl
    · intro i j hne
      left
      exact gget_gset_ne (ne_pair_or hne) _
  · rw [heq]
    refine ⟨⟨by simpa [gset] using hwf.1, (rect_gset hr0 r c _).2,
      bytesLt_gset hb0 (setTileUpdated_lt_256 _ _) r c⟩, rfl, rfl, rfl, ?_, ?_⟩
    · right
      rw [gget_gset_self hr0 hrh hcw]
      exact getUpdatedFlag_setTileUpdated _ _
    · intro i j hne
      left
      exact gget_gset_ne (ne_pair_or hne) _
  · rw [heq]
    obtain ⟨hrt, hbt⟩ := pipelineMid_shape hwf hmid
    have hwfm : WfSandbox (markCell t r c) := by
      refine ⟨?_, ?_, ?_⟩
      · show (gset t.grid r c _).length = t.height
        rw [hth]
        exact (rect_gset hrt r c _).1
      · show ∀ row ∈ gset t.grid r c _, row.length = t.width
        rw [htw]
        exact (rect_gset hrt r c _).2
      · exact bytesLt_gset hbt (setTileUpdated_lt_256 _ _) r c
    have hrm : Rect (markCell s r c).grid s.height s.width :=
      rect_gset hr0 _ _ _
    have hmarkb : gget (markCell s r c).grid r c =
        setTileUpdated (gget s.grid r c) s.lifetime :=
      gget_gset_self hr0 hrh hcw _
    have hmarkne : ∀ i2 j2, (i2, j2) ≠ (r, c) →
        gget (markCell s r c).grid i2 j2 = gget s.grid i2 j2 := by
      intro i2 j2 hx2
      exact gget_gset_ne (ne_pair_or hx2) _
    refine ⟨hwfm, htw, hth, htl, ?_, ?_⟩
    · right
      show getUpdatedFlag (gget (gset t.grid r c
        (setTileUpdated (gget t.grid r c) t.lifetime)) r c) =
        getTimeParity s.lifetime
      rw [gget_gset_self hrt (by omega) (by omega),
        getUpdatedFlag_setTileUpdated, htl]
    · intro i j hne
      have hstep1 : gget (markCell t r c).grid i j = gget t.grid i j :=
        gget_gset_ne (ne_pair_or hne) _
      rw [hstep1]
      rcases hmid with hm | ⟨p, hp1, hp2, hpne, hm⟩ |
        ⟨tc1, tc2, hwat, hr1, htc1, htc2, htc2c, hempty1, hempty2, hm⟩ |
        ⟨hfire, hm⟩ | ⟨hfire, p, hp1, hp2, hpne, hm⟩
      · rw [hm, hmarkne i j hne]
        exact Or.inl rfl
      · obtain ⟨p1, p2⟩ := p
        rw [hm]
        by_cases hij : (i, j) = (p1, p2)
        · right
          rw [Prod.mk.injEq] at hij
          rw [hij.1, hij.2]
          rw [swap_gget_snd hrm hp1 hp2, hmarkb]
          right
          exact getUpdatedFlag_setTileUpdated _ _
        · left
          rw [swap_gget_other hne hij, hmarkne i j hne]
      · rw [hm]
        by_cases hij2 : (i, j) = (r, tc2)
        · right
          rw [Prod.mk.injEq] at hij2
          rw [hij2.1, hij2.2]
          have hrsw : Rect (swapTiles (r : Int) (c : Int)
              ((r + 1 : Nat) : Int) (tc1 : Int) (markCell s r c).grid)
              s.height s.width := rect_swap hrm _ _ _ _
          rw [swap_gget_snd hrsw hrh htc2]
          rw [swap_gget_fst hrm hrh hcw hr1 htc1]
          rw [if_neg (by omega)]
          rw [hmarkne (r + 1) tc1 (by
            intro hx
            rw [Prod.mk.injEq] at hx
            omega)]
          left
          exact empty_type hempty1
        · by_cases hij1 : (i, j) = (r + 1, tc1)
          · right
            rw [Prod.mk.injEq] at hij1
            rw [hij1.1, hij1.2]
            rw [swap_gget_other (by
                intro hx
                rw [Prod.mk.injEq] at hx
                omega) (by
                intro hx
                rw [Prod.mk.injEq] at hx
                omega)]
            rw [swap_gget_snd hrm hr1 htc1, hmarkb]
            right
            exact getUpdatedFlag_setTileUpdated _ _
          · left
            rw [swap_gget_other hne hij2, swap_gget_other hne hij1]
            exact hmarkne i j hne
      · rw [hm]
        left
        rw [gget_gset_ne (ne_pair_or hne) _]
        exact hmarkne i j hne
      · obtain ⟨p1, p2⟩ := p
        rw [hm]
        by_cases hij : (i, j) = (p1, p2)
        · right
          rw [Prod.mk.injEq] at hij
          rw [hij.1, hij.2]
          rw [swap_gget_snd (rect_gset hrm _ _ _) hp1 hp2]
          rw [gget_gset_self hrm hrh hcw]
          right
          exact getUpdatedFlag_setTileUpdated _ _
        · left
          rw [swap_gget_other hne hij]
          rw [gget_gset_ne (ne_pair_or hne) _]
          exact hmarkne i j hne

/-- Every in-bounds cell appears in the scan order. -/
theorem mem_cellOrder {h w r c : Nat} (hr : r < h) (hc : c < w) :
    (r, c) ∈ cellOrder h w := by
  unfold cellOrder
  rw [List.mem_flatMap]
  exact ⟨r, List.mem_range.mpr hr, List.mem_map.mpr
    ⟨c, List.mem_range.mpr hc, rfl⟩⟩

/-- Folding the scheduler step over any list of in-bounds cells preserves
well-formedness and establishes the flag/parity invariant on all processed
cells while never disturbing it on previously processed ones. -/
theorem foldl_flagOk (rng : Rng) (H W L : Nat) :
    ∀ (cells : List (Nat × Nat)) (done : List (Nat × Nat)) (sk : Sandbox × Nat),
      WfSandbox sk.1 → sk.1.height = H → sk.1.width = W → sk.1.lifetime = L →
      (∀ p ∈ cells, p.1 < H ∧ p.2 < W) →
      (∀ p ∈ done, FlagOk L (gget sk.1.grid p.1 p.2)) →
      WfSandbox (cells.foldl (stepCell rng) sk).1 ∧
      (cells.foldl (stepCell rng) sk).1.height = H ∧
      (cells.foldl (stepCell rng) sk).1.width = W ∧
      (cells.foldl (stepCell rng) sk).1.lifetime = L ∧
      (∀ p, (p ∈ done ∨ p ∈ cells) →
        FlagOk L (gget (cells.foldl (stepCell rng) sk).1.grid p.1 p.2)) := by
  intro cells
  induction cells with
  | nil =>
    intro done sk hwf hH hW hL hbnd hdone
    refine ⟨hwf, hH, hW, hL, ?_⟩
    intro p hp
    rcases hp with hp | hp
    · exact hdone p hp
    · simp at hp
  | cons hd tl ih =>
    intro done sk hwf hH hW hL hbnd hdone
    obtain ⟨r, c⟩ := hd
    obtain ⟨sP, kP⟩ := sk
    have hrh : r < sP.height := by
      rw [hH]
      exact (hbnd (r, c) (List.mem_cons_self _ _)).1
    have hcw : c < sP.width := by
      rw [hW]
      exact (hbnd (r, c) (List.mem_cons_self _ _)).2
    obtain ⟨hwf2, hW2, hH2, hL2, hself, hother⟩ :=
      stepCell_flagOk rng sP kP r c hwf hrh hcw
    have hstep := ih ((r, c) :: done) (stepCell rng (sP, kP) (r, c))
      hwf2 (by rw [hH2]; exact hH) (by rw [hW2]; exact hW)
      (by rw [hL2]; exact hL)
      (fun p hp => hbnd p (List.mem_cons_of_mem _ hp))
      (by
        intro p hp
        have hLs : sP.lifetime = L := hL
        rcases List.mem_cons.mp hp with hp | hp
        · rw [hp]
          rw [hLs] at hself
          exact hself
        · by_cases hpe : p = (r, c)
          · rw [hpe]
            rw [hLs] at hself
            exact hself
          · obtain ⟨p1, p2⟩ := p
            rcases hother p1 p2 hpe with hsame | hok
            · rw [hsame]
              exact hdone _ hp
            · rw [hLs] at hok
              exact hok)
    rw [List.foldl_cons]
    refine ⟨hstep.1, hstep.2.1, hstep.2.2.1, hstep.2.2.2.1, ?_⟩
    intro p hp
    apply hstep.2.2.2.2
    rcases hp with hp | hp
    · exact Or.inl (List.mem_cons_of_mem _ hp)
    · rcases List.mem_cons.mp hp with hp | hp
      · rw [hp]
        exact Or.inl (List.mem_cons_self _ _)
      · exact Or.inr hp

theorem getTileType_idem (t : Nat) :
    getTileType (getTileType t) = getTileType t := by
  unfold getTileType
  omega

theorem getTileLifespan_type (t : Nat) :
    getTileLifespan (getTileType t) = getTileLifespan t := by
  unfold getTileLifespan
  rw [getTileType_idem]

theorem tileFlammability_type (t : Nat) :
    tileFlammability (getTileType t) = tileFlammability t := by
  unfold tileFlammability
  rw [getTileType_idem]

theorem typeMS_gset_sameType {g : List (List Nat)} {h w : Nat}
    (hr : Rect g h w) {r c : Nat} (hrh : r < h) (hcw : c < w) {v : Nat}
    (hv : getTileType v = getTileType (gget g r c)) :
    typeMS (gset g r c v) = typeMS g := by
  have := typeMS_gset hr hrh hcw v
  rw [hv] at this
  exact add_right_cancel this

theorem getTileType_createTile (s : Sandbox) (ty : Nat) :
    getTileType (createTile s ty) = getTileType ty := by
  unfold createTile
  exact getTileType_setTileUpdated _ _

/-- One scheduler step either preserves the multiset of tile types exactly,
or performs exactly one of the explicit conversions. -/
theorem stepCell_typeMS (rng : Rng) (s : Sandbox) (k r c : Nat)
    (hwf : WfSandbox s) (hrh : r < s.height) (hcw : c < s.width) :
    typeMS (stepCell rng (s, k) (r, c)).1.grid = typeMS s.grid ∨
    ∃ a b, ConvOk a b ∧
      typeMS (stepCell rng (s, k) (r, c)).1.grid + {a} =
        typeMS s.grid + {b} := by
  have hr0 := wf_rect hwf
  rcases stepCell_cases rng s k r c hwf hrh hcw with
    ⟨heq, hskip⟩ | ⟨⟨k2, heq⟩, hlife, _⟩ | ⟨⟨k2, heq⟩, hflam, _⟩ |
    ⟨t, k2, heq, htw, hth, htl, _, hmid⟩
  · rw [heq]
    exact Or.inl rfl
  · rw [heq]
    right
    refine ⟨getTileType (gget s.grid r c), AIR,
      Or.inl ⟨by rwa [getTileLifespan_type], rfl⟩, ?_⟩
    have := typeMS_gset hr0 hrh hcw AIR
    show typeMS (gset s.grid r c AIR) + {getTileType (gget s.grid r c)} =
      typeMS s.grid + {AIR}
    rw [this]
    rfl
  · rw [heq]
    right
    refine ⟨getTileType (gget s.grid r c), FIRE,
      Or.inr (Or.inl ⟨by rwa [tileFlammability_type], rfl⟩), ?_⟩
    have := typeMS_gset hr0 hrh hcw (createTile s FIRE)
    show typeMS (gset s.grid r c (createTile s FIRE)) +
      {getTileType (gget s.grid r c)} = typeMS s.grid + {FIRE}
    rw [this, getTileType_createTile]
    rfl
  · rw [heq]
    obtain ⟨hrt, hbt⟩ := pipelineMid_shape hwf hmid
    have hmarkT : typeMS (markCell s r c).grid = typeMS s.grid := by
      apply typeMS_gset_sameType hr0 hrh hcw
      exact getTileType_setTileUpdated _ _
    have hrm : Rect (markCell s r c).grid s.height s.width :=
      rect_gset hr0 _ _ _
    have houter : typeMS (markCell t r c).grid = typeMS t.grid := by
      apply typeMS_gset_sameType hrt (by omega) (by omega)
      exact getTileType_setTileUpdated _ _
    rw [houter]
    rcases hmid with hm | ⟨p, hp1, hp2, hpne, hm⟩ |
      ⟨tc1, tc2, hwat, hr1, htc1, htc2, htc2c, hempty1, hempty2, hm⟩ |
      ⟨hfire, hm⟩ | ⟨hfire, p, hp1, hp2, hpne, hm⟩
    · rw [hm, hmarkT]
      exact Or.inl rfl
    · obtain ⟨p1, p2⟩ := p
      rw [hm, typeMS_swap hrm hrh hcw hp1 hp2, hmarkT]
      exact Or.inl rfl
    · rw [hm]
      rw [typeMS_swap (rect_swap hrm _ _ _ _) hrh hcw hrh htc2]
      rw [typeMS_swap hrm hrh hcw hr1 htc1, hmarkT]
      exact Or.inl rfl
    · right
      refine ⟨FIRE, STEAM, Or.inr (Or.inr ⟨rfl, rfl⟩), ?_⟩
      rw [hm]
      have := typeMS_gset hrm hrh hcw (createTile s STEAM)
      have hmb : gget (markCell s r c).grid r c =
          setTileUpdated (gget s.grid r c) s.lifetime :=
        gget_gset_self hr0 hrh hcw _
      rw [hmb, getTileType_setTileUpdated, hfire] at this
      rw [getTileType_createTile] at this
      rw [this, hmarkT]
      rfl
    · right
      refine ⟨FIRE, STEAM, Or.inr (Or.inr ⟨rfl, rfl⟩), ?_⟩
      obtain ⟨p1, p2⟩ := p
      rw [hm]
      rw [typeMS_swap (rect_gset hrm _ _ _) hrh hcw hp1 hp2]
      have := typeMS_gset hrm hrh hcw (createTile s STEAM)
      have hmb : gget (markCell s r c).grid r c =
          setTileUpdated (gget s.grid r c) s.lifetime :=
        gget_gset_self hr0 hrh hcw _
      rw [hmb, getTileType_setTileUpdated, hfire] at this
      rw [getTileType_createTile] at this
      rw [this, hmarkT]
      rfl

/-- Folding the scheduler step over in-bounds cells changes the multiset of
tile types only by a list of explicit conversions. -/
theorem foldl_typeMS (rng : Rng) (H W : Nat) :
    ∀ (cells : List (Nat × Nat)) (sk : Sandbox × Nat),
      WfSandbox sk.1 → sk.1.height = H → sk.1.width = W →
      (∀ p ∈ cells, p.1 < H ∧ p.2 < W) →
      ∃ d : List (Nat × Nat), (∀ ab ∈ d, ConvOk ab.1 ab.2) ∧
        typeMS (cells.foldl (stepCell rng) sk).1.grid +
          ((d.map Prod.fst : List Nat) : Multiset Nat) =
        typeMS sk.1.grid + ((d.map Prod.snd : List Nat) : Multiset Nat) := by
  intro cells
  induction cells with
  | nil =>
    intro sk hwf hH hW hbnd
    exact ⟨[], by simp, by simp⟩
  | cons hd tl ih =>
    intro sk hwf hH hW hbnd
    obtain ⟨r, c⟩ := hd
    obtain ⟨sP, kP⟩ := sk
    have hrh : r < sP.height := by
      rw [hH]
      exact (hbnd (r, c) (List.mem_cons_self _ _)).1
    have hcw : c < sP.width := by
      rw [hW]
      exact (hbnd (r, c) (List.mem_cons_self _ _)).2
    obtain ⟨hwf2, hW2, hH2, hL2, _, _⟩ := stepCell_flagOk rng sP kP r c hwf hrh hcw
    obtain ⟨d, hdok, hdeq⟩ := ih (stepCell rng (sP, kP) (r, c)) hwf2
      (by rw [hH2]; exact hH) (by rw [hW2]; exact hW)
      (fun p hp => hbnd p (List.mem_cons_of_mem _ hp))
    rw [List.foldl_cons]
    rcases stepCell_typeMS rng sP kP r c hwf hrh hcw with hstep | ⟨a, b, hab, hstep⟩
    · refine ⟨d, hdok, ?_⟩
      rw [hdeq, hstep]
    · refine ⟨d ++ [(a, b)], ?_, ?_⟩
      · intro ab hab2
        rcases List.mem_append.mp hab2 with h2 | h2
        · exact hdok ab h2
        · rw [List.mem_singleton.mp h2]
          exact hab
      · have e1 : ((List.map Prod.fst (d ++ [(a, b)]) : List Nat) : Multiset Nat) =
            ((d.map Prod.fst : List Nat) : Multiset Nat) + {a} := by
          rw [List.map_append, ← Multiset.coe_add]
          rfl
        have e2 : ((List.map Prod.snd (d ++ [(a, b)]) : List Nat) : Multiset Nat) =
            ((d.map Prod.snd : List Nat) : Multiset Nat) + {b} := by
          rw [List.map_append, ← Multiset.coe_add]
          rfl
        rw [e1, e2, ← add_assoc, hdeq, add_right_comm, hstep]
        have : typeMS sP.grid + {b} +
            ((d.map Prod.snd : List Nat) : Multiset Nat) =
            typeMS sP.grid + ((d.map Prod.snd : List Nat) : Multiset Nat) + {b} := by
          rw [add_right_comm]
        rw [this]
        rw [add_assoc]

/-- A fold over cells that are all skippable in the current state (empty or
already updated) leaves the state untouched. -/
theorem foldl_skip (rng : Rng) (sk : Sandbox × Nat) :
    ∀ (cells : List (Nat × Nat)),
      (∀ p ∈ cells, tileIsEmpty (gget sk.1.grid p.1 p.2) = true ∨
        isTileUpdated (gget sk.1.grid p.1 p.2) sk.1.lifetime = true) →
      cells.foldl (stepCell rng) sk = sk := by
  intro cells
  induction cells with
  | nil => intro _; rfl
  | cons hd tl ih =>
    intro hskip
    obtain ⟨r, c⟩ := hd
    obtain ⟨sP, kP⟩ := sk
    have hstep : stepCell rng (sP, kP) (r, c) = (sP, kP) := by
      rcases hskip (r, c) (List.mem_cons_self _ _) with h | h
      · exact stepCell_skip_empty rng sP kP r c h
      · exact stepCell_skip_updated rng sP kP r c h
    rw [List.foldl_cons, hstep]
    exact ih (fun p hp => hskip p (List.mem_cons_of_mem _ hp))

/-- The scan order has no duplicate cells. -/
theorem cellOrder_nodup (h w : Nat) : (cellOrder h w).Nodup := by
  unfold cellOrder
  rw [List.nodup_flatMap]
  constructor
  · intro r hr
    apply List.Nodup.map
    · intro a b hab
      simpa using congrArg Prod.snd hab
    · exact List.nodup_range w
  · refine (List.pairwise_lt_range h).imp ?_
    intro r1 r2 hlt p hp1 hp2
    rw [List.mem_map] at hp1 hp2
    obtain ⟨c1, _, he1⟩ := hp1
    obtain ⟨c2, _, he2⟩ := hp2
    rw [← he1] at he2
    have := congrArg Prod.fst he2
    simp at this
    omega

theorem cellOrder_bounds {h w : Nat} :
    ∀ p ∈ cellOrder h w, p.1 < h ∧ p.2 < w := by
  intro p hp
  unfold cellOrder at hp
  rw [List.mem_flatMap] at hp
  obtain ⟨r, hr, hp⟩ := hp
  rw [List.mem_map] at hp
  obtain ⟨c, hc, hp⟩ := hp
  rw [← hp]
  exact ⟨List.mem_range.mp hr, List.mem_range.mp hc⟩

/-- When the cell directly below is in bounds and empty, gravity moves the
tile straight down, consuming no randomness. -/
theorem doGravity_fall (rng : Rng) (k : Nat) (s : Sandbox) {r c : Nat}
    (hr1 : r + 1 < s.height)
    (hempty : tileIsEmpty (gget s.grid (r + 1) c) = true) :
    doGravity rng k s (r : Int) (c : Int) =
      ({ s with grid :=
        swapTiles (r : Int) (c : Int) ((r + 1 : Nat) : Int) (c : Int) s.grid }, k) := by
  simp only [doGravity]
  have hne : ((r : Int) + 1 == (s.height : Int)) = false := by
    simp only [beq_eq_false_iff_ne, ne_eq]
    omega
  rw [hne]
  simp only [Bool.false_eq_true, if_false]
  have hemp2 : tileIsEmpty (ggetI s.grid ((r : Int) + 1) (c : Int)) = true := by
    rwa [intCast_add_one, ggetI_natCast]
  rw [hemp2]
  simp only [Bool.true_or, if_true]
  rw [intCast_add_one]

theorem sand_not_empty {b : Nat} (h : getTileType b = SAND) :
    tileIsEmpty b = false := by
  unfold tileIsEmpty
  rw [h]
  rfl

theorem sand_lifespan {b : Nat} (h : getTileType b = SAND) :
    getTileLifespan b = Lifespan.PERMANENT := by
  unfold getTileLifespan
  rw [h]
  rfl

theorem sand_flammability {b : Nat} (h : getTileType b = SAND) :
    tileFlammability b = 0 := by
  unfold tileFlammability
  rw [h]
  rfl

theorem sand_classify {b : Nat} (h : getTileType b = SAND) :
    tileHasGravity b = true ∧ tileIsLiquid b = false ∧ tileIsGas b = false ∧
      (getTileType b == FIRE) = false := by
  refine ⟨?_, ?_, ?_, ?_⟩ <;> first
    | (unfold tileHasGravity; rw [h]; rfl)
    | (unfold tileIsLiquid; rw [h]; rfl)
    | (unfold tileIsGas; rw [h]; rfl)
    | (rw [h]; rfl)

/-- One scheduler visit to a lone, not-yet-updated sand grain with an empty
cell below it: the grain falls exactly one row, both affected cells come out
marked for the current parity, and no randomness is consumed. -/
theorem stepCell_sand_fall (rng : Rng) (s : Sandbox) (k r c : Nat)
    (hwf : WfSandbox s) (hr1 : r + 1 < s.height)
    (hsand : getTileType (gget s.grid r c) = SAND)
    (hupd : isTileUpdated (gget s.grid r c) s.lifetime = false)
    (hbelow : getTileType (gget s.grid (r + 1) c) = AIR) :
    stepCell rng (s, k) (r, c) =
      (markCell
        { markCell s r c with grid := swapTiles (r : Int) (c : Int) ((r + 1 : Nat) : Int) (c : Int) (markCell s r c).grid }
        r c, k) := by
  have hr0 := wf_rect hwf
  have hemp := sand_not_empty hsand
  have hsurv : rollShouldTileSurvive rng k (gget s.grid r c) = (true, k) := by
    unfold rollShouldTileSurvive
    rw [if_pos (sand_lifespan hsand)]
  have hburn : rollShouldTileBurn rng k s (r : Int) (c : Int) = (false, k) := by
    unfold rollShouldTileBurn
    rw [ggetI_natCast]
    rw [if_pos (sand_flammability hsand)]
  have heq := stepCell_main_eq rng s k r c hemp hupd
    (by rw [hsurv]) (by rw [hsurv, hburn])
  obtain ⟨hgrav, hliq, hgas, hfire⟩ := sand_classify hsand
  simp only [hsurv, hburn, hgrav, hliq, hgas, hfire, Bool.false_eq_true,
    if_false, if_true] at heq
  have hbelowM : tileIsEmpty (gget (markCell s r c).grid (r + 1) c) = true := by
    have : gget (markCell s r c).grid (r + 1) c = gget s.grid (r + 1) c :=
      gget_gset_ne (Or.inl (by omega)) _
    rw [this]
    unfold tileIsEmpty
    rw [hbelow]
    rfl
  have hfall := doGravity_fall rng k (markCell s r c)
    (by show r + 1 < s.height; exact hr1) hbelowM
  rw [hfall] at heq
  exact heq

/-- A pass over a sandbox holding a single not-yet-updated sand grain above
an empty column cell: the grain ends exactly one row lower and every other
cell is empty.  All the other cells being air, no randomness is consumed and
the re-marked grain is skipped when the scan reaches its landing row. -/
theorem singleSand_pass (rng : Rng) (s : Sandbox) (k r c : Nat)
    (hwf : WfSandbox s) (hr1 : r + 1 < s.height) (hcw : c < s.width)
    (hsand : getTileType (gget s.grid r c) = SAND)
    (hupd : isTileUpdated (gget s.grid r c) s.lifetime = false)
    (hair : ∀ i j, i < s.height → j < s.width → (i, j) ≠ (r, c) →
      getTileType (gget s.grid i j) = AIR) :
    getTileType (gget (processSandbox rng s k).1.grid (r + 1) c) = SAND ∧
    (∀ i j, i < s.height → j < s.width → (i, j) ≠ (r + 1, c) →
      getTileType (gget (processSandbox rng s k).1.grid i j) = AIR) := by
  have hr0 := wf_rect hwf
  have hrm : Rect (markCell s r c).grid s.height s.width := rect_gset hr0 _ _ _
  have hbelow : getTileType (gget s.grid (r + 1) c) = AIR :=
    hair (r + 1) c hr1 hcw (by
      intro hx
      rw [Prod.mk.injEq] at hx
      omega)
  have hstep := stepCell_sand_fall rng s k r c hwf hr1 hsand hupd hbelow
  -- the state after the grain's own visit
  set sw : List (List Nat) := swapTiles (r : Int) (c : Int)
    ((r + 1 : Nat) : Int) (c : Int) (markCell s r c).grid with hsw
  have hrsw : Rect sw s.height s.width := rect_swap hrm _ _ _ _
  have hmarkb : gget (markCell s r c).grid r c =
      setTileUpdated (gget s.grid r c) s.lifetime :=
    gget_gset_self hr0 (by omega) hcw _
  have hmarkne : ∀ i2 j2, (i2, j2) ≠ (r, c) →
      gget (markCell s r c).grid i2 j2 = gget s.grid i2 j2 := by
    intro i2 j2 hx2
    exact gget_gset_ne (ne_pair_or hx2) _
  have hsw_land : gget sw (r + 1) c =
      setTileUpdated (gget s.grid r c) s.lifetime := by
    rw [hsw, swap_gget_snd hrm hr1 hcw, hmarkb]
  have hsw_src : gget sw r c = gget s.grid (r + 1) c := by
    rw [hsw, swap_gget_fst hrm (by omega) hcw hr1 hcw, if_neg (by omega),
      hmarkne (r + 1) c (by
        intro hx
        rw [Prod.mk.injEq] at hx
        omega)]
  have hsw_other : ∀ i j, (i, j) ≠ (r, c) → (i, j) ≠ (r + 1, c) →
      gget sw i j = gget s.grid i j := by
    intro i j h1 h2
    rw [hsw, swap_gget_other h1 h2]
    exact hmarkne i j h1
  set sP : Sandbox := markCell { markCell s r c with grid := sw } r c with hsP
  have hsP_land : gget sP.grid (r + 1) c =
      setTileUpdated (gget s.grid r c) s.lifetime := by
    show gget (gset sw r c (setTileUpdated (gget sw r c) s.lifetime))
      (r + 1) c = _
    rw [gget_gset_ne (Or.inl (by omega)) _, hsw_land]
  have hsP_src : getTileType (gget sP.grid r c) = AIR := by
    show getTileType (gget (gset sw r c
      (setTileUpdated (gget sw r c) s.lifetime)) r c) = AIR
    rw [gget_gset_self hrsw (by omega) hcw, getTileType_setTileUpdated,
      hsw_src, hbelow]
  have hsP_other : ∀ i j, (i, j) ≠ (r, c) → (i, j) ≠ (r + 1, c) →
      gget sP.grid i j = gget s.grid i j := by
    intro i j h1 h2
    show gget (gset sw r c (setTileUpdated (gget sw r c) s.lifetime)) i j = _
    rw [gget_gset_ne (ne_pair_or h1) _]
    exact hsw_other i j h1 h2
  -- decompose the scan around the grain's cell
  have hmem : (r, c) ∈ cellOrder s.height s.width :=
    mem_cellOrder (by omega) hcw
  obtain ⟨pre, suf, hsplit⟩ := List.append_of_mem hmem
  have hnodup := cellOrder_nodup s.height s.width
  rw [hsplit] at hnodup
  have hpre_n : (r, c) ∉ pre := by
    rw [List.nodup_append] at hnodup
    exact fun hx => hnodup.2.2 hx (List.mem_cons_self _ _)
  have hsuf_n : (r, c) ∉ suf := by
    rw [List.nodup_append] at hnodup
    exact (List.nodup_cons.mp hnodup.2.1).1
  have hfold : (processSandbox rng s k).1.grid =
      ((cellOrder s.height s.width).foldl (stepCell rng) (s, k)).1.grid := rfl
  have hpre_skip : pre.foldl (stepCell rng) (s, k) = (s, k) := by
    apply foldl_skip
    intro p hp
    left
    have hpb := cellOrder_bounds p (by
      rw [hsplit]
      exact List.mem_append.mpr (Or.inl hp))
    have : getTileType (gget s.grid p.1 p.2) = AIR := by
      apply hair p.1 p.2 hpb.1 hpb.2
      intro hx
      apply hpre_n
      rw [← hx]
      exact hp
    unfold tileIsEmpty
    rw [this]
    rfl
  have hsuf_skip : suf.foldl (stepCell rng) (sP, k) = (sP, k) := by
    apply foldl_skip
    intro p hp
    have hpb := cellOrder_bounds p (by
      rw [hsplit]
      exact List.mem_append.mpr (Or.inr (List.mem_cons_of_mem _ hp)))
    by_cases hpl : p = (r + 1, c)
    · right
      have hsPL : sP.lifetime = s.lifetime := rfl
      rw [hpl]
      show isTileUpdated (gget sP.grid (r + 1) c) sP.lifetime = true
      rw [hsP_land, hsPL]
      exact isTileUpdated_setTileUpdated _ _
    · left
      have hpc : p ≠ (r, c) := by
        intro hx
        exact hsuf_n (hx ▸ hp)
      obtain ⟨p1, p2⟩ := p
      have : gget sP.grid p1 p2 = gget s.grid p1 p2 :=
        hsP_other p1 p2 hpc hpl
      show tileIsEmpty (gget sP.grid p1 p2) = true
      rw [this]
      unfold tileIsEmpty
      rw [hair p1 p2 hpb.1 hpb.2 hpc]
      rfl
  have hfinal : (processSandbox rng s k).1.grid = sP.grid := by
    rw [hfold, hsplit, List.foldl_append, hpre_skip, List.foldl_cons, hstep,
      hsuf_skip]
  constructor
  · rw [hfinal, hsP_land, getTileType_setTileUpdated, hsand]
  · intro i j hih hjw hne
    rw [hfinal]
    by_cases hij : (i, j) = (r, c)
    · rw [Prod.mk.injEq] at hij
      rw [hij.1, hij.2]
      exact hsP_src
    · rw [hsP_other i j hij hne]
      exact hair i j hih hjw hij

/-! ## The checked variants agree with the total embedding: every access the
algorithms perform is in bounds, so the out-of-bounds (`none`) branch of the
Option-indexed embedding is unreachable. -/

theorem tileAt?_some {s : Sandbox} {row col : Int} (h1 : 0 ≤ row)
    (h2 : row < (s.height : Int)) (h3 : 0 ≤ col)
    (h4 : col < (s.width : Int)) :
    tileAt? s row col = some (ggetI s.grid row col) := by
  unfold tileAt?
  rw [if_pos ⟨h1, h2, h3, h4⟩]

theorem setAt?_some {s : Sandbox} {row col : Int} (h1 : 0 ≤ row)
    (h2 : row < (s.height : Int)) (h3 : 0 ≤ col)
    (h4 : col < (s.width : Int)) (v : Nat) :
    setAt? s row col v = some { s with grid := gsetI s.grid row col v } := by
  unfold setAt?
  rw [if_pos ⟨h1, h2, h3, h4⟩]

theorem swapAt?_some {s : Sandbox} {r1 c1 r2 c2 : Int} (h1 : 0 ≤ r1)
    (h2 : r1 < (s.height : Int)) (h3 : 0 ≤ c1) (h4 : c1 < (s.width : Int))
    (h5 : 0 ≤ r2) (h6 : r2 < (s.height : Int)) (h7 : 0 ≤ c2)
    (h8 : c2 < (s.width : Int)) :
    swapAt? s r1 c1 r2 c2 =
      some { s with grid := swapTiles r1 c1 r2 c2 s.grid } := by
  unfold swapAt?
  rw [tileAt?_some h1 h2 h3 h4, tileAt?_some h5 h6 h7 h8]
  simp only [Option.bind_eq_bind, Option.some_bind]
  rw [setAt?_some h1 h2 h3 h4]
  simp only [Option.some_bind]
  rw [setAt?_some (s := { s with grid := gsetI s.grid r1 c1 (ggetI s.grid r2 c2) }) h5 h6 h7 h8]
  rfl

theorem canSinkChk_eq {s : Sandbox} {row col tr tc : Int}
    (hr : 0 ≤ row ∧ row < (s.height : Int)) (hc : 0 ≤ col ∧ col < (s.width : Int))
    (htr : 0 ≤ tr ∧ tr ≤ (s.height : Int)) (htc : -1 ≤ tc ∧ tc ≤ (s.width : Int)) :
    canSinkChk s row col tr tc = some (canSink s row col tr tc) := by
  unfold canSinkChk canSink
  by_cases hg : (tr == (s.height : Int) || tc == -1 || tc == (s.width : Int)) = true
  · rw [if_pos hg, if_pos hg]
    rfl
  · rw [if_neg hg, if_neg hg]
    simp only [Bool.or_eq_true, beq_iff_eq] at hg
    push_neg at hg
    rw [tileAt?_some hr.1 hr.2 hc.1 hc.2,
      tileAt?_some htr.1 (by omega) (by omega) (by omega)]
    simp only [Option.bind_eq_bind, Option.some_bind]
    rfl

theorem canLiftChk_eq {s : Sandbox} {row col tr tc : Int}
    (hr : 0 ≤ row ∧ row < (s.height : Int)) (hc : 0 ≤ col ∧ col < (s.width : Int))
    (htr : -1 ≤ tr ∧ tr < (s.height : Int)) (htc : -1 ≤ tc ∧ tc ≤ (s.width : Int)) :
    canLiftChk s row col tr tc = some (canLift s row col tr tc) := by
  unfold canLiftChk canLift
  by_cases hg : (tr == -1 || tc == -1 || tc == (s.width : Int)) = true
  · rw [if_pos hg, if_pos hg]
    rfl
  · rw [if_neg hg, if_neg hg]
    simp only [Bool.or_eq_true, beq_iff_eq] at hg
    push_neg at hg
    rw [tileAt?_some hr.1 hr.2 hc.1 hc.2,
      tileAt?_some (by omega) htr.2 (by omega) (by omega)]
    simp only [Option.bind_eq_bind, Option.some_bind]
    split <;> rfl

theorem rollShouldTileBurnChk_eq (rng : Rng) (k : Nat) {s : Sandbox}
    {row col : Int} (hr : 0 ≤ row ∧ row < (s.height : Int))
    (hc : 0 ≤ col ∧ col < (s.width : Int)) :
    rollShouldTileBurnChk rng k s row col =
      some (rollShouldTileBurn rng k s row col) := by
  unfold rollShouldTileBurnChk rollShouldTileBurn
  rw [tileAt?_some hr.1 hr.2 hc.1 hc.2]
  simp only [Option.bind_eq_bind, Option.some_bind]
  by_cases hz : tileFlammability (ggetI s.grid row col) = 0
  · rw [if_pos hz, if_pos hz]
    rfl
  · rw [if_neg hz, if_neg hz]
    have hfold : ∀ (l : List (Int × Int)), (∀ p ∈ l,
        (¬(p.1 < 0 || p.1 == (s.height : Int) || p.2 < 0 ||
          p.2 == (s.width : Int)) = true) →
          0 ≤ p.1 ∧ p.1 < (s.height : Int) ∧ 0 ≤ p.2 ∧ p.2 < (s.width : Int)) →
        ∀ (acc : Bool),
        l.foldlM (fun (found : Bool) rc =>
          if found = true then pure true
          else if rc.1 < 0 || rc.1 == (s.height : Int) || rc.2 < 0 ||
              rc.2 == (s.width : Int) then pure false
          else do
            let t ← tileAt? s rc.1 rc.2
            pure (tileIsIncendiary t)) acc =
        some (l.foldl (fun (found : Bool) rc =>
          if found = true then true
          else if rc.1 < 0 || rc.1 == (s.height : Int) || rc.2 < 0 ||
              rc.2 == (s.width : Int) then false
          else tileIsIncendiary (ggetI s.grid rc.1 rc.2)) acc) := by
      intro l
      induction l with
      | nil => intro _ acc; rfl
      | cons hd tl ih =>
        intro hb acc
        rw [List.foldlM_cons, List.foldl_cons]
        by_cases hacc : acc = true
        · rw [hacc]
          simp only [if_true, pure]
          exact ih (fun p hp => hb p (List.mem_cons_of_mem _ hp)) true
        · rw [Bool.not_eq_true] at hacc
          rw [hacc]
          simp only [Bool.false_eq_true, if_false]
          by_cases hoob : (hd.1 < 0 || hd.1 == (s.height : Int) || hd.2 < 0 ||
              hd.2 == (s.width : Int)) = true
          · rw [if_pos hoob, if_pos hoob]
            simp only [pure]
            exact ih (fun p hp => hb p (List.mem_cons_of_mem _ hp)) false
          · rw [if_neg hoob, if_neg hoob]
            have hbd := hb hd (List.mem_cons_self _ _) hoob
            rw [tileAt?_some hbd.1 hbd.2.1 hbd.2.2.1 hbd.2.2.2]
            simp only [Option.bind_eq_bind, Option.some_bind, pure]
            exact ih (fun p hp => hb p (List.mem_cons_of_mem _ hp)) _
    have hany : ∀ (g : (Int × Int) → Bool) (l : List (Int × Int)) (acc : Bool),
        l.foldl (fun (found : Bool) rc =>
          if found = true then true else g rc) acc = (acc || l.any g) := by
      intro g l
      induction l with
      | nil => intro acc; simp
      | cons hd tl ih2 =>
        intro acc
        rw [List.foldl_cons, List.any_cons]
        by_cases hacc : acc = true
        · rw [hacc]
          simp only [if_true, Bool.true_or]
          exact ih2 true
        · rw [Bool.not_eq_true] at hacc
          rw [hacc]
          simp only [Bool.false_eq_true, if_false, Bool.false_or]
          rw [ih2 (g hd)]
    simp only [Option.bind_eq_bind] at hfold
    rw [hfold _ (by
      intro p hp hoob
      simp only [List.mem_cons, List.mem_singleton] at hp
      simp only [Bool.or_eq_true, not_or, decide_eq_true_eq, beq_iff_eq] at hoob
      obtain ⟨hra, hrb⟩ := hr
      obtain ⟨hca, hcb⟩ := hc
      rcases hp with rfl | rfl | rfl | hp <;> try (simp at hoob ⊢; omega)
      rcases hp with rfl | hp
      · simp at hoob ⊢
        omega
      · simp at hp) false]
    simp only [Option.some_bind]
    rw [hany, Bool.false_or]
    split <;> rfl

theorem doExtinguishChk_eq {s : Sandbox} {row col : Int}
    (hr : 0 ≤ row ∧ row < (s.height : Int))
    (hc : 0 ≤ col ∧ col < (s.width : Int)) :
    doExtinguishChk s row col = some (doExtinguish s row col) := by
  unfold doExtinguishChk doExtinguish
  have hfold : ∀ (l : List (Int × Int)), (∀ p ∈ l,
      (¬(p.1 < 0 || p.1 == (s.height : Int) || p.2 < 0 ||
        p.2 == (s.width : Int)) = true) →
        0 ≤ p.1 ∧ p.1 < (s.height : Int) ∧ 0 ≤ p.2 ∧ p.2 < (s.width : Int)) →
      ∀ (acc : Bool),
      l.foldlM (fun (found : Bool) rc =>
        if found = true then pure true
        else if rc.1 < 0 || rc.1 == (s.height : Int) || rc.2 < 0 ||
            rc.2 == (s.width : Int) then pure false
        else do
          let t ← tileAt? s rc.1 rc.2
          pure (getTileType t == WATER)) acc =
      some (l.foldl (fun (found : Bool) rc =>
        if found = true then true
        else if rc.1 < 0 || rc.1 == (s.height : Int) || rc.2 < 0 ||
            rc.2 == (s.width : Int) then false
        else getTileType (ggetI s.grid rc.1 rc.2) == WATER) acc) := by
    intro l
    induction l with
    | nil => intro _ acc; rfl
    | cons hd tl ih =>
      intro hb acc
      rw [List.foldlM_cons, List.foldl_cons]
      by_cases hacc : acc = true
      · rw [hacc]
        simp only [if_true, pure]
        exact ih (fun p hp => hb p (List.mem_cons_of_mem _ hp)) true
      · rw [Bool.not_eq_true] at hacc
        rw [hacc]
        simp only [Bool.false_eq_true, if_false]
        by_cases hoob : (hd.1 < 0 || hd.1 == (s.height : Int) || hd.2 < 0 ||
            hd.2 == (s.width : Int)) = true
        · rw [if_pos hoob, if_pos hoob]
          simp only [pure]
          exact ih (fun p hp => hb p (List.mem_cons_of_mem _ hp)) false
        · rw [if_neg hoob, if_neg hoob]
          have hbd := hb hd (List.mem_cons_self _ _) hoob
          rw [tileAt?_some hbd.1 hbd.2.1 hbd.2.2.1 hbd.2.2.2]
          simp only [Option.bind_eq_bind, Option.some_bind, pure]
          exact ih (fun p hp => hb p (List.mem_cons_of_mem _ hp)) _
  have hany : ∀ (g : (Int × Int) → Bool) (l : List (Int × Int)) (acc : Bool),
      l.foldl (fun (found : Bool) rc =>
        if found = true then true else g rc) acc = (acc || l.any g) := by
    intro g l
    induction l with
    | nil => intro acc; simp
    | cons hd tl ih2 =>
      intro acc
      rw [List.foldl_cons, List.any_cons]
      by_cases hacc : acc = true
      · rw [hacc]
        simp only [if_true, Bool.true_or]
        exact ih2 true
      · rw [Bool.not_eq_true] at hacc
        rw [hacc]
        simp only [Bool.false_eq_true, if_false, Bool.false_or]
        rw [ih2 (g hd)]
  simp only [Option.bind_eq_bind] at hfold
  simp only [Option.bind_eq_bind]
  rw [hfold _ (by
    intro p hp hoob
    simp only [List.mem_cons, List.mem_singleton] at hp
    simp only [Bool.or_eq_true, not_or, decide_eq_true_eq, beq_iff_eq] at hoob
    obtain ⟨hra, hrb⟩ := hr
    obtain ⟨hca, hcb⟩ := hc
    rcases hp with rfl | rfl | rfl | hp <;> try (simp at hoob ⊢; omega)
    rcases hp with rfl | hp
    · simp at hoob ⊢
      omega
    · simp at hp) false]
  simp only [Option.some_bind]
  rw [hany, Bool.false_or]
  by_cases hw : ([(row - 1, col), (row, col + 1), (row + 1, col),
      (row, col - 1)].any fun rc =>
        if (decide (rc.1 < 0) || rc.1 == (s.height : Int) ||
            decide (rc.2 < 0) || rc.2 == (s.width : Int)) = true then false
        else getTileType (ggetI s.grid rc.1 rc.2) == WATER) = true
  · rw [hw]
    simp only [Bool.not_true, Bool.false_eq_true, if_false]
    exact setAt?_some hr.1 hr.2 hc.1 hc.2 _
  · rw [Bool.not_eq_true] at hw
    rw [hw]
    rfl

theorem slideLeftOrRightChk_eq (rng : Rng) (k : Nat) {s : Sandbox}
    {row col : Int} (hr : 0 ≤ row ∧ row < (s.height : Int))
    (hc : 0 ≤ col ∧ col < (s.width : Int)) :
    slideLeftOrRightChk rng k s row col =
      some (slideLeftOrRight rng k s row col) := by
  unfold slideLeftOrRightChk slideLeftOrRight
  simp only [Option.bind_eq_bind]
  by_cases hL : (col - 1 == (-1 : Int)) = true
  · rw [if_pos hL]
    simp only [Option.some_bind, bne, hL, Bool.not_true, Bool.false_and,
      Bool.false_eq_true, if_false, pure]
    by_cases hRg : (col + 1 == (s.width : Int)) = true
    · rw [if_pos hRg]
      simp only [Option.some_bind, bne, hRg, Bool.not_true, Bool.false_and,
        Bool.false_eq_true, if_false, pure]
    · rw [if_neg hRg]
      have hRb : (0 : Int) ≤ col + 1 ∧ col + 1 < (s.width : Int) := by
        simp only [beq_iff_eq] at hRg
        omega
      rw [tileAt?_some (by omega) hr.2 hRb.1 hRb.2]
      simp only [Option.some_bind, bne, hRg, Bool.not_false, Bool.true_and,
        pure]
      by_cases hRe : tileIsEmpty (ggetI s.grid row (col + 1)) = true
      · rw [hRe]
        simp only [if_true]
        rw [swapAt?_some hr.1 hr.2 hc.1 hc.2 hr.1 hr.2 hRb.1 hRb.2]
        rfl
      · rw [Bool.not_eq_true] at hRe
        rw [hRe]
        simp only [Bool.false_eq_true, if_false, pure]
  · rw [if_neg hL]
    have hLb : (0 : Int) ≤ col - 1 ∧ col - 1 < (s.width : Int) := by
      simp only [beq_iff_eq] at hL
      omega
    rw [tileAt?_some (by omega) hr.2 hLb.1 hLb.2]
    simp only [Option.some_bind, bne, hL, Bool.not_false, Bool.true_and, pure]
    by_cases hRg : (col + 1 == (s.width : Int)) = true
    · rw [if_pos hRg]
      simp only [Option.some_bind, bne, hRg, Bool.not_true, Bool.false_and,
        Bool.false_eq_true, pure]
      by_cases hLe : tileIsEmpty (ggetI s.grid row (col - 1)) = true
      · rw [hLe]
        simp only [Bool.and_false, Bool.false_eq_true, if_false, if_true]
        rw [swapAt?_some hr.1 hr.2 hc.1 hc.2 hr.1 hr.2 hLb.1 hLb.2]
        rfl
      · rw [Bool.not_eq_true] at hLe
        rw [hLe]
        simp only [Bool.and_false, Bool.false_eq_true, if_false, pure]
    · rw [if_neg hRg]
      have hRb : (0 : Int) ≤ col + 1 ∧ col + 1 < (s.width : Int) := by
        simp only [beq_iff_eq] at hRg
        omega
      rw [tileAt?_some (by omega) hr.2 hRb.1 hRb.2]
      simp only [Option.some_bind, bne, hRg, Bool.not_false, Bool.true_and,
        pure]
      by_cases hLe : tileIsEmpty (ggetI s.grid row (col - 1)) = true
      all_goals by_cases hRe : tileIsEmpty (ggetI s.grid row (col + 1)) = true
      · rw [hLe, hRe]
        simp only [Bool.and_self, if_true, flipCoin]
        by_cases hco : rng.coin k = true
        · rw [hco]
          simp only [if_true]
          rw [swapAt?_some hr.1 hr.2 hc.1 hc.2 hr.1 hr.2 hLb.1 hLb.2]
          rfl
        · rw [Bool.not_eq_true] at hco
          rw [hco]
          simp only [Bool.false_eq_true, if_false]
          rw [swapAt?_some hr.1 hr.2 hc.1 hc.2 hr.1 hr.2 hRb.1 hRb.2]
          rfl
      · rw [Bool.not_eq_true] at hRe
        rw [hLe, hRe]
        simp only [Bool.and_false, Bool.false_eq_true, if_false, if_true]
        rw [swapAt?_some hr.1 hr.2 hc.1 hc.2 hr.1 hr.2 hLb.1 hLb.2]
        rfl
      · rw [Bool.not_eq_true] at hLe
        rw [hLe, hRe]
        simp only [Bool.false_and, Bool.false_eq_true, if_false, if_true]
        rw [swapAt?_some hr.1 hr.2 hc.1 hc.2 hr.1 hr.2 hRb.1 hRb.2]
        rfl
      · rw [Bool.not_eq_true] at hLe hRe
        rw [hLe, hRe]
        simp only [Bool.false_and, Bool.false_eq_true, if_false, pure]

theorem doLiquidFlowChk_eq (rng : Rng) (k : Nat) {s : Sandbox}
    {row col : Int} (hr : 0 ≤ row ∧ row < (s.height : Int))
    (hc : 0 ≤ col ∧ col < (s.width : Int)) :
    doLiquidFlowChk rng k s row col =
      some (doLiquidFlow rng k s row col) := by
  unfold doLiquidFlowChk doLiquidFlow
  simp only [Option.bind_eq_bind]
  by_cases hg : (row + 1 == (s.height : Int)) = true
  · rw [if_pos hg]
    simp only [Option.some_bind, hg, Bool.true_or, Bool.not_true,
      Bool.false_and, Bool.false_eq_true, if_false]
    exact slideLeftOrRightChk_eq rng k hr hc
  · rw [if_neg hg]
    have hb : (0 : Int) ≤ row + 1 ∧ row + 1 < (s.height : Int) := by
      simp only [beq_iff_eq] at hg
      omega
    rw [tileAt?_some hb.1 hb.2 hc.1 hc.2]
    simp only [Option.some_bind, hg, Bool.false_or]
    by_cases hs : tileIsSolid (ggetI s.grid (row + 1) col) = true
    · rw [hs]
      simp only [Bool.not_true, Bool.false_and, Bool.false_eq_true, if_false]
      exact slideLeftOrRightChk_eq rng k hr hc
    · rw [Bool.not_eq_true] at hs
      rw [hs]
      simp only [pure, Option.some_bind, Bool.not_false, if_true]
      by_cases hl : tileIsLiquid (ggetI s.grid (row + 1) col) = true
      · rw [hl]
        simp only [Bool.not_true, Bool.false_eq_true, if_false]
        exact slideLeftOrRightChk_eq rng k hr hc
      · rw [Bool.not_eq_true] at hl
        rw [hl]
        simp only [Bool.not_false, Bool.and_self, if_true]

theorem canSink_guard_left {s : Sandbox} {row col tr : Int}
    (h : (col - 1 == (-1 : Int)) = true) :
    canSink s row col tr (col - 1) = false := by
  unfold canSink
  rw [if_pos (by
    simp only [Bool.or_eq_true]
    exact Or.inl (Or.inr h))]

theorem canSink_guard_right {s : Sandbox} {row col tr : Int}
    (h : (col + 1 == (s.width : Int)) = true) :
    canSink s row col tr (col + 1) = false := by
  unfold canSink
  rw [if_pos (by
    simp only [Bool.or_eq_true]
    exact Or.inr h)]

theorem doGravityChk_eq (rng : Rng) (k : Nat) {s : Sandbox}
    {row col : Int} (hr : 0 ≤ row ∧ row < (s.height : Int))
    (hc : 0 ≤ col ∧ col < (s.width : Int)) :
    doGravityChk rng k s row col = some (doGravity rng k s row col) := by
  unfold doGravityChk doGravity
  simp only [Option.bind_eq_bind]
  by_cases hg : (row + 1 == (s.height : Int)) = true
  · rw [if_pos hg, if_pos hg]
    rfl
  · rw [if_neg hg, if_neg hg]
    have hb : (0 : Int) ≤ row + 1 ∧ row + 1 < (s.height : Int) := by
      simp only [beq_iff_eq] at hg
      omega
    rw [canSinkChk_eq hr hc ⟨by omega, by omega⟩ ⟨by omega, by omega⟩]
    simp only [pure, Option.some_bind]
    rw [tileAt?_some hb.1 hb.2 hc.1 hc.2]
    simp only [pure, Option.some_bind]
    by_cases hfall : (tileIsEmpty (ggetI s.grid (row + 1) col) ||
        canSink s row col (row + 1) col) = true
    · rw [if_pos hfall, if_pos hfall]
      rw [swapAt?_some hr.1 hr.2 hc.1 hc.2 hb.1 hb.2 hc.1 hc.2]
      rfl
    · rw [if_neg hfall, if_neg hfall]
      by_cases hLg : (col - 1 == (-1 : Int)) = true
      · -- left border wall
        rw [if_pos hLg]
        have hsnkL := @canSink_guard_left s row col (row + 1) hLg
        simp only [pure, Option.some_bind, hLg, Bool.true_or, hsnkL, Bool.false_and,
          Bool.and_false, Bool.not_true, Bool.not_false, Bool.true_and, Bool.false_and, Bool.or_false, Bool.false_or, Bool.true_and]
        by_cases hRg : (col + 1 == (s.width : Int)) = true
        · rw [if_pos hRg]
          have hsnkR := @canSink_guard_right s row col (row + 1) hRg
          simp only [pure, Option.some_bind, hRg, Bool.true_or, hsnkR, Bool.true_and,
            Bool.and_self, if_true, pure]
        · rw [if_neg hRg]
          have hRb : (0 : Int) ≤ col + 1 ∧ col + 1 < (s.width : Int) := by
            simp only [beq_iff_eq] at hRg
            omega
          rw [tileAt?_some hr.1 hr.2 hRb.1 hRb.2]
          simp only [pure, Option.some_bind, hRg, Bool.false_or]
          by_cases hRs : tileIsSolid (ggetI s.grid row (col + 1)) = true
          · rw [hRs]
            simp only [Bool.true_and, Bool.and_self, if_true, pure]
          · rw [Bool.not_eq_true] at hRs
            rw [hRs]
            simp only [Bool.and_false, Bool.not_true, Bool.not_false, Bool.true_and, Bool.false_and, Bool.false_eq_true, if_false,
              Bool.true_and, if_true, Option.some_bind]
            rw [canSinkChk_eq hr hc ⟨by omega, by omega⟩ ⟨by omega, by omega⟩]
            simp only [pure, Option.some_bind]
            rw [canSinkChk_eq hr hc ⟨by omega, by omega⟩ ⟨by omega, by omega⟩]
            simp only [pure, Option.some_bind, if_true, Bool.not_false]
            rw [tileAt?_some hb.1 hb.2 hRb.1 hRb.2]
            simp only [pure, Option.some_bind, hsnkL, Bool.false_and, Bool.false_or,
              Bool.false_eq_true, if_false, Bool.or_false]
            by_cases hRe : tileIsEmpty (ggetI s.grid (row + 1) (col + 1)) = true
            all_goals by_cases hRsk : canSink s row col (row + 1) (col + 1) = true
            all_goals simp only [hRe, hRsk, Bool.and_false, Bool.not_true, Bool.not_false, Bool.true_and, Bool.false_and, Bool.and_true,
              Bool.false_eq_true, if_false, if_true, Bool.or_self,
              Bool.or_true, Bool.true_or, Bool.false_or, pure]
            all_goals try (rw [swapAt?_some hr.1 hr.2 hc.1 hc.2 hb.1 hb.2
              hRb.1 hRb.2]; rfl)
      · rw [if_neg hLg]
        have hLb : (0 : Int) ≤ col - 1 ∧ col - 1 < (s.width : Int) := by
          simp only [beq_iff_eq] at hLg
          omega
        rw [tileAt?_some hr.1 hr.2 hLb.1 hLb.2]
        simp only [pure, Option.some_bind, hLg, Bool.false_or]
        by_cases hRg : (col + 1 == (s.width : Int)) = true
        · -- right border wall
          rw [if_pos hRg]
          have hsnkR := @canSink_guard_right s row col (row + 1) hRg
          simp only [pure, Option.some_bind, hRg, Bool.true_or, hsnkR,
            Bool.and_false, Bool.not_true, Bool.not_false, Bool.true_and, Bool.false_and, Bool.or_false, Bool.true_and]
          by_cases hLs : tileIsSolid (ggetI s.grid row (col - 1)) = true
          · rw [hLs]
            simp only [Bool.and_self, if_true, pure]
          · rw [Bool.not_eq_true] at hLs
            rw [hLs]
            simp only [Bool.false_and, Bool.false_eq_true, if_false,
              Option.some_bind, Bool.not_false, if_true]
            rw [canSinkChk_eq hr hc ⟨by omega, by omega⟩ ⟨by omega, by omega⟩]
            simp only [pure, Option.some_bind]
            rw [canSinkChk_eq hr hc ⟨by omega, by omega⟩ ⟨by omega, by omega⟩]
            simp only [pure, Option.some_bind]
            rw [tileAt?_some hb.1 hb.2 hLb.1 hLb.2]
            simp only [pure, Option.some_bind, hsnkR, Bool.and_false, Bool.not_true, Bool.not_false, Bool.true_and, Bool.false_and, Bool.or_false,
              Bool.false_eq_true, if_false, pure]
            by_cases hLe : tileIsEmpty (ggetI s.grid (row + 1) (col - 1)) = true
            all_goals by_cases hLsk : canSink s row col (row + 1) (col - 1) = true
            all_goals simp only [hLe, hLsk, Bool.and_false, Bool.not_true, Bool.not_false, Bool.true_and, Bool.false_and,
              Bool.and_true, Bool.true_and, Bool.false_eq_true, if_false,
              if_true, Bool.or_self, Bool.or_true, Bool.true_or,
              Bool.false_or, pure]
            all_goals try (rw [swapAt?_some hr.1 hr.2 hc.1 hc.2 hb.1 hb.2
              hLb.1 hLb.2]; rfl)
        · rw [if_neg hRg]
          have hRb : (0 : Int) ≤ col + 1 ∧ col + 1 < (s.width : Int) := by
            simp only [beq_iff_eq] at hRg
            omega
          rw [tileAt?_some hr.1 hr.2 hRb.1 hRb.2]
          simp only [pure, Option.some_bind, hRg, Bool.false_or]
          by_cases hLs : tileIsSolid (ggetI s.grid row (col - 1)) = true
          all_goals by_cases hRs : tileIsSolid (ggetI s.grid row (col + 1)) = true
          · rw [hLs, hRs]
            simp only [Bool.and_self, if_true, pure]
          all_goals simp only [hLs, hRs, Bool.and_false, Bool.not_true, Bool.not_false, Bool.true_and, Bool.false_and,
            Bool.and_true, Bool.true_and, Bool.false_eq_true, if_false,
            Option.some_bind, Bool.not_false, Bool.not_true, if_true]
          all_goals rw [canSinkChk_eq hr hc ⟨by omega, by omega⟩
            ⟨by omega, by omega⟩]
          all_goals try simp only [pure, Option.some_bind]
          all_goals rw [canSinkChk_eq hr hc ⟨by omega, by omega⟩
            ⟨by omega, by omega⟩]
          all_goals try simp only [pure, Option.some_bind]
          -- remaining: wallL = hLs, wallR = hRs (not both true)
          all_goals try rw [tileAt?_some hb.1 hb.2 hLb.1 hLb.2]
          all_goals try simp only [pure, Option.some_bind]
          all_goals try rw [tileAt?_some hb.1 hb.2 hRb.1 hRb.2]
          all_goals try simp only [pure, Option.some_bind]
          all_goals by_cases hLe : tileIsEmpty (ggetI s.grid (row + 1) (col - 1)) = true
          all_goals by_cases hRe : tileIsEmpty (ggetI s.grid (row + 1) (col + 1)) = true
          all_goals by_cases hLsk : canSink s row col (row + 1) (col - 1) = true
          all_goals by_cases hRsk : canSink s row col (row + 1) (col + 1) = true
          all_goals simp only [hLs, hRs, hLe, hRe, hLsk, hRsk, Bool.and_false, Bool.not_true, Bool.not_false, Bool.true_and, Bool.false_and,
            Bool.false_and, Bool.and_true, Bool.true_and, Bool.and_self,
            Bool.false_eq_true, if_false, if_true, Bool.or_self, Bool.or_true,
            Bool.true_or, Bool.false_or, Bool.or_false, pure, flipCoin]
          all_goals try (rw [swapAt?_some hr.1 hr.2 hc.1 hc.2 hb.1 hb.2
            hLb.1 hLb.2]; rfl)
          all_goals try (rw [swapAt?_some hr.1 hr.2 hc.1 hc.2 hb.1 hb.2
            hRb.1 hRb.2]; rfl)
          all_goals by_cases hco : rng.coin k = true
          all_goals simp only [hco, Bool.false_eq_true, if_false, if_true]
          all_goals try (rw [swapAt?_some hr.1 hr.2 hc.1 hc.2 hb.1 hb.2
            hLb.1 hLb.2]; rfl)
          all_goals (rw [swapAt?_some hr.1 hr.2 hc.1 hc.2 hb.1 hb.2
            hRb.1 hRb.2]; rfl)

theorem liftTarget_inbounds {s : Sandbox} {row col : Int} (p : Int × Int)
    (hr : 0 ≤ row ∧ row < (s.height : Int))
    (hc : 0 ≤ col ∧ col < (s.width : Int))
    (hmem : p ∈ [((row - 1 : Int), col), (row - 1, col - 1), (row - 1, col + 1),
      (row, col - 1), (row, col + 1)])
    (hp : canLift s row col p.1 p.2 = true) :
    (0 ≤ p.1 ∧ p.1 < (s.height : Int)) ∧ (0 ≤ p.2 ∧ p.2 < (s.width : Int)) := by
  have hg : ¬(p.1 == (-1 : Int) || p.2 == (-1 : Int) ||
      p.2 == (s.width : Int)) = true := by
    intro hg
    unfold canLift at hp
    rw [if_pos hg] at hp
    simp at hp
  simp only [Bool.or_eq_true, beq_iff_eq] at hg
  push_neg at hg
  simp only [List.mem_cons, List.not_mem_nil, or_false, Prod.ext_iff] at hmem
  rcases hmem with ⟨h1, h2⟩ | ⟨h1, h2⟩ | ⟨h1, h2⟩ | ⟨h1, h2⟩ | ⟨h1, h2⟩ <;>
    rw [h1, h2] at hg ⊢ <;> omega

theorem doLiftChk_eq (rng : Rng) (k : Nat) {s : Sandbox} {row col : Int}
    (hr : 0 ≤ row ∧ row < (s.height : Int))
    (hc : 0 ≤ col ∧ col < (s.width : Int)) :
    doLiftChk rng k s row col = some (doLift rng k s row col) := by
  unfold doLiftChk doLift
  have hfold : ∀ (l : List (Int × Int)),
      (∀ rc ∈ l, canLiftChk s row col rc.1 rc.2 =
        some (canLift s row col rc.1 rc.2)) →
      ∀ (acc : List (Int × Int)),
      l.foldlM (fun (acc : List (Int × Int)) rc => do
        let ok ← canLiftChk s row col rc.1 rc.2
        if ok then pure (acc ++ [rc]) else pure acc) acc =
      some (acc ++ l.filter fun rc => canLift s row col rc.1 rc.2) := by
    intro l
    induction l with
    | nil =>
      intro _ acc
      simp
    | cons hd tl ih =>
      intro hok acc
      rw [List.foldlM_cons]
      rw [hok hd (List.mem_cons_self _ _)]
      simp only [Option.bind_eq_bind, Option.some_bind]
      rw [List.filter_cons]
      by_cases hcl : canLift s row col hd.1 hd.2 = true
      · rw [if_pos hcl, if_pos hcl]
        simp only [pure, Option.some_bind]
        have := ih (fun p hp => hok p (List.mem_cons_of_mem _ hp)) (acc ++ [hd])
        simp only [Option.bind_eq_bind, pure] at this ⊢
        rw [this]
        simp
      · rw [if_neg hcl, if_neg hcl]
        simp only [pure, Option.some_bind]
        have := ih (fun p hp => hok p (List.mem_cons_of_mem _ hp)) acc
        simp only [Option.bind_eq_bind, pure] at this ⊢
        rw [this]
  have hok : ∀ rc ∈ [((row - 1 : Int), col), (row - 1, col - 1),
      (row - 1, col + 1), (row, col - 1), (row, col + 1)],
      canLiftChk s row col rc.1 rc.2 =
        some (canLift s row col rc.1 rc.2) := by
    intro rc hm
    simp only [List.mem_cons, List.not_mem_nil, or_false] at hm
    rcases hm with h | h | h | h | h <;> rw [h] <;>
      exact canLiftChk_eq hr hc ⟨by omega, by omega⟩ ⟨by omega, by omega⟩
  simp only [Option.bind_eq_bind]
  simp only [Option.bind_eq_bind] at hfold
  rw [hfold _ hok []]
  simp only [Option.some_bind, List.nil_append]
  by_cases hlen : (List.filter (fun rc => canLift s row col rc.1 rc.2)
      [((row - 1 : Int), col), (row - 1, col - 1), (row - 1, col + 1),
       (row, col - 1), (row, col + 1)]).length = 0
  · rw [if_pos hlen, if_pos hlen]
    rfl
  · rw [if_neg hlen, if_neg hlen]
    simp only [randint, Nat.zero_add, Nat.add_zero, Nat.sub_zero]
    have hpos : 0 < (List.filter (fun rc => canLift s row col rc.1 rc.2)
        [((row - 1 : Int), col), (row - 1, col - 1), (row - 1, col + 1),
         (row, col - 1), (row, col + 1)]).length := Nat.pos_of_ne_zero hlen
    have hidx : rng.pick k % ((List.filter
        (fun rc => canLift s row col rc.1 rc.2)
        [((row - 1 : Int), col), (row - 1, col - 1), (row - 1, col + 1),
         (row, col - 1), (row, col + 1)]).length - 1 + 1) <
        (List.filter (fun rc => canLift s row col rc.1 rc.2)
        [((row - 1 : Int), col), (row - 1, col - 1), (row - 1, col + 1),
         (row, col - 1), (row, col + 1)]).length := by
      have h1 : (List.filter (fun rc => canLift s row col rc.1 rc.2)
          [((row - 1 : Int), col), (row - 1, col - 1), (row - 1, col + 1),
           (row, col - 1), (row, col + 1)]).length - 1 + 1 =
          (List.filter (fun rc => canLift s row col rc.1 rc.2)
          [((row - 1 : Int), col), (row - 1, col - 1), (row - 1, col + 1),
           (row, col - 1), (row, col + 1)]).length := by omega
      rw [h1]
      exact Nat.mod_lt _ hpos
    rw [List.getD_eq_getElem _ _ hidx]
    have hmemF := List.getElem_mem hidx
    have hmem := (List.mem_filter.mp hmemF).1
    have hcl : canLift s row col
        ((List.filter (fun rc => canLift s row col rc.1 rc.2)
        [((row - 1 : Int), col), (row - 1, col - 1), (row - 1, col + 1),
         (row, col - 1), (row, col + 1)])[rng.pick k %
          ((List.filter (fun rc => canLift s row col rc.1 rc.2)
          [((row - 1 : Int), col), (row - 1, col - 1), (row - 1, col + 1),
           (row, col - 1), (row, col + 1)]).length - 1 + 1)]).1
        ((List.filter (fun rc => canLift s row col rc.1 rc.2)
        [((row - 1 : Int), col), (row - 1, col - 1), (row - 1, col + 1),
         (row, col - 1), (row, col + 1)])[rng.pick k %
          ((List.filter (fun rc => canLift s row col rc.1 rc.2)
          [((row - 1 : Int), col), (row - 1, col - 1), (row - 1, col + 1),
           (row, col - 1), (row, col + 1)]).length - 1 + 1)]).2 := by
      have := (List.mem_filter.mp hmemF).2
      simpa using this
    have hb := liftTarget_inbounds _ hr hc hmem hcl
    rw [swapAt?_some hr.1 hr.2 hc.1 hc.2 hb.1.1 hb.1.2 hb.2.1 hb.2.2]
    simp only [Option.some_bind, pure]

/-! ## The claims -/

/-- C5: for every sandbox and every tile type id `t` (the type field holds
four bits), `get_tile_type (create_tile t)` equals `t`, the created tile
tests updated at the creating lifetime `L`, and not updated at `L + 1`. -/
theorem claim_C5 (s : Sandbox) (t : Nat) (ht : t < 16) :
    getTileType (createTile s t) = t ∧
    isTileUpdated (createTile s t) s.lifetime = true ∧
    isTileUpdated (createTile s t) (s.lifetime + 1) = false := by
  refine ⟨?_, isTileUpdated_setTileUpdated _ _, ?_⟩
  · rw [createTile, getTileType_setTileUpdated]
    unfold getTileType
    omega
  · unfold createTile isTileUpdated
    rw [getUpdatedFlag_setTileUpdated]
    unfold getTimeParity
    simp only [beq_eq_false_iff_ne, ne_eq, decide_eq_false_iff_not]
    omega

theorem claim_C5_witness :
    STEAM < 16 ∧
    (getTileType (createTile sbOne STEAM) = STEAM ∧
      isTileUpdated (createTile sbOne STEAM) sbOne.lifetime = true ∧
      isTileUpdated (createTile sbOne STEAM) (sbOne.lifetime + 1) = false) :=
  ⟨by decide, claim_C5 sbOne STEAM (by decide)⟩

/-- C9: the spec's tile type id set is AIR=0, SAND, WATER, WOOD, STEAM, FIRE
and FUEL=6, and the classification row for FUEL reads: gravity yes, solid
no, liquid yes, gas no, incendiary no, flammability 0.75, survival chance
1.0. Modelled from the spec: FUEL's declaration and classification code are
not among the repository's staged sources (only its caller is). -/
theorem claim_C9 :
    specTileTypeIds = [AIR, SAND, WATER, WOOD, STEAM, FIRE, FUEL] ∧
    FUEL = 6 ∧
    specHasGravity FUEL = true ∧ specIsSolid FUEL = false ∧
    specIsLiquid FUEL = true ∧ specIsGas FUEL = false ∧
    specIsIncendiary FUEL = false ∧
    specFlammability FUEL = 3 / 4 ∧ specSurvivalChance FUEL = 1 :=
  ⟨rfl, rfl, rfl, rfl, rfl, rfl, rfl, rfl, rfl⟩

/-- C10: for every in-bounds source coordinate, each movement and reaction
algorithm, rewritten to access the grid only through bounds-refusing
`Option` reads and writes, returns `some` of exactly what the unchecked
algorithm computes: no access of the pipeline is out of bounds. -/
theorem claim_C10 (rng : Rng) (k : Nat) (s : Sandbox) (row col : Int)
    (hr : 0 ≤ row ∧ row < (s.height : Int))
    (hc : 0 ≤ col ∧ col < (s.width : Int)) :
    doGravityChk rng k s row col = some (doGravity rng k s row col) ∧
    doLiquidFlowChk rng k s row col = some (doLiquidFlow rng k s row col) ∧
    doLiftChk rng k s row col = some (doLift rng k s row col) ∧
    doExtinguishChk s row col = some (doExtinguish s row col) ∧
    rollShouldTileBurnChk rng k s row col =
      some (rollShouldTileBurn rng k s row col) :=
  ⟨doGravityChk_eq rng k hr hc, doLiquidFlowChk_eq rng k hr hc,
    doLiftChk_eq rng k hr hc, doExtinguishChk_eq hr hc,
    rollShouldTileBurnChk_eq rng k hr hc⟩

theorem claim_C10_witness :
    doGravityChk rngT 0 sbMix 0 1 = some (doGravity rngT 0 sbMix 0 1) ∧
    doLiquidFlowChk rngT 0 sbMix 0 1 =
      some (doLiquidFlow rngT 0 sbMix 0 1) ∧
    doLiftChk rngT 0 sbMix 0 1 = some (doLift rngT 0 sbMix 0 1) ∧
    doExtinguishChk sbMix 0 1 = some (doExtinguish sbMix 0 1) ∧
    rollShouldTileBurnChk rngT 0 sbMix 0 1 =
      some (rollShouldTileBurn rngT 0 sbMix 0 1) :=
  claim_C10 rngT 0 sbMix 0 1 ⟨by decide, by decide⟩ ⟨by decide, by decide⟩

/-- C3: after one full `process_sandbox` pass on a well-formed sandbox,
every in-bounds cell is air-typed or carries an updated flag equal to the
parity of the pre-increment lifetime. -/
theorem claim_C3 (rng : Rng) (s : Sandbox) (k : Nat) (hwf : WfSandbox s)
    (i j : Nat) (hi : i < s.height) (hj : j < s.width) :
    getTileType (gget (processSandbox rng s k).1.grid i j) = AIR ∨
    getUpdatedFlag (gget (processSandbox rng s k).1.grid i j) =
      getTimeParity s.lifetime := by
  have h := foldl_flagOk rng s.height s.width s.lifetime
    (cellOrder s.height s.width) [] (s, k) hwf rfl rfl rfl
    (fun p hp => cellOrder_bounds p hp)
    (by intro p hp; simp at hp)
  have hg : (processSandbox rng s k).1.grid =
      ((cellOrder s.height s.width).foldl (stepCell rng) (s, k)).1.grid := rfl
  rw [hg]
  exact h.2.2.2.2 (i, j) (Or.inr (mem_cellOrder hi hj))

theorem claim_C3_witness :
    WfSandbox sbWFA ∧
    (getTileType (gget (processSandbox rngT sbWFA 0).1.grid 0 1) = AIR ∨
      getUpdatedFlag (gget (processSandbox rngT sbWFA 0).1.grid 0 1) =
        getTimeParity sbWFA.lifetime) :=
  ⟨by decide, claim_C3 rngT sbWFA 0 (by decide) 0 1 (by decide) (by decide)⟩

/-- C4: each movement algorithm either leaves the grid unchanged or swaps
two in-bounds cells — so it preserves the multiset of tile bytes — and
across one whole `process_sandbox` pass the multiset of tile types changes
only by explicit conversions: decay of a non-permanent type to AIR,
ignition of a flammable type to FIRE, or extinguishing of FIRE to STEAM. -/
theorem claim_C4 (rng : Rng) (s : Sandbox) (k r c : Nat) (hwf : WfSandbox s)
    (hrh : r < s.height) (hcw : c < s.width) :
    gridBytes (doGravity rng k s (r : Int) (c : Int)).1.grid =
      gridBytes s.grid ∧
    gridBytes (doLiquidFlow rng k s (r : Int) (c : Int)).1.grid =
      gridBytes s.grid ∧
    gridBytes (doLift rng k s (r : Int) (c : Int)).1.grid =
      gridBytes s.grid ∧
    ∃ d : List (Nat × Nat), (∀ ab ∈ d, ConvOk ab.1 ab.2) ∧
      typeMS (processSandbox rng s k).1.grid +
        ((d.map Prod.fst : List Nat) : Multiset Nat) =
      typeMS s.grid + ((d.map Prod.snd : List Nat) : Multiset Nat) := by
  have hr0 := wf_rect hwf
  refine ⟨?_, ?_, ?_, ?_⟩
  · rcases doGravity_cases rng k s hrh hcw with h | ⟨tc, k', _, hr1, htc, _, h⟩
    · rw [h]
    · rw [h]
      exact gridBytes_swap hr0 hrh hcw hr1 htc
  · rcases doLiquidFlow_cases rng k s hcw with h | ⟨tc, k', _, htc, _, h⟩
    · rw [h]
    · rw [h]
      exact gridBytes_swap hr0 hrh hcw hrh htc
  · rcases doLift_cases rng k s hrh hcw with h | ⟨tr, tc, _, htr, htc, _, h⟩
    · rw [h]
    · rw [h]
      exact gridBytes_swap hr0 hrh hcw htr htc
  · have h := foldl_typeMS rng s.height s.width (cellOrder s.height s.width)
      (s, k) hwf rfl rfl (fun p hp => cellOrder_bounds p hp)
    have hg : (processSandbox rng s k).1.grid =
        ((cellOrder s.height s.width).foldl (stepCell rng) (s, k)).1.grid := rfl
    rw [hg]
    exact h

theorem claim_C4_witness :
    WfSandbox sbMix ∧
    (gridBytes (doGravity rngT 0 sbMix 0 1).1.grid = gridBytes sbMix.grid ∧
     gridBytes (doLiquidFlow rngT 0 sbMix 0 1).1.grid = gridBytes sbMix.grid ∧
     gridBytes (doLift rngT 0 sbMix 0 1).1.grid = gridBytes sbMix.grid ∧
     ∃ d : List (Nat × Nat), (∀ ab ∈ d, ConvOk ab.1 ab.2) ∧
       typeMS (processSandbox rngT sbMix 0).1.grid +
         ((d.map Prod.fst : List Nat) : Multiset Nat) =
       typeMS sbMix.grid + ((d.map Prod.snd : List Nat) : Multiset Nat)) :=
  ⟨by decide, claim_C4 rngT sbMix 0 0 1 (by decide) (by decide) (by decide)⟩

/-- C1 as amended: the scheduler's work at one visited in-bounds cell is a
skip (empty or already-updated tile), a deletion by the survival roll, a
conversion to FIRE by the burn roll, or the marked reaction/movement
pipeline — and that pipeline's grid effect is one of the `PipelineMid`
shapes, which allow a WATER cell a gravity swap followed by one lateral
swap, and a FIRE cell the STEAM conversion followed by one lift swap; no
other combination of outcomes can take effect at one cell. -/
theorem claim_C1 (rng : Rng) (s : Sandbox) (k r c : Nat)
    (hwf : WfSandbox s) (hrh : r < s.height) (hcw : c < s.width) :
    (stepCell rng (s, k) (r, c) = (s, k) ∧
      (tileIsEmpty (gget s.grid r c) = true ∨
       isTileUpdated (gget s.grid r c) s.lifetime = true)) ∨
    ((∃ k', stepCell rng (s, k) (r, c) =
        ({ s with grid := gset s.grid r c AIR }, k')) ∧
      getTileLifespan (gget s.grid r c) ≠ Lifespan.PERMANENT ∧
      tileIsEmpty (gget s.grid r c) = false) ∨
    ((∃ k', stepCell rng (s, k) (r, c) =
        ({ s with grid := gset s.grid r c (createTile s FIRE) }, k')) ∧
      tileFlammability (gget s.grid r c) ≠ 0 ∧
      tileIsEmpty (gget s.grid r c) = false) ∨
    (∃ t k', stepCell rng (s, k) (r, c) = (markCell t r c, k') ∧
      t.width = s.width ∧ t.height = s.height ∧ t.lifetime = s.lifetime ∧
      tileIsEmpty (gget s.grid r c) = false ∧ PipelineMid s r c t) :=
  stepCell_cases rng s k r c hwf hrh hcw

/-- C1 counterexample: a FIRE cell with WATER on its left is extinguished
to STEAM and the created steam is then moved by the gas lift in the same
visit — two outcomes take effect for the one cell in one pass. -/
theorem claim_C1_cex :
    getTileType (gget sbWFA.grid 0 1) = FIRE ∧
    getTileType (gget (processSandbox rngT sbWFA 0).1.grid 0 1) = AIR ∧
    getTileType (gget (processSandbox rngT sbWFA 0).1.grid 0 2) = STEAM := by
  decide

theorem claim_C1_witness :
    WfSandbox sbOne ∧
    ((stepCell rngT (sbOne, 0) (0, 0) = (sbOne, 0) ∧
      (tileIsEmpty (gget sbOne.grid 0 0) = true ∨
       isTileUpdated (gget sbOne.grid 0 0) sbOne.lifetime = true)) ∨
    ((∃ k', stepCell rngT (sbOne, 0) (0, 0) =
        ({ sbOne with grid := gset sbOne.grid 0 0 AIR }, k')) ∧
      getTileLifespan (gget sbOne.grid 0 0) ≠ Lifespan.PERMANENT ∧
      tileIsEmpty (gget sbOne.grid 0 0) = false) ∨
    ((∃ k', stepCell rngT (sbOne, 0) (0, 0) =
        ({ sbOne with grid := gset sbOne.grid 0 0 (createTile sbOne FIRE) },
          k')) ∧
      tileFlammability (gget sbOne.grid 0 0) ≠ 0 ∧
      tileIsEmpty (gget sbOne.grid 0 0) = false) ∨
    (∃ t k', stepCell rngT (sbOne, 0) (0, 0) = (markCell t 0 0, k') ∧
      t.width = sbOne.width ∧ t.height = sbOne.height ∧
      t.lifetime = sbOne.lifetime ∧
      tileIsEmpty (gget sbOne.grid 0 0) = false ∧ PipelineMid sbOne 0 0 t)) :=
  ⟨by decide, claim_C1 rngT sbOne 0 0 0 (by decide) (by decide) (by decide)⟩

/-- C2 as amended: a single SAND grain above empty cells falls exactly one
row per pass provided its updated flag does not already match the parity of
the current lifetime; the swapped tile is marked updated before the swap,
so the scan skips it at row r+1 in the same pass. -/
theorem claim_C2 (rng : Rng) (s : Sandbox) (k r c : Nat)
    (hwf : WfSandbox s) (hr1 : r + 1 < s.height) (hcw : c < s.width)
    (hsand : getTileType (gget s.grid r c) = SAND)
    (hupd : isTileUpdated (gget s.grid r c) s.lifetime = false)
    (hair : ∀ i j, i < s.height → j < s.width → (i, j) ≠ (r, c) →
      getTileType (gget s.grid i j) = AIR) :
    getTileType (gget (processSandbox rng s k).1.grid (r + 1) c) = SAND ∧
    (∀ i j, i < s.height → j < s.width → (i, j) ≠ (r + 1, c) →
      getTileType (gget (processSandbox rng s k).1.grid i j) = AIR) :=
  singleSand_pass rng s k r c hwf hr1 hcw hsand hupd hair

/-- C2 counterexample: a single SAND grain whose byte already carries the
lifetime's parity (here both zero) is skipped by the scan and does not fall
at all, refuting the claim for grids with an arbitrary updated flag. -/
theorem claim_C2_cex :
    getTileType (gget sbS0.grid 0 0) = SAND ∧
    getTileType (gget sbS0.grid 1 0) = AIR ∧
    (processSandbox rngT sbS0 0).1.grid = sbS0.grid ∧
    getTileType (gget (processSandbox rngT sbS0 0).1.grid 1 0) ≠ SAND := by
  decide

theorem claim_C2_witness :
    getTileType (gget (processSandbox rngT sbS1 0).1.grid 1 0) = SAND ∧
    (∀ i j, i < sbS1.height → j < sbS1.width → (i, j) ≠ (1, 0) →
      getTileType (gget (processSandbox rngT sbS1 0).1.grid i j) = AIR) :=
  claim_C2 rngT sbS1 0 0 0 (by decide) (by decide) (by decide) (by decide)
    (by decide)
    (by
      intro i j hi hj hne
      have hi2 : i < 2 := hi
      have hj2 : j < 1 := hj
      interval_cases i <;> interval_cases j <;>
        first
          | exact absurd rfl hne
          | decide)

/-- C6 counterexample: a resting WATER tile whose only occupied lateral
neighbour carries the FUEL type id — a liquid of a different type by the
spec's classification — does not move: the claimed legality of a
different-liquid destination (and the claimed existence of such a move)
fails on this grid under either coin stream. -/
theorem claim_C6_cex :
    tileIsLiquid (gget sbFW.grid 0 1) = true ∧
    tileIsSolid (gget sbFW.grid 1 1) = true ∧
    specIsLiquid (getTileType (gget sbFW.grid 0 0)) = true ∧
    getTileType (gget sbFW.grid 0 0) ≠ getTileType (gget sbFW.grid 0 1) ∧
    tileIsEmpty (gget sbFW.grid 0 0) = false ∧
    doLiquidFlow rngT 0 sbFW 0 1 = (sbFW, 0) ∧
    doLiquidFlow rngF 0 sbFW 0 1 = (sbFW, 0) := by
  decide

/-- C7 counterexample: SAND with the down-left cell legal only as a slide
and the down-right cell legal only as a sink moves down-left under either
coin stream with the draw counter unchanged — the choice is not uniformly
random as claimed for this mixed case. -/
theorem claim_C7_cex :
    tileIsEmpty (gget sbMix.grid 1 0) = true ∧
    canSink sbMix 0 1 1 0 = false ∧
    tileIsEmpty (gget sbMix.grid 1 2) = false ∧
    canSink sbMix 0 1 1 2 = true ∧
    doGravity rngT 5 sbMix 0 1 =
      ({ sbMix with grid := swapTiles 0 1 1 0 sbMix.grid }, 5) ∧
    doGravity rngF 5 sbMix 0 1 =
      ({ sbMix with grid := swapTiles 0 1 1 0 sbMix.grid }, 5) := by
  decide

theorem stepWF_water (rng : Rng) (k L : Nat) (hL : L % 2 = 1) :
    stepCell rng ((⟨[[WATER, FIRE]], 2, 1, L⟩ : Sandbox), k) (0, 0) =
      ((⟨[[WATER + 128, FIRE]], 2, 1, L⟩ : Sandbox), k) := by
  have h1 : getTimeParity L = 1 := hL
  simp [stepCell, isTileUpdated, setTileUpdated, h1, rollShouldTileSurvive,
    rollShouldTileBurn, doGravity, doLiquidFlow, slideLeftOrRight,
    doExtinguish, doLift, gget, gset, ggetI, gsetI, getTileLifespan,
    tileFlammability, tileIsEmpty, tileHasGravity, tileIsLiquid, tileIsGas,
    getTileType, getUpdatedFlag, getTimeParity, hL, WATER, FIRE, AIR]

theorem stepWF_fire (rng : Rng) (k L : Nat) (hL : L % 2 = 1)
    (hsurv : rng.survive k = true) :
    stepCell rng ((⟨[[WATER + 128, FIRE]], 2, 1, L⟩ : Sandbox), k) (0, 1) =
      ((⟨[[WATER + 128, STEAM + 128]], 2, 1, L⟩ : Sandbox), k + 1) := by
  have h1 : getTimeParity L = 1 := hL
  simp [stepCell, isTileUpdated, setTileUpdated, h1, rollShouldTileSurvive,
    rollShouldTileBurn, doGravity, doLiquidFlow, slideLeftOrRight,
    doExtinguish, doLift, createTile, canLift, areTilesSameType, randint,
    gget, gset, ggetI, gsetI, getTileLifespan, tileIsIncendiary,
    tileFlammability, tileIsEmpty, tileHasGravity, tileIsLiquid, tileIsGas,
    tileIsSolid, getTileType, getUpdatedFlag, getTimeParity, hL, hsurv,
    WATER, FIRE, STEAM, AIR]

/-- C8 as amended: in the 1 × 2 sandbox [WATER, FIRE] — where the created
steam has no cell to lift into — with the water byte carrying either flag,
the fire not yet updated (odd lifetime, clear flag) and the fire's survival
draw succeeding, one `process_sandbox` call leaves STEAM in the cell that
held the fire; without the survival proviso the fire may instead be deleted,
as the counterexample shows. -/
theorem claim_C8 (rng : Rng) (k L w : Nat)
    (hw : w = WATER ∨ w = WATER + 128) (hL : L % 2 = 1)
    (hsurv : rng.survive k = true) :
    getTileType
      (gget (processSandbox rng (⟨[[w, FIRE]], 2, 1, L⟩ : Sandbox) k).1.grid
        0 1) = STEAM := by
  have h1 : getTimeParity L = 1 := hL
  rcases hw with hw | hw <;> subst hw
  · have hfold : (cellOrder (1 : Nat) 2).foldl (stepCell rng)
        ((⟨[[WATER, FIRE]], 2, 1, L⟩ : Sandbox), k) =
        ((⟨[[WATER + 128, STEAM + 128]], 2, 1, L⟩ : Sandbox), k + 1) := by
      show ([(0, 0), (0, 1)] : List (Nat × Nat)).foldl (stepCell rng) _ = _
      rw [List.foldl_cons, stepWF_water rng k L hL, List.foldl_cons,
        stepWF_fire rng k L hL hsurv]
      rfl
    have hg : (processSandbox rng (⟨[[WATER, FIRE]], 2, 1, L⟩ : Sandbox)
        k).1.grid = ((cellOrder (1 : Nat) 2).foldl (stepCell rng)
        ((⟨[[WATER, FIRE]], 2, 1, L⟩ : Sandbox), k)).1.grid := rfl
    rw [hg, hfold]
    show getTileType (gget [[WATER + 128, STEAM + 128]] 0 1) = STEAM
    decide
  · have hskip : stepCell rng ((⟨[[WATER + 128, FIRE]], 2, 1, L⟩ : Sandbox), k)
        (0, 0) = ((⟨[[WATER + 128, FIRE]], 2, 1, L⟩ : Sandbox), k) := by
      apply stepCell_skip_updated
      show (getUpdatedFlag (gget [[WATER + 128, FIRE]] 0 0) ==
        getTimeParity L) = true
      rw [h1]
      decide
    have hfold : (cellOrder (1 : Nat) 2).foldl (stepCell rng)
        ((⟨[[WATER + 128, FIRE]], 2, 1, L⟩ : Sandbox), k) =
        ((⟨[[WATER + 128, STEAM + 128]], 2, 1, L⟩ : Sandbox), k + 1) := by
      show ([(0, 0), (0, 1)] : List (Nat × Nat)).foldl (stepCell rng) _ = _
      rw [List.foldl_cons, hskip, List.foldl_cons,
        stepWF_fire rng k L hL hsurv]
      rfl
    have hg : (processSandbox rng (⟨[[WATER + 128, FIRE]], 2, 1, L⟩ :
        Sandbox) k).1.grid = ((cellOrder (1 : Nat) 2).foldl (stepCell rng)
        ((⟨[[WATER + 128, FIRE]], 2, 1, L⟩ : Sandbox), k)).1.grid := rfl
    rw [hg, hfold]
    show getTileType (gget [[WATER + 128, STEAM + 128]] 0 1) = STEAM
    decide

theorem claim_C8_witness :
    getTileType (gget (processSandbox rngT sbWF 0).1.grid 0 1) = STEAM :=
  claim_C8 rngT 0 1 WATER (Or.inl rfl) (by decide) (by decide)

/-- C8 counterexample: WATER immediately left of FIRE, but the fire fails
its survival roll and is deleted before the extinguish step — after one
pass the cell that held the fire holds AIR, not STEAM. -/
theorem claim_C8_cex :
    getTileType (gget sbWFA.grid 0 0) = WATER ∧
    getTileType (gget sbWFA.grid 0 1) = FIRE ∧
    getTileType (gget (processSandbox rngF sbWFA 0).1.grid 0 1) ≠ STEAM := by
  decide

/-- C6 as amended: under the resting precondition (bottom edge, solid
below, or liquid below), a lateral destination of `do_liquid_flow` is legal
exactly when it is on the grid and empty: when both destinations are legal
a coin flip picks one, when exactly one is legal that one is taken, and
otherwise no movement occurs. A destination occupied by anything — a liquid
of a different type included — is never entered. -/
theorem claim_C6 (rng : Rng) (k : Nat) (s : Sandbox) (r c : Nat)
    (hcw : c < s.width)
    (hrest : r + 1 = s.height ∨
      tileIsSolid (gget s.grid (r + 1) c) = true ∨
      tileIsLiquid (gget s.grid (r + 1) c) = true) :
    ((1 ≤ c ∧ tileIsEmpty (gget s.grid r (c - 1)) = true) →
      (c + 1 < s.width ∧ tileIsEmpty (gget s.grid r (c + 1)) = true) →
      doLiquidFlow rng k s (r : Int) (c : Int) =
        (if rng.coin k = true then
          ({ s with grid := swapTiles (r : Int) (c : Int) (r : Int) ((c : Int) - 1) s.grid }, k + 1)
        else
          ({ s with grid := swapTiles (r : Int) (c : Int) (r : Int) ((c : Int) + 1) s.grid }, k + 1))) ∧
    ((1 ≤ c ∧ tileIsEmpty (gget s.grid r (c - 1)) = true) →
      (c + 1 = s.width ∨ tileIsEmpty (gget s.grid r (c + 1)) = false) →
      doLiquidFlow rng k s (r : Int) (c : Int) =
        ({ s with grid := swapTiles (r : Int) (c : Int) (r : Int) ((c : Int) - 1) s.grid }, k)) ∧
    ((c = 0 ∨ tileIsEmpty (gget s.grid r (c - 1)) = false) →
      (c + 1 < s.width ∧ tileIsEmpty (gget s.grid r (c + 1)) = true) →
      doLiquidFlow rng k s (r : Int) (c : Int) =
        ({ s with grid := swapTiles (r : Int) (c : Int) (r : Int) ((c : Int) + 1) s.grid }, k)) ∧
    ((c = 0 ∨ tileIsEmpty (gget s.grid r (c - 1)) = false) →
      (c + 1 = s.width ∨ tileIsEmpty (gget s.grid r (c + 1)) = false) →
      doLiquidFlow rng k s (r : Int) (c : Int) = (s, k)) := by
  have hguard : (!(((r : Int) + 1 == (s.height : Int)) ||
      tileIsSolid (ggetI s.grid ((r : Int) + 1) (c : Int))) &&
      !tileIsLiquid (ggetI s.grid ((r : Int) + 1) (c : Int))) = false := by
    rcases hrest with h | h | h
    · have hb : (((r : Int) + 1) == (s.height : Int)) = true := by
        simp only [beq_iff_eq]
        omega
      simp [hb]
    · have hb : tileIsSolid (ggetI s.grid ((r : Int) + 1) (c : Int)) = true := by
        rw [intCast_add_one, ggetI_natCast]
        exact h
      simp [hb]
    · have hb : tileIsLiquid (ggetI s.grid ((r : Int) + 1) (c : Int)) = true := by
        rw [intCast_add_one, ggetI_natCast]
        exact h
      simp [hb]
  have hflow : doLiquidFlow rng k s (r : Int) (c : Int) =
      slideLeftOrRight rng k s (r : Int) (c : Int) := by
    simp only [doLiquidFlow, hguard, Bool.false_eq_true, if_false]
  have hLtrue : (1 ≤ c ∧ tileIsEmpty (gget s.grid r (c - 1)) = true) →
      ((((c : Int) - 1) != (-1 : Int)) &&
        tileIsEmpty (ggetI s.grid (r : Int) ((c : Int) - 1))) = true := by
    intro h
    have h1 : (((c : Int) - 1) != (-1 : Int)) = true := by
      simp only [bne_iff_ne, ne_eq]
      omega
    have h2 : tileIsEmpty (ggetI s.grid (r : Int) ((c : Int) - 1)) = true := by
      rw [intCast_sub_one (by omega), ggetI_natCast]
      exact h.2
    rw [h1, h2]
    rfl
  have hLfalse : (c = 0 ∨ tileIsEmpty (gget s.grid r (c - 1)) = false) →
      ((((c : Int) - 1) != (-1 : Int)) &&
        tileIsEmpty (ggetI s.grid (r : Int) ((c : Int) - 1))) = false := by
    intro h
    rcases h with h | h
    · subst h
      rfl
    · by_cases hc0 : c = 0
      · subst hc0
        rfl
      · have h2 : tileIsEmpty (ggetI s.grid (r : Int) ((c : Int) - 1)) = false := by
          rw [intCast_sub_one hc0, ggetI_natCast]
          exact h
        rw [h2]
        exact Bool.and_false _
  have hRtrue : (c + 1 < s.width ∧ tileIsEmpty (gget s.grid r (c + 1)) = true) →
      ((((c : Int) + 1) != (s.width : Int)) &&
        tileIsEmpty (ggetI s.grid (r : Int) ((c : Int) + 1))) = true := by
    intro h
    have h1 : (((c : Int) + 1) != (s.width : Int)) = true := by
      simp only [bne_iff_ne, ne_eq]
      omega
    have h2 : tileIsEmpty (ggetI s.grid (r : Int) ((c : Int) + 1)) = true := by
      rw [intCast_add_one, ggetI_natCast]
      exact h.2
    rw [h1, h2]
    rfl
  have hRfalse : (c + 1 = s.width ∨ tileIsEmpty (gget s.grid r (c + 1)) = false) →
      ((((c : Int) + 1) != (s.width : Int)) &&
        tileIsEmpty (ggetI s.grid (r : Int) ((c : Int) + 1))) = false := by
    intro h
    rcases h with h | h
    · have h1 : (((c : Int) + 1) != (s.width : Int)) = false := by
        simp only [bne_eq_false_iff_eq]
        omega
      rw [h1]
      exact Bool.false_and _
    · have h2 : tileIsEmpty (ggetI s.grid (r : Int) ((c : Int) + 1)) = false := by
        rw [intCast_add_one, ggetI_natCast]
        exact h
      rw [h2]
      exact Bool.and_false _
  refine ⟨?_, ?_, ?_, ?_⟩
  · intro hL hR
    rw [hflow]
    simp only [slideLeftOrRight, hLtrue hL, hRtrue hR, Bool.and_self, if_true,
      flipCoin]
  · intro hL hR
    rw [hflow]
    simp only [slideLeftOrRight, hLtrue hL, hRfalse hR, Bool.and_false,
      Bool.false_eq_true, if_false, if_true]
  · intro hL hR
    rw [hflow]
    simp only [slideLeftOrRight, hLfalse hL, hRtrue hR, Bool.false_and,
      Bool.false_eq_true, if_false, if_true]
  · intro hL hR
    rw [hflow]
    simp only [slideLeftOrRight, hLfalse hL, hRfalse hR, Bool.and_self,
      Bool.false_eq_true, if_false]

theorem claim_C6_witness :
    doLiquidFlow rngT 0 sbWA 0 0 =
      ({ sbWA with grid := swapTiles 0 0 0 1 sbWA.grid }, 0) :=
  (claim_C6 rngT 0 sbWA 0 0 (by decide)
    (Or.inl (by decide))).2.2.1 (Or.inl (by decide)) ⟨by decide, by decide⟩

/-- C7 as amended: for an interior column with the cell below neither empty
nor sinkable and at least one side unblocked, `do_gravity` draws at random
only when both diagonal destinations are legal by sliding or both are legal
by sinking; in every other combination — the mixed slide/sink cases
included — the choice is deterministic with left priority (down-left if it
is legal by slide or sink, else down-right if legal, else no movement) and
no random draw is consumed. -/
theorem claim_C7 (rng : Rng) (k : Nat) (s : Sandbox) (r c : Nat)
    (hr1 : r + 1 < s.height) (hc0 : 1 ≤ c) (hc1 : c + 1 < s.width)
    (hbe : tileIsEmpty (gget s.grid (r + 1) c) = false)
    (hbs : canSink s (r : Int) (c : Int) ((r : Int) + 1) (c : Int) = false)
    (hnw : tileIsSolid (gget s.grid r (c - 1)) = false ∨
      tileIsSolid (gget s.grid r (c + 1)) = false) :
    (((tileIsSolid (gget s.grid r (c - 1)) = false ∧
        tileIsEmpty (gget s.grid (r + 1) (c - 1)) = true) ∧
       (tileIsSolid (gget s.grid r (c + 1)) = false ∧
        tileIsEmpty (gget s.grid (r + 1) (c + 1)) = true)) ∨
      (canSink s (r : Int) (c : Int) ((r : Int) + 1) ((c : Int) - 1) = true ∧
       canSink s (r : Int) (c : Int) ((r : Int) + 1) ((c : Int) + 1) = true) →
      doGravity rng k s (r : Int) (c : Int) =
        (if rng.coin k = true then
          ({ s with grid := swapTiles (r : Int) (c : Int) ((r : Int) + 1) ((c : Int) - 1) s.grid }, k + 1)
        else
          ({ s with grid := swapTiles (r : Int) (c : Int) ((r : Int) + 1) ((c : Int) + 1) s.grid }, k + 1))) ∧
    (¬ (((tileIsSolid (gget s.grid r (c - 1)) = false ∧
        tileIsEmpty (gget s.grid (r + 1) (c - 1)) = true) ∧
       (tileIsSolid (gget s.grid r (c + 1)) = false ∧
        tileIsEmpty (gget s.grid (r + 1) (c + 1)) = true)) ∨
      (canSink s (r : Int) (c : Int) ((r : Int) + 1) ((c : Int) - 1) = true ∧
       canSink s (r : Int) (c : Int) ((r : Int) + 1) ((c : Int) + 1) = true)) →
      ((tileIsSolid (gget s.grid r (c - 1)) = false ∧
        tileIsEmpty (gget s.grid (r + 1) (c - 1)) = true) ∨
       canSink s (r : Int) (c : Int) ((r : Int) + 1) ((c : Int) - 1) = true) →
      doGravity rng k s (r : Int) (c : Int) =
        ({ s with grid := swapTiles (r : Int) (c : Int) ((r : Int) + 1) ((c : Int) - 1) s.grid }, k)) ∧
    (¬ (((tileIsSolid (gget s.grid r (c - 1)) = false ∧
        tileIsEmpty (gget s.grid (r + 1) (c - 1)) = true) ∧
       (tileIsSolid (gget s.grid r (c + 1)) = false ∧
        tileIsEmpty (gget s.grid (r + 1) (c + 1)) = true)) ∨
      (canSink s (r : Int) (c : Int) ((r : Int) + 1) ((c : Int) - 1) = true ∧
       canSink s (r : Int) (c : Int) ((r : Int) + 1) ((c : Int) + 1) = true)) →
      ¬ ((tileIsSolid (gget s.grid r (c - 1)) = false ∧
        tileIsEmpty (gget s.grid (r + 1) (c - 1)) = true) ∨
       canSink s (r : Int) (c : Int) ((r : Int) + 1) ((c : Int) - 1) = true) →
      ((tileIsSolid (gget s.grid r (c + 1)) = false ∧
        tileIsEmpty (gget s.grid (r + 1) (c + 1)) = true) ∨
       canSink s (r : Int) (c : Int) ((r : Int) + 1) ((c : Int) + 1) = true) →
      doGravity rng k s (r : Int) (c : Int) =
        ({ s with grid := swapTiles (r : Int) (c : Int) ((r : Int) + 1) ((c : Int) + 1) s.grid }, k)) ∧
    (¬ ((tileIsSolid (gget s.grid r (c - 1)) = false ∧
        tileIsEmpty (gget s.grid (r + 1) (c - 1)) = true) ∨
       canSink s (r : Int) (c : Int) ((r : Int) + 1) ((c : Int) - 1) = true) →
      ¬ ((tileIsSolid (gget s.grid r (c + 1)) = false ∧
        tileIsEmpty (gget s.grid (r + 1) (c + 1)) = true) ∨
       canSink s (r : Int) (c : Int) ((r : Int) + 1) ((c : Int) + 1) = true) →
      doGravity rng k s (r : Int) (c : Int) = (s, k)) := by
  have hbe2 : tileIsEmpty (ggetI s.grid ((r : Int) + 1) (c : Int)) = false := by
    rw [intCast_add_one, ggetI_natCast]
    exact hbe
  have hh : (((r : Int) + 1) == (s.height : Int)) = false := by
    simp only [beq_eq_false_iff_ne, ne_eq]
    omega
  have hl1 : (((c : Int) - 1) == (-1 : Int)) = false := by
    simp only [beq_eq_false_iff_ne, ne_eq]
    omega
  have hr1' : (((c : Int) + 1) == (s.width : Int)) = false := by
    simp only [beq_eq_false_iff_ne, ne_eq]
    omega
  have hsL : tileIsSolid (ggetI s.grid (r : Int) ((c : Int) - 1)) =
      tileIsSolid (gget s.grid r (c - 1)) := by
    rw [intCast_sub_one (by omega), ggetI_natCast]
  have hsR : tileIsSolid (ggetI s.grid (r : Int) ((c : Int) + 1)) =
      tileIsSolid (gget s.grid r (c + 1)) := by
    rw [intCast_add_one, ggetI_natCast]
  have heL : tileIsEmpty (ggetI s.grid ((r : Int) + 1) ((c : Int) - 1)) =
      tileIsEmpty (gget s.grid (r + 1) (c - 1)) := by
    rw [intCast_add_one, intCast_sub_one (by omega), ggetI_natCast]
  have heR : tileIsEmpty (ggetI s.grid ((r : Int) + 1) ((c : Int) + 1)) =
      tileIsEmpty (gget s.grid (r + 1) (c + 1)) := by
    rw [intCast_add_one, intCast_add_one, ggetI_natCast]
  have hwall : (tileIsSolid (gget s.grid r (c - 1)) &&
      tileIsSolid (gget s.grid r (c + 1))) = false := by
    rcases hnw with h | h <;> simp [h]
  have hmain : doGravity rng k s (r : Int) (c : Int) =
      (if ((!tileIsSolid (gget s.grid r (c - 1)) &&
            tileIsEmpty (gget s.grid (r + 1) (c - 1))) &&
           (!tileIsSolid (gget s.grid r (c + 1)) &&
            tileIsEmpty (gget s.grid (r + 1) (c + 1))) ||
          (canSink s (r : Int) (c : Int) ((r : Int) + 1) ((c : Int) - 1) &&
           canSink s (r : Int) (c : Int) ((r : Int) + 1) ((c : Int) + 1))) = true then
        (if rng.coin k = true then
          ({ s with grid := swapTiles (r : Int) (c : Int) ((r : Int) + 1) ((c : Int) - 1) s.grid }, k + 1)
        else
          ({ s with grid := swapTiles (r : Int) (c : Int) ((r : Int) + 1) ((c : Int) + 1) s.grid }, k + 1))
      else if ((!tileIsSolid (gget s.grid r (c - 1)) &&
            tileIsEmpty (gget s.grid (r + 1) (c - 1))) ||
          canSink s (r : Int) (c : Int) ((r : Int) + 1) ((c : Int) - 1)) = true then
        ({ s with grid := swapTiles (r : Int) (c : Int) ((r : Int) + 1) ((c : Int) - 1) s.grid }, k)
      else if ((!tileIsSolid (gget s.grid r (c + 1)) &&
            tileIsEmpty (gget s.grid (r + 1) (c + 1))) ||
          canSink s (r : Int) (c : Int) ((r : Int) + 1) ((c : Int) + 1)) = true then
        ({ s with grid := swapTiles (r : Int) (c : Int) ((r : Int) + 1) ((c : Int) + 1) s.grid }, k)
      else (s, k)) := by
    simp only [doGravity, hh, Bool.false_eq_true, if_false, hbe2, hbs,
      Bool.or_self, hl1, hr1', Bool.false_or, hsL, hsR, heL, heR, hwall,
      flipCoin]
  refine ⟨?_, ?_, ?_, ?_⟩
  · intro hrand
    rw [hmain]
    rcases hrand with ⟨⟨ha, hb⟩, he, hd⟩ | ⟨ha, hb⟩
    · simp [ha, hb, he, hd]
    · simp [ha, hb]
  · intro hnr hleft
    have h1 : ((!tileIsSolid (gget s.grid r (c - 1)) &&
          tileIsEmpty (gget s.grid (r + 1) (c - 1))) &&
         (!tileIsSolid (gget s.grid r (c + 1)) &&
          tileIsEmpty (gget s.grid (r + 1) (c + 1))) ||
        (canSink s (r : Int) (c : Int) ((r : Int) + 1) ((c : Int) - 1) &&
         canSink s (r : Int) (c : Int) ((r : Int) + 1) ((c : Int) + 1))) = false := by
      apply Bool.eq_false_iff.mpr
      intro hx
      apply hnr
      simpa only [Bool.or_eq_true, Bool.and_eq_true, Bool.not_eq_true'] using hx
    have h2 : ((!tileIsSolid (gget s.grid r (c - 1)) &&
          tileIsEmpty (gget s.grid (r + 1) (c - 1))) ||
        canSink s (r : Int) (c : Int) ((r : Int) + 1) ((c : Int) - 1)) = true := by
      rcases hleft with ⟨ha, hb⟩ | ha
      · simp [ha, hb]
      · simp [ha]
    rw [hmain]
    simp only [h1, h2, Bool.false_eq_true, if_false, if_true]
  · intro hnr hnl hright
    have h1 : ((!tileIsSolid (gget s.grid r (c - 1)) &&
          tileIsEmpty (gget s.grid (r + 1) (c - 1))) &&
         (!tileIsSolid (gget s.grid r (c + 1)) &&
          tileIsEmpty (gget s.grid (r + 1) (c + 1))) ||
        (canSink s (r : Int) (c : Int) ((r : Int) + 1) ((c : Int) - 1) &&
         canSink s (r : Int) (c : Int) ((r : Int) + 1) ((c : Int) + 1))) = false := by
      apply Bool.eq_false_iff.mpr
      intro hx
      apply hnr
      simpa only [Bool.or_eq_true, Bool.and_eq_true, Bool.not_eq_true'] using hx
    have h2 : ((!tileIsSolid (gget s.grid r (c - 1)) &&
          tileIsEmpty (gget s.grid (r + 1) (c - 1))) ||
        canSink s (r : Int) (c : Int) ((r : Int) + 1) ((c : Int) - 1)) = false := by
      apply Bool.eq_false_iff.mpr
      intro hx
      apply hnl
      simpa only [Bool.or_eq_true, Bool.and_eq_true, Bool.not_eq_true'] using hx
    have h3 : ((!tileIsSolid (gget s.grid r (c + 1)) &&
          tileIsEmpty (gget s.grid (r + 1) (c + 1))) ||
        canSink s (r : Int) (c : Int) ((r : Int) + 1) ((c : Int) + 1)) = true := by
      rcases hright with ⟨ha, hb⟩ | ha
      · simp [ha, hb]
      · simp [ha]
    rw [hmain]
    simp only [h1, h2, h3, Bool.false_eq_true, if_false, if_true]
  · intro hnl hnr2
    have h2 : ((!tileIsSolid (gget s.grid r (c - 1)) &&
          tileIsEmpty (gget s.grid (r + 1) (c - 1))) ||
        canSink s (r : Int) (c : Int) ((r : Int) + 1) ((c : Int) - 1)) = false := by
      apply Bool.eq_false_iff.mpr
      intro hx
      apply hnl
      simpa only [Bool.or_eq_true, Bool.and_eq_true, Bool.not_eq_true'] using hx
    have h3 : ((!tileIsSolid (gget s.grid r (c + 1)) &&
          tileIsEmpty (gget s.grid (r + 1) (c + 1))) ||
        canSink s (r : Int) (c : Int) ((r : Int) + 1) ((c : Int) + 1)) = false := by
      apply Bool.eq_false_iff.mpr
      intro hx
      apply hnr2
      simpa only [Bool.or_eq_true, Bool.and_eq_true, Bool.not_eq_true'] using hx
    have h1 : ((!tileIsSolid (gget s.grid r (c - 1)) &&
          tileIsEmpty (gget s.grid (r + 1) (c - 1))) &&
         (!tileIsSolid (gget s.grid r (c + 1)) &&
          tileIsEmpty (gget s.grid (r + 1) (c + 1))) ||
        (canSink s (r : Int) (c : Int) ((r : Int) + 1) ((c : Int) - 1) &&
         canSink s (r : Int) (c : Int) ((r : Int) + 1) ((c : Int) + 1))) = false := by
      rcases Bool.or_eq_false_iff.mp h2 with ⟨ha, hb⟩
      simp [ha, hb]
    rw [hmain]
    simp only [h1, h2, h3, Bool.false_eq_true, if_false]

theorem claim_C7_witness :
    doGravity rngT 5 sbMix 0 1 =
      ({ sbMix with grid := swapTiles 0 1 1 0 sbMix.grid }, 5) :=
  (claim_C7 rngT 5 sbMix 0 1 (by decide) (by decide) (by decide) (by decide)
    (by decide) (Or.inl (by decide))).2.1 (by decide) (Or.inl (by decide))
